import Mathlib

/-!
Verification development for the ProSCAPE ARINC-429 I/O processor core.

The C sources are embedded shallowly:
* 32-bit unsigned machine words are `Nat` values, with `% 2^32` applied
  exactly where the C arithmetic wraps;
* `int32_t` values are `Int` with the two's-complement casts made explicit;
* `float`/`double` arithmetic is idealised as exact rational (`ℚ`)
  arithmetic;
* fallible C functions (returning `EXIT_FAILURE` or writing through
  out-pointers conditionally) become `Option`-valued functions;
* module-level mutable state becomes explicit state records threaded
  through the functions.
-/

namespace ProSCAPE

/-! ## Machine-integer helpers -/

/-- Truncation of a 32-bit unsigned computation, i.e. the implicit
`mod 2^32` of C `uint32_t` arithmetic. -/
def u32 (x : Nat) : Nat := x % 2 ^ 32

/-- Unsigned 32-bit subtraction `a - b` (wraparound-safe, as the C code
relies on for elapsed-time computations). -/
def u32sub (a b : Nat) : Nat := (a + (2 ^ 32 - b % 2 ^ 32)) % 2 ^ 32

/-- Two's-complement reading of a 32-bit word: the C cast
`(int32_t) someUint32`. -/
def toInt32 (x : Nat) : Int := if x < 2 ^ 31 then (x : Int) else (x : Int) - 2 ^ 32

/-- The C cast `(uint32_t) someInt32` (two's complement). -/
def toUint32 (x : Int) : Nat := (x % (2 ^ 32 : Int)).toNat

/-- C cast of a `double` to an integer type: truncation toward zero. -/
def truncQ (v : ℚ) : Int := if v < 0 then -(⌊-v⌋) else ⌊v⌋

/-- The `clamp(value, low, high)` macro of ARINC_common.h. -/
def clampQ (value low high : ℚ) : ℚ :=
  if value > high then high else if value < low then low else value

/-! ## Constants from ARINC_common.h and ARINC_typedefs.h -/

def UINT32_MAX : Nat := 2 ^ 32 - 1
def NUM_BITS_IN_UINT32 : Nat := 32
def INT32_SIGN_BIT_MASK : Nat := 0x80000000

def ARINC429_LBL_MASK : Nat := 0xFF
def ARINC429_SSM_FIELD_SHIFT_VAL : Nat := 29
def ARINC429_SSM_FIELD_LIMIT_MASK : Nat := 0x3
def ARINC429_SDI_FIELD_SHIFT_VAL : Nat := 8
def ARINC429_SDI_FIELD_LIMIT_MASK : Nat := 0x3

def ARINC429_BNR_MAX_DATA_FIELD_SHIFT : Nat := 28
def ARINC429_BNR_STD_MSG_NUM_SIGBITS_18 : Nat := 18
def ARINC429_BNR_STD_MSG_NUM_SIGBITS_19 : Nat := 19
def ARINC429_BNR_STD_MSG_NUM_SIGBITS_20 : Nat := 20
def ARINC429_BNR_STD_MSG_MAX_NUM_SIGBITS : Nat := 20

def ARINC429_BNR_STD_MSG_DATAFIELDMASK_UPTO18SIGBITS : Nat := 0x1FFFFC00
def ARINC429_BNR_STD_MSG_DATAFIELDMASK_19SIGBITS : Nat := 0x1FFFFE00
def ARINC429_BNR_STD_MSG_DATAFIELDMASK_20SIGBITS : Nat := 0x1FFFFF00

def ARINC429_BNR_BCD_MSG_DISCRETE_BITS_SHIFT_VAL : Nat := 10

def ARINC429_BCD_MAX_DIGIT_VAL : Nat := 9
def ARINC429_BCD_DATAFIELDMASK : Nat := 0x1FFFFC00
def ARINC429_BCD_STD_DATA_MAX_DATA_FIELD_SIZE : Nat := 19
def ARINC429_BCD_STD_MSG_DATA_FIELD_SHIFT : Nat := 10
def ARINC429_BCD_BITS_PER_DIGIT : Nat := 4
def ARINC429_BCD_STD_MSG_MAX_NUM_SIGDIGITS : Nat := 5
def ARINC429_BCD_STD_MSG_MAX_NUM_BITS_MSC : Nat := 3

def ARINC429_DISCRETE_MSG_MAX_NUM_BITS : Nat := 19
def ARINC429_DISCRETE_MSG_MAX_DATA_FIELD_SHIFT : Nat := 28

/-- `RevBitsInByte` macro: reverse the bit order within a byte. -/
def RevBitsInByte (b : Nat) : Nat :=
  let s := ((b &&& 0xF0) >>> 4) ||| ((b &&& 0x0F) <<< 4)
  let t := ((s &&& 0xCC) >>> 2) ||| ((s &&& 0x33) <<< 2)
  (((t &&& 0xAA) >>> 1)) ||| ((t &&& 0x55) <<< 1)

/-- `FormatLabelNumber` macro: compose the octal digits of a printed label
and bit-reverse the byte into wire order. -/
def FormatLabelNumber (labelInOctal : Nat) : Nat :=
  RevBitsInByte (((labelInOctal / 100) <<< 6) |||
    (((labelInOctal / 10) - (labelInOctal / 100) * 10) <<< 3) |||
    (labelInOctal - (labelInOctal / 10) * 10))

/-! ## Status enumerations (as their C integer values, since the code
compares them numerically and some enumerators of different enums share a
value) -/

def ARINC429_READ_MSG_ERROR_INVALID_ARGUMENT : Int := -9
def ARINC429_READ_MSG_ERROR_NO_MATCHING_LABEL : Int := -6
def ARINC429_READ_MSG_ERROR_INVALID_MESSAGE : Int := -5
def ARINC429_READ_MSG_ERROR : Int := -4
def ARINC429_READ_MSG_SUCCESS : Int := 0

def ARINC429_WRITE_MSG_ERROR_INVALID_ARGUMENT : Int := -6
def ARINC429_WRITE_MSG_ERROR_INVALID_MSG_DATA : Int := -5
def ARINC429_WRITE_MSG_ERROR_INVALID_MSG_CONFIG : Int := -4
def ARINC429_WRITE_MSG_ERROR : Int := -3
def ARINC429_WRITE_MSG_SENT_DATA_CLIPPED : Int := -1
def ARINC429_WRITE_MSG_SUCCESS : Int := 0

def ARINC429_GET_LABEL_DATA_ERROR_INVALID_ARGUMENT : Int := -5
def ARINC429_GET_LABEL_DATA_ERROR_NO_MATCHING_LABEL : Int := -3
def ARINC429_GET_LABEL_DATA_MSG_SUCCESS : Int := 0

/-- ARINC 429 sign/status-matrix values (`ARINC429_SM` enum). -/
def ARNIC429_SSM_BCD_PLUS : Nat := 0
def ARNIC429_SSM_BCD_NO_COMPUTED_DATA : Nat := 1
def ARNIC429_SSM_BCD_MINUS : Nat := 3
def ARINC429_SSM_BNR_FAILURE_WARNING : Nat := 0
def ARINC429_SSM_BNR_NO_COMPUTED_DATA : Nat := 1
def ARINC429_SSM_BNR_NORMAL_OPERATION : Nat := 3
def ARINC429_SSM_DIS_NORMAL_OPERATION : Nat := 0

/-! ## Data model (ARINC_typedefs.h) -/

inductive ARINC429_MsgType where
  | stdBNR
  | stdBCD
  | discrete
  deriving DecidableEq, Repr

structure ARINC429_LabelConfig where
  label : Nat
  msgType : ARINC429_MsgType
  numSigBits : Nat := 0
  numSigDigits : Nat := 0
  resolution : ℚ := 0
  maxValidValue : ℚ := 0
  minValidValue : ℚ := 0
  numDiscreteBits : Nat := 0
  minTransmitInterval_ms : Nat := 0
  maxTransmitInterval_ms : Nat := 0
  deriving DecidableEq, Repr

structure ARINC429_RxMsgData where
  rawARINCword : Nat
  SM : Nat
  SDI : Nat
  engDataFloat : ℚ
  engDataInt : Int
  discreteBits : Nat
  sysTimeLastGoodMsg_ms : Nat
  isEngDataInBounds : Bool
  isNotBabbling : Bool
  isDataFresh : Bool
  deriving DecidableEq, Repr

structure ARINC429_RxMsg where
  msgConfig : ARINC429_LabelConfig
  data : ARINC429_RxMsgData
  deriving DecidableEq, Repr

structure ARINC429_RxMsgArray where
  rxMsgs : List ARINC429_RxMsg
  maxBusFailureCounts : Nat := 0
  currentCounts : Nat := 0
  hasBusFailed : Bool := false
  deriving DecidableEq, Repr

structure ARINC429_TxMsg where
  msgConfig : ARINC429_LabelConfig
  SM : Nat
  SDI : Nat
  engData : ℚ
  discreteBits : Nat := 0
  deriving DecidableEq, Repr

/-- The contents of a C stack variable that is read without having been
written (e.g. `magHeadingData` on lookup failure); the claims under proof
never depend on it. -/
def uninitRxMsgData : ARINC429_RxMsgData :=
  { rawARINCword := 0, SM := 0, SDI := 0, engDataFloat := 0, engDataInt := 0,
    discreteBits := 0, sysTimeLastGoodMsg_ms := 0, isEngDataInBounds := false,
    isNotBabbling := false, isDataFresh := false }

def maxNumRxMsgsInArray : Nat := 64

/-! ## ARINC_common.c : engineering/raw conversions -/

/-- `ARINC429_BNR_ConvertEngValToRawBNRmsgData`.  Returns
`some (result, isDataClipped)` on `EXIT_SUCCESS`, `none` on
`EXIT_FAILURE`. -/
def ARINC429_BNR_ConvertEngValToRawBNRmsgData (numSigBits : Nat)
    (resolution dataEng : ℚ) : Option (Nat × Bool) :=
  if numSigBits < 1 ∨ numSigBits > ARINC429_BNR_STD_MSG_MAX_NUM_SIGBITS then
    none
  else
    let calcValue : ℚ := if resolution ≠ 0 then dataEng / resolution else 0
    let calcValue : ℚ := calcValue + (if calcValue < 0 then -(1/2 : ℚ) else (1/2 : ℚ))
    let calcValue : ℚ := clampQ calcValue (-(2 ^ 31 : ℚ)) ((2 ^ 31 : ℚ) - 1)
    let calcValueAsInt : Int := truncQ calcValue
    let calcValueAsUint : Nat := toUint32 calcValueAsInt
    let datafieldOvfCheckMaskVal : Nat := u32 (UINT32_MAX <<< numSigBits)
    if calcValueAsUint &&& INT32_SIGN_BIT_MASK ≠ 0 then
      if (calcValueAsUint &&& datafieldOvfCheckMaskVal) ≠ datafieldOvfCheckMaskVal then
        some (1 <<< numSigBits, true)
      else
        some (calcValueAsUint, false)
    else
      if (calcValueAsUint &&& datafieldOvfCheckMaskVal) ≠ 0 then
        some (UINT32_MAX >>> (NUM_BITS_IN_UINT32 - numSigBits), true)
      else
        some (calcValueAsUint, false)

/-- `ARINC429_BNR_ConvertRawMsgDataToEngUnits`. -/
def ARINC429_BNR_ConvertRawMsgDataToEngUnits (numSigBits : Nat)
    (resolution : ℚ) (rawMsgData : Nat) : Option ℚ :=
  if numSigBits < 1 ∨ numSigBits > ARINC429_BNR_STD_MSG_MAX_NUM_SIGBITS then
    none
  else
    let rawMsgData_SignExt : Nat :=
      if ((1 <<< numSigBits) &&& rawMsgData) ≠ 0 then
        rawMsgData ||| u32 (UINT32_MAX <<< numSigBits)
      else rawMsgData
    some ((toInt32 rawMsgData_SignExt : ℚ) * resolution)

/-- `ARINC429_ExtractSDIbits`. -/
def ARINC429_ExtractSDIbits (ARINCMsg : Nat) : Nat :=
  (ARINCMsg >>> ARINC429_SDI_FIELD_SHIFT_VAL) &&& ARINC429_SDI_FIELD_LIMIT_MASK

/-- `ARINC429_ExtractSSMbits`. -/
def ARINC429_ExtractSSMbits (ARINCMsg : Nat) : Nat :=
  (ARINCMsg >>> ARINC429_SSM_FIELD_SHIFT_VAL) &&& ARINC429_SSM_FIELD_LIMIT_MASK

/-- The digit-extraction loop of `ARINC429_BCD_ConvertBCDvalToEngVal`.
Returns the final `(calcValue, tempVal)` pair; a nonzero final `tempVal`
signals failure (invalid digit or leftover data).  `fuel` is a structural
bound on the iteration count; callers pass `numSigDigits`, which can
never be exhausted while `count < numSigDigits` still holds (the loop
runs at most `numSigDigits − count` more times), so the function is
exactly the C `while` loop. -/
def bcdToEngLoop (numSigDigits : Nat) : Nat → Nat → Nat → Nat → Nat → Nat × Nat
  | 0, tempVal, calcValue, _, _ => (calcValue, tempVal)
  | fuel + 1, tempVal, calcValue, multVal, count =>
    if 0 < tempVal ∧ count < numSigDigits then
      let thisDigit := tempVal &&& 0xF
      if thisDigit > ARINC429_BCD_MAX_DIGIT_VAL then
        (calcValue, tempVal)
      else
        bcdToEngLoop numSigDigits fuel (tempVal >>> ARINC429_BCD_BITS_PER_DIGIT)
          (calcValue + multVal * thisDigit) (multVal * 10) (count + 1)
    else
      (calcValue, tempVal)

/-- `ARINC429_BCD_ConvertBCDvalToEngVal`. -/
def ARINC429_BCD_ConvertBCDvalToEngVal (numSigDigits : Nat) (resolution : ℚ)
    (rawBCDdata : Nat) : Option ℚ :=
  if numSigDigits < 1 ∨ numSigDigits > ARINC429_BCD_STD_MSG_MAX_NUM_SIGDIGITS then
    none
  else
    let r := bcdToEngLoop numSigDigits numSigDigits rawBCDdata 0 1 0
    if r.2 = 0 then some ((r.1 : ℚ) * resolution) else none

/-- The digit-packing loop of `ARINC429_BCD_ConvertEngValToBCD`.
Returns the final `(asBCD, tempValue)` pair; a nonzero final `tempValue`
signals clipping.  `fuel` plays the same (never-exhausted) role as in
`bcdToEngLoop`. -/
def engToBCDLoop (numSigDigits numBitsMSC : Nat) : Nat → Nat → Nat → Nat → Nat × Nat
  | 0, tempValue, asBCD, _ => (asBCD, tempValue)
  | fuel + 1, tempValue, asBCD, count =>
    if 0 < tempValue ∧ count < numSigDigits then
      let thisDigit := tempValue % 10
      if numSigDigits = count + 1 ∧
          thisDigit > UINT32_MAX >>> (NUM_BITS_IN_UINT32 - numBitsMSC) then
        (asBCD, tempValue)
      else
        engToBCDLoop numSigDigits numBitsMSC fuel (tempValue / 10)
          (asBCD + (thisDigit <<< (ARINC429_BCD_BITS_PER_DIGIT * count))) (count + 1)
    else
      (asBCD, tempValue)

/-- The maximum-pattern loop of `ARINC429_BCD_ConvertEngValToBCD`
(executed when the input value was clipped). -/
def bcdMaxPattern (numSigDigits numBitsMSC : Nat) : Nat :=
  (List.range numSigDigits).foldl
    (fun asBCD count =>
      let thisDigit := if count ≠ numSigDigits - 1 then ARINC429_BCD_MAX_DIGIT_VAL
        else UINT32_MAX >>> (NUM_BITS_IN_UINT32 - numBitsMSC)
      asBCD + (thisDigit <<< (ARINC429_BCD_BITS_PER_DIGIT * count))) 0

/-- `ARINC429_BCD_ConvertEngValToBCD`.  Returns
`some (rawBCDdata, isDataClipped)` on `EXIT_SUCCESS`. -/
def ARINC429_BCD_ConvertEngValToBCD (numSigDigits : Nat) (resolution : ℚ)
    (numBitsMSC : Nat) (dataEng : ℚ) : Option (Nat × Bool) :=
  if numSigDigits < 1 ∨ numSigDigits > ARINC429_BCD_STD_MSG_MAX_NUM_SIGDIGITS ∨
      numBitsMSC < 1 ∨ numBitsMSC > ARINC429_BCD_BITS_PER_DIGIT then
    none
  else
    let calcValue : ℚ := if resolution ≠ 0 then dataEng / resolution else 0
    let tempValue : Nat :=
      (truncQ (min (calcValue + (1/2 : ℚ)) ((2 ^ 32 : ℚ) - 1))).toNat
    let r := engToBCDLoop numSigDigits numBitsMSC numSigDigits tempValue 0 0
    if r.2 = 0 then
      some (r.1, false)
    else
      some (bcdMaxPattern numSigDigits numBitsMSC, true)

/-! ## ARINC.c : message decoding, dispatch, timekeeping -/

/-- `ARINC429_ProcessStdBNRmessage`.  Returns the read status and the
updated message slot (note: the raw ARINC word is stored before the
conversion is attempted). -/
def ARINC429_ProcessStdBNRmessage (thisRxMsg : ARINC429_RxMsg)
    (ARINCMsg : Nat) : Int × ARINC429_RxMsg :=
  let m := { thisRxMsg with data.rawARINCword := ARINCMsg }
  let rawDataField : Nat :=
    (ARINCMsg >>> (ARINC429_BNR_MAX_DATA_FIELD_SHIFT - m.msgConfig.numSigBits)) &&&
      (UINT32_MAX >>> (NUM_BITS_IN_UINT32 - m.msgConfig.numSigBits - 1))
  match ARINC429_BNR_ConvertRawMsgDataToEngUnits m.msgConfig.numSigBits
      m.msgConfig.resolution rawDataField with
  | none => (ARINC429_READ_MSG_ERROR, m)
  | some dataEng =>
    let calcValue : ℚ := if dataEng < 0 then dataEng - (1/2 : ℚ) else dataEng + (1/2 : ℚ)
    let calcValue : ℚ := clampQ calcValue (-(2 ^ 31 : ℚ)) ((2 ^ 31 : ℚ) - 1)
    let discreteBits : Nat :=
      if m.msgConfig.numDiscreteBits > 0 then
        (ARINCMsg >>> ARINC429_BNR_BCD_MSG_DISCRETE_BITS_SHIFT_VAL) &&&
          (UINT32_MAX >>> (NUM_BITS_IN_UINT32 - m.msgConfig.numDiscreteBits))
      else 0
    (ARINC429_READ_MSG_SUCCESS,
     { m with data := { m.data with
        engDataFloat := dataEng,
        engDataInt := truncQ calcValue,
        discreteBits := discreteBits,
        SM := ARINC429_ExtractSSMbits ARINCMsg,
        SDI := if m.msgConfig.numSigBits ≤ ARINC429_BNR_STD_MSG_NUM_SIGBITS_18 then
          ARINC429_ExtractSDIbits ARINCMsg else 0 } })

/-- `ARINC429_ProcessStdBCDmessage`. -/
def ARINC429_ProcessStdBCDmessage (thisRxMsg : ARINC429_RxMsg)
    (arincMsg : Nat) : Int × ARINC429_RxMsg :=
  if thisRxMsg.msgConfig.numSigDigits < 1 ∨
      thisRxMsg.msgConfig.numSigDigits > ARINC429_BCD_STD_MSG_MAX_NUM_SIGDIGITS ∨
      (thisRxMsg.msgConfig.numSigDigits * 4 - 1) + thisRxMsg.msgConfig.numDiscreteBits >
        ARINC429_BCD_STD_DATA_MAX_DATA_FIELD_SIZE then
    (ARINC429_READ_MSG_ERROR_INVALID_MESSAGE, thisRxMsg)
  else
    let bcdData : Nat :=
      (arincMsg &&& ARINC429_BCD_DATAFIELDMASK) >>>
        (ARINC429_BCD_STD_MSG_DATA_FIELD_SHIFT + ARINC429_BCD_BITS_PER_DIGIT *
          (ARINC429_BCD_STD_MSG_MAX_NUM_SIGDIGITS - thisRxMsg.msgConfig.numSigDigits))
    match ARINC429_BCD_ConvertBCDvalToEngVal thisRxMsg.msgConfig.numSigDigits
        thisRxMsg.msgConfig.resolution bcdData with
    | none => (ARINC429_READ_MSG_ERROR_INVALID_MESSAGE, thisRxMsg)
    | some dataEng =>
      let calcValue : ℚ := dataEng + (if dataEng < 0 then -(1/2 : ℚ) else (1/2 : ℚ))
      let calcValue : ℚ := clampQ calcValue (-(2 ^ 31 : ℚ)) ((2 ^ 31 : ℚ) - 1)
      let discreteBits : Nat :=
        if thisRxMsg.msgConfig.numDiscreteBits > 0 then
          (arincMsg >>> ARINC429_BNR_BCD_MSG_DISCRETE_BITS_SHIFT_VAL) &&&
            (UINT32_MAX >>> (NUM_BITS_IN_UINT32 - thisRxMsg.msgConfig.numDiscreteBits))
        else 0
      (ARINC429_READ_MSG_SUCCESS,
       { thisRxMsg with data := { thisRxMsg.data with
          engDataFloat := dataEng,
          engDataInt := truncQ calcValue,
          discreteBits := discreteBits,
          SM := ARINC429_ExtractSSMbits arincMsg,
          SDI := ARINC429_ExtractSDIbits arincMsg } })

/-- `ARINC429_ProcessDiscreteMessage`. -/
def ARINC429_ProcessDiscreteMessage (thisRxMsg : ARINC429_RxMsg)
    (arincMsg : Nat) : Int × ARINC429_RxMsg :=
  if thisRxMsg.msgConfig.numDiscreteBits < 1 ∨
      thisRxMsg.msgConfig.numDiscreteBits > ARINC429_DISCRETE_MSG_MAX_NUM_BITS then
    (ARINC429_WRITE_MSG_ERROR_INVALID_MSG_CONFIG, thisRxMsg)
  else
    (ARINC429_READ_MSG_SUCCESS,
     { thisRxMsg with data := { thisRxMsg.data with
        engDataFloat := 0,
        engDataInt := 0,
        isEngDataInBounds := false,
        discreteBits := (arincMsg >>> 10) &&&
          (UINT32_MAX >>> (NUM_BITS_IN_UINT32 - thisRxMsg.msgConfig.numDiscreteBits)),
        SM := ARINC429_ExtractSSMbits arincMsg,
        SDI := ARINC429_ExtractSDIbits arincMsg } })

/-- `ARINC429_IsLabelDataFresh` (non-null path). -/
def ARINC429_IsLabelDataFresh (clock_ms : Nat) (rxMsg : ARINC429_RxMsg) : Bool :=
  decide (u32sub clock_ms rxMsg.data.sysTimeLastGoodMsg_ms ≤
    rxMsg.msgConfig.maxTransmitInterval_ms)

/-- `ARINC429_IsLabelDataNotBabbling`. -/
def ARINC429_IsLabelDataNotBabbling (clock_ms : Nat) (rxMsg : ARINC429_RxMsg) : Bool :=
  decide (u32sub clock_ms rxMsg.data.sysTimeLastGoodMsg_ms ≥
    rxMsg.msgConfig.minTransmitInterval_ms)

/-- The per-slot body of the label-match case of
`ARINC429_ProcessReceivedMessage`: type dispatch, followed (on success) by
the babble check and the timestamp update, in that order.  `now` is the
value returned by `Timer23_GetTimestamp_ms()`. -/
def processMatchedMsg (now : Nat) (thisRxMsg : ARINC429_RxMsg)
    (ARINCMsg : Nat) : Int × ARINC429_RxMsg :=
  let r :=
    match thisRxMsg.msgConfig.msgType with
    | ARINC429_MsgType.stdBNR => ARINC429_ProcessStdBNRmessage thisRxMsg ARINCMsg
    | ARINC429_MsgType.stdBCD =>
        ARINC429_ProcessStdBCDmessage { thisRxMsg with data.rawARINCword := ARINCMsg } ARINCMsg
    | ARINC429_MsgType.discrete =>
        ARINC429_ProcessDiscreteMessage { thisRxMsg with data.rawARINCword := ARINCMsg } ARINCMsg
  if r.1 = ARINC429_READ_MSG_SUCCESS then
    (r.1, { r.2 with data := { r.2.data with
       isNotBabbling := ARINC429_IsLabelDataNotBabbling now r.2,
       sysTimeLastGoodMsg_ms := now } })
  else r

/-- The label-search loop of `ARINC429_ProcessReceivedMessage` (bounded by
`numMsgs` and by `maxNumRxMsgsInArray`; first match wins).  Returns the
status, the updated slot list and the `labelMatchFound` flag. -/
def processSearchLoop (now : Nat) (msgs : List ARINC429_RxMsg) (bound : Nat)
    (msgLabel ARINCMsg : Nat) : Int × List ARINC429_RxMsg × Bool :=
  match msgs, bound with
  | [], _ => (ARINC429_READ_MSG_SUCCESS, [], false)
  | ms, 0 => (ARINC429_READ_MSG_SUCCESS, ms, false)
  | m :: rest, b + 1 =>
    if m.msgConfig.label = msgLabel then
      let r := processMatchedMsg now m ARINCMsg
      (r.1, r.2 :: rest, true)
    else
      let r := processSearchLoop now rest b msgLabel ARINCMsg
      (r.1, m :: r.2.1, r.2.2)

/-- `ARINC429_ProcessReceivedMessage` (non-null path).  `now` is the
timestamp the C code obtains from `Timer23_GetTimestamp_ms()` while
processing a successfully decoded message. -/
def ARINC429_ProcessReceivedMessage (now : Nat) (rxMsgArray : ARINC429_RxMsgArray)
    (ARINCMsg : Nat) : Int × ARINC429_RxMsgArray :=
  let msgLabel : Nat := ARINCMsg &&& ARINC429_LBL_MASK
  let r := processSearchLoop now rxMsgArray.rxMsgs maxNumRxMsgsInArray msgLabel ARINCMsg
  if r.2.2 = false then
    (ARINC429_READ_MSG_ERROR_NO_MATCHING_LABEL, { rxMsgArray with rxMsgs := r.2.1 })
  else
    (r.1, { rxMsgArray with rxMsgs := r.2.1 })

/-- `ARINC429_AssembleStdBNRmessage` (non-null path).  The second component
is the assembled word (`none` when the C function leaves `*ARINCMsg`
unwritten). -/
def ARINC429_AssembleStdBNRmessage (txMsg : ARINC429_TxMsg) : Int × Option Nat :=
  match ARINC429_BNR_ConvertEngValToRawBNRmsgData txMsg.msgConfig.numSigBits
      txMsg.msgConfig.resolution txMsg.engData with
  | none => (ARINC429_WRITE_MSG_ERROR, none)
  | some (dataField, isDataClipped) =>
    let writeMsgReturnStatus : Int :=
      if isDataClipped then ARINC429_WRITE_MSG_SENT_DATA_CLIPPED else ARINC429_WRITE_MSG_SUCCESS
    let dataField_Shifted : Nat :=
      u32 (dataField <<< (ARINC429_BNR_MAX_DATA_FIELD_SHIFT - txMsg.msgConfig.numSigBits))
    let dataField_Shifted : Nat :=
      if txMsg.msgConfig.numSigBits = ARINC429_BNR_STD_MSG_NUM_SIGBITS_20 then
        dataField_Shifted &&& ARINC429_BNR_STD_MSG_DATAFIELDMASK_20SIGBITS
      else if txMsg.msgConfig.numSigBits = ARINC429_BNR_STD_MSG_NUM_SIGBITS_19 then
        dataField_Shifted &&& ARINC429_BNR_STD_MSG_DATAFIELDMASK_19SIGBITS
      else
        dataField_Shifted &&& ARINC429_BNR_STD_MSG_DATAFIELDMASK_UPTO18SIGBITS
    let discreteBits_shifted : Nat :=
      if txMsg.msgConfig.numDiscreteBits > 0 then
        (txMsg.discreteBits &&&
          (UINT32_MAX >>> (NUM_BITS_IN_UINT32 - txMsg.msgConfig.numDiscreteBits))) <<<
          ARINC429_BNR_BCD_MSG_DISCRETE_BITS_SHIFT_VAL
      else 0
    let arincMsgTemp : Nat := txMsg.msgConfig.label
    let arincMsgTemp := arincMsgTemp ||| dataField_Shifted
    let arincMsgTemp := arincMsgTemp ||| discreteBits_shifted
    let arincMsgTemp :=
      if txMsg.msgConfig.numSigBits ≤ ARINC429_BNR_STD_MSG_NUM_SIGBITS_18 then
        arincMsgTemp |||
          ((txMsg.SDI &&& ARINC429_SDI_FIELD_LIMIT_MASK) <<< ARINC429_SDI_FIELD_SHIFT_VAL)
      else arincMsgTemp
    let arincMsgTemp := arincMsgTemp |||
      ((txMsg.SM &&& ARINC429_SSM_FIELD_LIMIT_MASK) <<< ARINC429_SSM_FIELD_SHIFT_VAL)
    (writeMsgReturnStatus, some arincMsgTemp)

/-- `ARINC429_AssembleStdBCDmessage` (non-null path). -/
def ARINC429_AssembleStdBCDmessage (txMsg : ARINC429_TxMsg) : Int × Option Nat :=
  if txMsg.msgConfig.numSigDigits < 1 ∨
      txMsg.msgConfig.numSigDigits > ARINC429_BCD_STD_MSG_MAX_NUM_SIGDIGITS ∨
      (txMsg.msgConfig.numSigDigits * 4 - 1) + txMsg.msgConfig.numDiscreteBits >
        ARINC429_BCD_STD_DATA_MAX_DATA_FIELD_SIZE then
    (ARINC429_WRITE_MSG_ERROR_INVALID_MSG_CONFIG, none)
  else if txMsg.engData < 0 then
    (ARINC429_WRITE_MSG_ERROR_INVALID_MSG_DATA, none)
  else
    match ARINC429_BCD_ConvertEngValToBCD txMsg.msgConfig.numSigDigits
        txMsg.msgConfig.resolution ARINC429_BCD_STD_MSG_MAX_NUM_BITS_MSC
        txMsg.engData with
    | none => (ARINC429_WRITE_MSG_ERROR, none)
    | some (dataField, isDataClipped) =>
      let writeMsgReturnStatus : Int :=
        if isDataClipped then ARINC429_WRITE_MSG_SENT_DATA_CLIPPED else ARINC429_WRITE_MSG_SUCCESS
      let dataField_shifted : Nat :=
        u32 (dataField <<< (ARINC429_BCD_STD_MSG_DATA_FIELD_SHIFT +
          ARINC429_BCD_BITS_PER_DIGIT *
            (ARINC429_BCD_STD_MSG_MAX_NUM_SIGDIGITS - txMsg.msgConfig.numSigDigits)))
      let dataField_shifted := dataField_shifted &&& ARINC429_BCD_DATAFIELDMASK
      let discreteBits_shifted : Nat :=
        if txMsg.msgConfig.numDiscreteBits > 0 then
          (txMsg.discreteBits &&&
            (UINT32_MAX >>> (NUM_BITS_IN_UINT32 - txMsg.msgConfig.numDiscreteBits))) <<<
            ARINC429_BNR_BCD_MSG_DISCRETE_BITS_SHIFT_VAL
        else 0
      let arincMsgTemp : Nat := txMsg.msgConfig.label
      let arincMsgTemp := arincMsgTemp ||| dataField_shifted
      let arincMsgTemp := arincMsgTemp ||| discreteBits_shifted
      let arincMsgTemp := arincMsgTemp |||
        ((txMsg.SDI &&& ARINC429_SDI_FIELD_LIMIT_MASK) <<< ARINC429_SDI_FIELD_SHIFT_VAL)
      let arincMsgTemp := arincMsgTemp |||
        ((txMsg.SM &&& ARINC429_SSM_FIELD_LIMIT_MASK) <<< ARINC429_SSM_FIELD_SHIFT_VAL)
      (writeMsgReturnStatus, some arincMsgTemp)

/-- `ARINC429_CheckValidityOfARINC_BNR_Data`. -/
def ARINC429_CheckValidityOfARINC_BNR_Data (engData : ℚ)
    (lblCfg : ARINC429_LabelConfig) : Nat :=
  if engData < lblCfg.minValidValue ∨ engData > lblCfg.maxValidValue then
    ARINC429_SSM_BNR_FAILURE_WARNING
  else ARINC429_SSM_BNR_NORMAL_OPERATION

/-- The label-lookup loop of `ARINC429_GetLatestLabelData`. -/
def getLabelSearchLoop (now : Nat) (msgs : List ARINC429_RxMsg) (bound : Nat)
    (hexFlippedLabel : Nat) : Option ARINC429_RxMsgData :=
  match msgs, bound with
  | [], _ => none
  | _, 0 => none
  | m :: rest, b + 1 =>
    if m.msgConfig.label = hexFlippedLabel then
      some { m.data with isDataFresh := ARINC429_IsLabelDataFresh now m }
    else getLabelSearchLoop now rest b hexFlippedLabel

/-- `ARINC429_GetLatestLabelData` (non-null path).  `now` is the
timestamp obtained from `Timer23_GetTimestamp_ms()` during the lookup. -/
def ARINC429_GetLatestLabelData (now : Nat) (rxMsgArray : ARINC429_RxMsgArray)
    (hexFlippedLabel : Nat) : Int × Option ARINC429_RxMsgData :=
  match getLabelSearchLoop now rxMsgArray.rxMsgs maxNumRxMsgsInArray hexFlippedLabel with
  | some d => (ARINC429_GET_LABEL_DATA_MSG_SUCCESS, some d)
  | none => (ARINC429_GET_LABEL_DATA_ERROR_NO_MATCHING_LABEL, none)

/-! ## calculateNewARINCLabels.c : transmit-side label configurations -/

/-- Slip/skid indicated side-slip angle (`arincLabel250Config`). -/
def arincLabel250Config : ARINC429_LabelConfig :=
  { label := FormatLabelNumber 250, msgType := ARINC429_MsgType.stdBNR,
    resolution := (439453 : ℚ) / 10 ^ 7, numSigBits := 12,
    minValidValue := -180, maxValidValue := 180 }

/-- Turn rate (`arincLabel340Config`). -/
def arincLabel340Config : ARINC429_LabelConfig :=
  { label := FormatLabelNumber 340, msgType := ARINC429_MsgType.stdBNR,
    numSigBits := 13, resolution := (15625 : ℚ) / 10 ^ 6,
    minValidValue := -128, maxValidValue := 128 }

/-- Baro correction (`arincLabel235Config`). -/
def arincLabel235Config : ARINC429_LabelConfig :=
  { label := FormatLabelNumber 235, msgType := ARINC429_MsgType.stdBCD,
    numSigBits := 19, resolution := (1 : ℚ) / 10 ^ 3,
    numDiscreteBits := 0, numSigDigits := 5 }

/-! ## External filter modules (referenced by calculateNewARINCLabels.c
but implemented in COMIIRFilter.c / COMIIRDifferentiator.c, which are not
part of this repository snapshot) -/

/-- Modelled from the spec: `sIIR_struct` of the missing COMIIRFilter.c,
a first-order IIR low-pass filter with recurrence
`y[n] = k1*y[n-1] + k2*x[n]`. -/
structure sIIR_struct where
  k1 : ℚ
  k2 : ℚ
  prevOutput : ℚ
  deriving DecidableEq, Repr

/-- Modelled from the spec: `f32_IIRFilter` of the missing COMIIRFilter.c;
returns the new output and the updated state. -/
def f32_IIRFilter (x : ℚ) (f : sIIR_struct) : ℚ × sIIR_struct :=
  let y := f.k1 * f.prevOutput + f.k2 * x
  (y, { f with prevOutput := y })

/-- Modelled from the spec: `v_IIRReset` zeros the previous output. -/
def v_IIRReset (f : sIIR_struct) : sIIR_struct := { f with prevOutput := 0 }

/-- Modelled from the spec: `v_IIRPreload` sets the previous output to the
given sample. -/
def v_IIRPreload (x : ℚ) (f : sIIR_struct) : sIIR_struct := { f with prevOutput := x }

/-- Modelled from the spec: `IIRDiff_Filter` of the missing
COMIIRDifferentiator.c, a rate-limited differentiator.  The spec gives
the coefficient `k1` in the configuration block but does not describe its
use, so it is carried but unused. -/
structure IIRDiff_Filter where
  k1 : ℚ
  sampleRate : ℚ
  upperLimit : ℚ
  lowerLimit : ℚ
  upperDelta : ℚ
  lowerDelta : ℚ
  pastInput : ℚ
  pastOutputOfDiff : ℚ
  deriving DecidableEq, Repr

/-- Modelled from the spec: `IIR_Differentiator_Limited`:
`raw = (x[n] − x[n-1]) · sample_rate_hz`, clamped to
`[lower_limit, upper_limit]`; if the input delta falls outside
`[lower_delta, upper_delta]` the previous output is substituted. -/
def IIR_Differentiator_Limited (x : ℚ) (f : IIRDiff_Filter) : ℚ × IIRDiff_Filter :=
  let delta := x - f.pastInput
  let rawDeriv := delta * f.sampleRate
  let clamped := clampQ rawDeriv f.lowerLimit f.upperLimit
  let y := if delta > f.upperDelta ∨ delta < f.lowerDelta then f.pastOutputOfDiff else clamped
  (y, { f with pastInput := x, pastOutputOfDiff := y })

/-- Modelled from the spec: `IIRDifferentiatorReset` zeros the
differentiator history. -/
def IIRDifferentiatorReset (f : IIRDiff_Filter) : IIRDiff_Filter :=
  { f with pastInput := 0, pastOutputOfDiff := 0 }

/-- Modelled from the spec: `IIRDifferentiatorPreload` loads the given
value into the past input. -/
def IIRDifferentiatorPreload (x : ℚ) (f : IIRDiff_Filter) : IIRDiff_Filter :=
  { f with pastInput := x }

/-! ## calculateNewARINCLabels.c : spool state machines and status words -/

def filterGoodThreshold : Nat := 10

/-- The module-level state mutated only by `CalculateTurnRate`. -/
structure TurnRateState where
  isIIRDiffGood : Bool
  iirDiffGoodCount : Nat
  magHeadingIIRDiff : IIRDiff_Filter
  deriving DecidableEq, Repr

/-- The module-level state mutated only by `CalculateSlipAngle`. -/
structure SlipAngleState where
  isIIRSlipFilterGood : Bool
  iirFilterGoodCount : Nat
  accelerationZFilter : sIIR_struct
  deriving DecidableEq, Repr

/-- `CalculateTurnRate` (non-null path).  `now` is the timestamp used by
the embedded `ARINC429_GetLatestLabelData` call; the returned pair is the
assembled ARINC word (0 when assembly fails, which cannot happen for this
configuration) and the updated module state. -/
def CalculateTurnRate (now : Nat) (rxMsgArray : ARINC429_RxMsgArray)
    (st : TurnRateState) : Nat × TurnRateState :=
  let r := ARINC429_GetLatestLabelData now rxMsgArray (FormatLabelNumber 320)
  let magHeadingData := r.2.getD uninitRxMsgData
  let step : Nat × ℚ × TurnRateState :=
    if r.1 = ARINC429_GET_LABEL_DATA_MSG_SUCCESS ∧
        magHeadingData.isDataFresh = true ∧
        magHeadingData.isNotBabbling = true ∧
        magHeadingData.SM = ARINC429_SSM_BNR_NORMAL_OPERATION then
      if st.isIIRDiffGood then
        let d := IIR_Differentiator_Limited magHeadingData.engDataFloat st.magHeadingIIRDiff
        (ARINC429_CheckValidityOfARINC_BNR_Data d.1 arincLabel340Config, d.1,
          { st with magHeadingIIRDiff := d.2 })
      else
        let spool : ℚ × IIRDiff_Filter :=
          if st.iirDiffGoodCount = 0 then
            (0, IIRDifferentiatorPreload magHeadingData.engDataFloat
              (IIRDifferentiatorReset st.magHeadingIIRDiff))
          else
            IIR_Differentiator_Limited magHeadingData.engDataFloat st.magHeadingIIRDiff
        let newCount := st.iirDiffGoodCount + 1
        (ARINC429_SSM_BNR_FAILURE_WARNING, spool.1,
          { isIIRDiffGood := if newCount ≥ filterGoodThreshold then true else st.isIIRDiffGood,
            iirDiffGoodCount := newCount,
            magHeadingIIRDiff := spool.2 })
    else
      (ARINC429_SSM_BNR_FAILURE_WARNING, st.magHeadingIIRDiff.pastOutputOfDiff,
        { st with isIIRDiffGood := false, iirDiffGoodCount := 0 })
  let txMsgTurnRate : ARINC429_TxMsg :=
    { msgConfig := arincLabel340Config, SM := step.1, SDI := magHeadingData.SDI,
      engData := step.2.1 }
  ((ARINC429_AssembleStdBNRmessage txMsgTurnRate).2.getD 0, step.2.2)

/-- `CalculateSlipAngle` (non-null path).  The external `f32_ArcTan2` of
the missing COMTrigModule.c is passed in as `arctan2` (taking the same two
arguments); `radToDeg` uses the source's `PI` macro value. -/
def CalculateSlipAngle (arctan2 : ℚ → ℚ → ℚ) (now : Nat)
    (rxMsgArray : ARINC429_RxMsgArray) (st : SlipAngleState) : Nat × SlipAngleState :=
  let rAY := ARINC429_GetLatestLabelData now rxMsgArray (FormatLabelNumber 332)
  let ayData := rAY.2.getD uninitRxMsgData
  let rAZ := ARINC429_GetLatestLabelData now rxMsgArray (FormatLabelNumber 333)
  let azData := rAZ.2.getD uninitRxMsgData
  let radToDeg : ℚ → ℚ := fun x => x * 180 / ((314159265358979 : ℚ) / 10 ^ 14)
  let isAYdataValid : Bool :=
    decide (rAY.1 = ARINC429_GET_LABEL_DATA_MSG_SUCCESS ∧
      ayData.isDataFresh = true ∧ ayData.isNotBabbling = true ∧
      ayData.SM = ARINC429_SSM_BNR_NORMAL_OPERATION)
  let step : Nat × ℚ × SlipAngleState :=
    if rAZ.1 = ARINC429_GET_LABEL_DATA_MSG_SUCCESS ∧
        azData.isDataFresh = true ∧
        azData.isNotBabbling = true ∧
        azData.SM = ARINC429_SSM_BNR_NORMAL_OPERATION then
      if st.isIIRSlipFilterGood then
        let f := f32_IIRFilter azData.engDataFloat st.accelerationZFilter
        let slipAngleInDegrees := radToDeg (arctan2 (-ayData.engDataFloat) (f.1 + 1))
        (ARINC429_CheckValidityOfARINC_BNR_Data slipAngleInDegrees arincLabel250Config,
          slipAngleInDegrees, { st with accelerationZFilter := f.2 })
      else
        let spool : ℚ × sIIR_struct :=
          if st.iirFilterGoodCount = 0 then
            (0, v_IIRPreload azData.engDataFloat (v_IIRReset st.accelerationZFilter))
          else
            let f := f32_IIRFilter azData.engDataFloat st.accelerationZFilter
            (radToDeg (arctan2 (-ayData.engDataFloat) (f.1 + 1)), f.2)
        let newCount := st.iirFilterGoodCount + 1
        (ARINC429_SSM_BNR_FAILURE_WARNING, spool.1,
          { isIIRSlipFilterGood :=
              if newCount > filterGoodThreshold then true else st.isIIRSlipFilterGood,
            iirFilterGoodCount := newCount,
            accelerationZFilter := spool.2 })
    else
      (ARINC429_SSM_BNR_FAILURE_WARNING, 0,
        { st with isIIRSlipFilterGood := false, iirFilterGoodCount := 0 })
  let finalSM : Nat := if isAYdataValid = false then ARINC429_SSM_BNR_FAILURE_WARNING else step.1
  let txMsgSlipAngle : ARINC429_TxMsg :=
    { msgConfig := arincLabel250Config, SM := finalSM, SDI := azData.SDI,
      engData := step.2.1 }
  ((ARINC429_AssembleStdBNRmessage txMsgSlipAngle).2.getD 0, step.2.2)

def AHRS_STATUS_SDI_SSM_MASK : Nat := 0x60000300
def AHRS_272_BIT_25_SET : Nat := 0x2000000
def AHRS_LABEL_271_MSU_FAIL_MASK : Nat := 0x400
def A429_DISC_SSM_FAIL_MASK : Nat := 0x60000000

/-- `CalculateARINCLabel272` (non-null path). -/
def CalculateARINCLabel272 (now : Nat) (rxMsgArray : ARINC429_RxMsgArray)
    (hasADCTimedOut : Bool) : Nat :=
  let r := ARINC429_GetLatestLabelData now rxMsgArray (FormatLabelNumber 271)
  let lbl271Data := r.2.getD uninitRxMsgData
  let label272ARINCWord : Nat := 0x0000005D
  if lbl271Data.isDataFresh = true ∧
      lbl271Data.isNotBabbling = true ∧
      r.1 = ARINC429_GET_LABEL_DATA_MSG_SUCCESS ∧
      lbl271Data.SM = ARINC429_SSM_DIS_NORMAL_OPERATION then
    let w := label272ARINCWord ||| (lbl271Data.rawARINCword &&& AHRS_STATUS_SDI_SSM_MASK)
    let w := if hasADCTimedOut then w ||| AHRS_272_BIT_25_SET else w
    if lbl271Data.rawARINCword &&& AHRS_LABEL_271_MSU_FAIL_MASK ≠ 0 then
      w ||| 0xC00
    else w
  else
    label272ARINCWord ||| A429_DISC_SSM_FAIL_MASK

/-! ## SoftwareVersion.c : version-word generator -/

def MAX_MSG_IDX_VALUE : Nat := 16
def MAX_SYS_IDX_VALUE : Nat := 3
def ARINC429_SWVERSION_LABEL : Nat := 0x7F
def ARINC429_SDI_SHIFT_VAL : Nat := 8
def ARINC429_SUBSYS_IDX_SHIFT_VAL : Nat := 23
def ARINC429_MSGSUB_IDX_SHIFT_VAL : Nat := 18
def ARINC429_SWVER_DATA_SHIFT_VAL : Nat := 10

/-- `subsystemVersionArray` (CC_AFC004, CC_ADC, CC_PAOA). -/
def subsystemVersionArray (i : Nat) : Nat := [0x12, 0x16, 0x17].getD i 0

/-- The module-level state of SoftwareVersion.c: the 3×16 version table
and the two walk indices. -/
structure SWVerState where
  swVersions : Nat → Nat → Nat
  msg_idx : Nat
  sys_idx : Nat

/-- `SWVer_GetNextVersionARINCMsg`: compose the next version word and
advance `msg_idx`/`sys_idx`. -/
def SWVer_GetNextVersionARINCMsg (sdi : Nat) (st : SWVerState) : Nat × SWVerState :=
  let swVersionARINC429Word : Nat := ARINC429_SWVERSION_LABEL
  let subSys := subsystemVersionArray st.sys_idx
  let msgSubIdx := st.msg_idx
  let data := st.swVersions st.sys_idx st.msg_idx
  let w := swVersionARINC429Word ||| u32 (sdi <<< ARINC429_SDI_SHIFT_VAL)
  let w := w ||| u32 (subSys <<< ARINC429_SUBSYS_IDX_SHIFT_VAL)
  let w := w ||| u32 (msgSubIdx <<< ARINC429_MSGSUB_IDX_SHIFT_VAL)
  let w := w ||| u32 (data <<< ARINC429_SWVER_DATA_SHIFT_VAL)
  let msg1 := st.msg_idx + 1
  if msg1 = MAX_MSG_IDX_VALUE then
    let sys1 := st.sys_idx + 1
    if sys1 = MAX_SYS_IDX_VALUE then
      (w, { st with msg_idx := 0, sys_idx := 0 })
    else
      (w, { st with msg_idx := 0, sys_idx := sys1 })
  else
    (w, { st with msg_idx := msg1 })

/-! ## Bit-level toolkit -/

theorem two_pow_mul_or_eq_add {k b : Nat} (h : b < 2 ^ k) (a : Nat) :
    2 ^ k * a ||| b = 2 ^ k * a + b :=
  (Nat.mul_add_lt_is_or h a).symm

theorem or_two_pow_mul_eq_add {k b : Nat} (h : b < 2 ^ k) (a : Nat) :
    b ||| 2 ^ k * a = 2 ^ k * a + b := by
  rw [Nat.or_comm]; exact two_pow_mul_or_eq_add h a

theorem and_two_pow_eq_zero_of_lt {u k : Nat} (h : u < 2 ^ k) : u &&& 2 ^ k = 0 := by
  apply Nat.eq_of_testBit_eq
  intro i
  simp only [Nat.testBit_and, Nat.testBit_two_pow, Nat.zero_testBit]
  by_cases hk : k = i
  · subst hk
    simp [Nat.testBit_lt_two_pow h]
  · simp [hk]

theorem and_eq_zero_of_lt_of_aligned {a b k : Nat} (ha : a < 2 ^ k) (hb : b % 2 ^ k = 0) :
    a &&& b = 0 := by
  apply Nat.eq_of_testBit_eq
  intro i
  simp only [Nat.testBit_and, Nat.zero_testBit]
  rcases Nat.lt_or_ge i k with hi | hi
  · have hbe : b = 2 ^ k * (b / 2 ^ k) := by
      rw [Nat.mul_div_cancel' (Nat.dvd_of_mod_eq_zero hb)]
    rw [hbe, Nat.testBit_mul_pow_two]
    simp [Nat.not_le_of_lt hi]
  · have : a < 2 ^ i := Nat.lt_of_lt_of_le ha (Nat.pow_le_pow_right (by norm_num) hi)
    simp [Nat.testBit_lt_two_pow this]

theorem and_two_pow_eq_of_ge {u k : Nat} (h1 : 2 ^ k ≤ u) (h2 : u < 2 ^ (k + 1)) :
    u &&& 2 ^ k = 2 ^ k := by
  have hu : u = 2 ^ k * 1 + (u - 2 ^ k) := by omega
  have hlt : u - 2 ^ k < 2 ^ k := by
    have : 2 ^ (k + 1) = 2 ^ k + 2 ^ k := by rw [Nat.pow_succ]; omega
    omega
  rw [hu, Nat.mul_add_lt_is_or hlt, Nat.and_distrib_right]
  rw [and_eq_zero_of_lt_of_aligned hlt (by simp [Nat.mul_mod_right])]
  simp [Nat.mul_one]

theorem and_shiftLeft_eq (x y t : Nat) : x &&& (y <<< t) = ((x >>> t) &&& y) <<< t := by
  apply Nat.eq_of_testBit_eq
  intro i
  simp only [Nat.testBit_and, Nat.testBit_shiftLeft, Nat.testBit_shiftRight]
  by_cases h : t ≤ i
  · have : t + (i - t) = i := by omega
    simp [h, this, Bool.and_comm, Bool.and_left_comm]
  · simp [h]

theorem and_mask_window (x m t : Nat) :
    x &&& ((2 ^ m - 1) <<< t) = x / 2 ^ t % 2 ^ m * 2 ^ t := by
  rw [and_shiftLeft_eq, Nat.and_pow_two_sub_one_eq_mod, Nat.shiftRight_eq_div_pow,
    Nat.shiftLeft_eq]

theorem two_pow_sub_one_shiftRight (a b : Nat) : (2 ^ (a + b) - 1) >>> b = 2 ^ a - 1 := by
  rw [Nat.shiftRight_eq_div_pow]
  have h1 : (0:Nat) < 2 ^ b := Nat.two_pow_pos b
  have h2 : (0:Nat) < 2 ^ a := Nat.two_pow_pos a
  have e : (2:Nat) ^ (a + b) = 2 ^ b * 2 ^ a := by rw [Nat.pow_add, Nat.mul_comm]
  have hle : (2:Nat) ^ b ≤ 2 ^ b * 2 ^ a := Nat.le_mul_of_pos_right _ h2
  have key : 2 ^ (a + b) - 1 = 2 ^ b * (2 ^ a - 1) + (2 ^ b - 1) := by
    rw [e, Nat.mul_sub_left_distrib, Nat.mul_one]
    omega
  rw [key, Nat.mul_add_div h1, Nat.div_eq_of_lt (by omega)]
  omega

theorem UINT32_MAX_shiftRight {j : Nat} (h : j ≤ 32) :
    UINT32_MAX >>> j = 2 ^ (32 - j) - 1 := by
  have e : (2:Nat) ^ 32 - 1 = 2 ^ ((32 - j) + j) - 1 := by
    congr 2
    omega
  rw [UINT32_MAX, e, two_pow_sub_one_shiftRight]

theorem UINT32_MAX_shiftLeft_u32 {n : Nat} (h : n ≤ 32) :
    u32 (UINT32_MAX <<< n) = 2 ^ 32 - 2 ^ n := by
  rw [u32, UINT32_MAX, Nat.shiftLeft_eq]
  have h1 : (2:Nat) ^ n ≤ 2 ^ 32 := Nat.pow_le_pow_right (by norm_num) h
  have h2 : (0:Nat) < 2 ^ n := Nat.two_pow_pos n
  have h3 : (2:Nat) ^ 32 ≤ 2 ^ 32 * 2 ^ n := Nat.le_mul_of_pos_right _ h2
  have h4 : (2:Nat) ^ n ≤ 2 ^ 32 * 2 ^ n := by
    calc (2:Nat) ^ n ≤ 2 ^ 32 := h1
    _ ≤ 2 ^ 32 * 2 ^ n := h3
  have key : (2 ^ 32 - 1) * 2 ^ n = 2 ^ 32 * (2 ^ 32 * 2 ^ n / 2 ^ 32 - 1) + (2 ^ 32 - 2 ^ n) := by
    rw [Nat.mul_div_cancel_left _ (by norm_num : (0:Nat) < 2 ^ 32)]
    rw [Nat.mul_sub_right_distrib, Nat.mul_sub_left_distrib, Nat.one_mul, Nat.mul_one]
    omega
  rw [key, Nat.mul_add_mod, Nat.mod_eq_of_lt (by omega)]

theorem u32sub_add_self (T c : Nat) (h : c < 2 ^ 32) : u32sub (T + c) T = c := by
  rw [u32sub]
  have hdm : 2 ^ 32 * (T / 2 ^ 32) + T % 2 ^ 32 = T := Nat.div_add_mod T (2 ^ 32)
  have hT2 : T % 2 ^ 32 < 2 ^ 32 := Nat.mod_lt _ (by norm_num)
  have key : T + c + (2 ^ 32 - T % 2 ^ 32) = c + (T / 2 ^ 32 + 1) * 2 ^ 32 := by
    rw [Nat.add_mul, Nat.one_mul, Nat.mul_comm]
    omega
  rw [key, Nat.add_mul_mod_self_right, Nat.mod_eq_of_lt h]

/-! ## Search-loop lemmas -/

theorem getLabelSearchLoop_absent (now lbl : Nat) :
    ∀ (msgs : List ARINC429_RxMsg) (bound : Nat),
      (∀ m ∈ msgs, m.msgConfig.label ≠ lbl) →
      getLabelSearchLoop now msgs bound lbl = none := by
  intro msgs
  induction msgs with
  | nil => intro bound _; cases bound <;> rfl
  | cons m rest ih =>
    intro bound h
    cases bound with
    | zero => rfl
    | succ b =>
      simp only [getLabelSearchLoop]
      rw [if_neg (h m (List.mem_cons_self _ _))]
      exact ih b fun x hx => h x (List.mem_cons_of_mem _ hx)

theorem getLabelSearchLoop_first_match (now lbl : Nat) (m : ARINC429_RxMsg)
    (post : List ARINC429_RxMsg) (hm : m.msgConfig.label = lbl) :
    ∀ (pre : List ARINC429_RxMsg) (bound : Nat),
      (∀ x ∈ pre, x.msgConfig.label ≠ lbl) →
      pre.length < bound →
      getLabelSearchLoop now (pre ++ m :: post) bound lbl =
        some { m.data with isDataFresh := ARINC429_IsLabelDataFresh now m } := by
  intro pre
  induction pre with
  | nil =>
    intro bound _ hb
    cases bound with
    | zero => simp at hb
    | succ b => simp [getLabelSearchLoop, hm]
  | cons p rest ih =>
    intro bound hpre hb
    cases bound with
    | zero => simp at hb
    | succ b =>
      simp only [List.cons_append, getLabelSearchLoop]
      rw [if_neg (hpre p (List.mem_cons_self _ _))]
      exact ih b (fun x hx => hpre x (List.mem_cons_of_mem _ hx))
        (by simp at hb; omega)

theorem processSearchLoop_absent (now L w : Nat) :
    ∀ (msgs : List ARINC429_RxMsg) (bound : Nat),
      (∀ m ∈ msgs, m.msgConfig.label ≠ L) →
      processSearchLoop now msgs bound L w = (ARINC429_READ_MSG_SUCCESS, msgs, false) := by
  intro msgs
  induction msgs with
  | nil => intro bound _; cases bound <;> rfl
  | cons m rest ih =>
    intro bound h
    cases bound with
    | zero => rfl
    | succ b =>
      simp only [processSearchLoop]
      rw [if_neg (h m (List.mem_cons_self _ _))]
      rw [ih b fun x hx => h x (List.mem_cons_of_mem _ hx)]

theorem processSearchLoop_first_match (now L w : Nat) (m : ARINC429_RxMsg)
    (post : List ARINC429_RxMsg) (hm : m.msgConfig.label = L) :
    ∀ (pre : List ARINC429_RxMsg) (bound : Nat),
      (∀ x ∈ pre, x.msgConfig.label ≠ L) →
      pre.length < bound →
      processSearchLoop now (pre ++ m :: post) bound L w =
        ((processMatchedMsg now m w).1,
          pre ++ (processMatchedMsg now m w).2 :: post, true) := by
  intro pre
  induction pre with
  | nil =>
    intro bound _ hb
    cases bound with
    | zero => simp at hb
    | succ b => simp [processSearchLoop, hm]
  | cons p rest ih =>
    intro bound hpre hb
    cases bound with
    | zero => simp at hb
    | succ b =>
      simp only [List.cons_append, processSearchLoop, List.append_eq]
      rw [if_neg (hpre p (List.mem_cons_self _ _))]
      rw [ih b (fun x hx => hpre x (List.mem_cons_of_mem _ hx)) (by simp at hb; omega)]

/-- Decompose a list at the first element satisfying a decidable predicate. -/
theorem exists_first_match {α : Type} (P : α → Prop) [DecidablePred P] :
    ∀ (ms : List α), (∃ x ∈ ms, P x) →
      ∃ pre m post, ms = pre ++ m :: post ∧ P m ∧ ∀ y ∈ pre, ¬P y := by
  intro ms
  induction ms with
  | nil => rintro ⟨x, hx, _⟩; simp at hx
  | cons a rest ih =>
    intro hex
    by_cases ha : P a
    · exact ⟨[], a, rest, by simp, ha, by simp⟩
    · have hrest : ∃ x ∈ rest, P x := by
        rcases hex with ⟨x, hx, hPx⟩
        rcases List.mem_cons.mp hx with rfl | hmem
        · exact absurd hPx ha
        · exact ⟨x, hmem, hPx⟩
      rcases ih hrest with ⟨pre, m, post, heq, hPm, hpre⟩
      refine ⟨a :: pre, m, post, by simp [heq], hPm, ?_⟩
      intro y hy
      rcases List.mem_cons.mp hy with rfl | hmem
      · exact ha
      · exact hpre y hmem

/-! ## C10 : software-version index walk -/

/-- C10: every call to `SWVer_GetNextVersionARINCMsg` advances `msg_idx`
by one, wrapping at 16 (advancing `sys_idx`, which wraps at 3); starting
from in-range indices, the indices stay in `[0,15]×[0,2]` — so the table
access is in bounds — and the linear position `sys_idx*16 + msg_idx`
advances cyclically by one modulo 48. -/
theorem SWVer_GetNextVersionARINCMsg_advance (st : SWVerState) (sdi : Nat)
    (hm : st.msg_idx ≤ 15) (hs : st.sys_idx ≤ 2) :
    (SWVer_GetNextVersionARINCMsg sdi st).2.msg_idx ≤ 15 ∧
    (SWVer_GetNextVersionARINCMsg sdi st).2.sys_idx ≤ 2 ∧
    (SWVer_GetNextVersionARINCMsg sdi st).2.sys_idx * 16 +
        (SWVer_GetNextVersionARINCMsg sdi st).2.msg_idx =
      (st.sys_idx * 16 + st.msg_idx + 1) % 48 := by
  simp only [SWVer_GetNextVersionARINCMsg, MAX_MSG_IDX_VALUE, MAX_SYS_IDX_VALUE]
  split
  · split
    · simp_all <;> omega
    · simp_all <;> omega
  · simp_all <;> omega

/-- Witness for `SWVer_GetNextVersionARINCMsg_advance` at a concrete
state with `msg_idx = 15`, `sys_idx = 2`. -/
theorem SWVer_GetNextVersionARINCMsg_advance_witness :
    (15 : Nat) ≤ 15 ∧ (2 : Nat) ≤ 2 ∧
    ((SWVer_GetNextVersionARINCMsg 1 ⟨fun _ _ => 0, 15, 2⟩).2.msg_idx ≤ 15 ∧
     (SWVer_GetNextVersionARINCMsg 1 ⟨fun _ _ => 0, 15, 2⟩).2.sys_idx ≤ 2 ∧
     (SWVer_GetNextVersionARINCMsg 1 ⟨fun _ _ => 0, 15, 2⟩).2.sys_idx * 16 +
         (SWVer_GetNextVersionARINCMsg 1 ⟨fun _ _ => 0, 15, 2⟩).2.msg_idx =
       ((2 : Nat) * 16 + 15 + 1) % 48) :=
  ⟨by norm_num, by norm_num,
    SWVer_GetNextVersionARINCMsg_advance ⟨fun _ _ => 0, 15, 2⟩ 1 (by norm_num) (by norm_num)⟩

/-! ## C7 : freshness boundary -/

/-- C7: freshness is recomputed on every read of
`ARINC429_GetLatestLabelData` as `(now − sysTimeLastGoodMsg_ms) ≤
maxTransmitInterval_ms` (unsigned wraparound subtraction), with the
boundary inclusive: for a slot with `maxTransmitInterval_ms = 25` whose
last good receipt was at `T`, the data is reported fresh when the clock
reads `T+25` and stale when it reads `T+26`. -/
theorem GetLatestLabelData_freshness (arr : ARINC429_RxMsgArray)
    (pre post : List ARINC429_RxMsg) (m : ARINC429_RxMsg) (L T : Nat)
    (harr : arr.rxMsgs = pre ++ m :: post)
    (hpre : ∀ x ∈ pre, x.msgConfig.label ≠ L)
    (hb : pre.length < maxNumRxMsgsInArray)
    (hm : m.msgConfig.label = L)
    (hmax : m.msgConfig.maxTransmitInterval_ms = 25)
    (hT : m.data.sysTimeLastGoodMsg_ms = T) :
    (∀ now, (ARINC429_GetLatestLabelData now arr L).2 =
      some { m.data with isDataFresh := decide (u32sub now T ≤ 25) }) ∧
    (ARINC429_GetLatestLabelData (T + 25) arr L).2.map
      (fun d => d.isDataFresh) = some true ∧
    (ARINC429_GetLatestLabelData (T + 26) arr L).2.map
      (fun d => d.isDataFresh) = some false := by
  have hgen : ∀ now, (ARINC429_GetLatestLabelData now arr L).2 =
      some { m.data with isDataFresh := decide (u32sub now T ≤ 25) } := by
    intro now
    rw [ARINC429_GetLatestLabelData, harr,
      getLabelSearchLoop_first_match now L m post hm pre maxNumRxMsgsInArray hpre hb]
    simp [ARINC429_IsLabelDataFresh, hmax, hT]
  refine ⟨hgen, ?_, ?_⟩
  · rw [hgen (T + 25)]
    simp [u32sub_add_self T 25 (by norm_num)]
  · rw [hgen (T + 26)]
    simp [u32sub_add_self T 26 (by norm_num)]

/-- A concrete one-slot receive group used to instantiate theorems with
hypotheses: a discrete label 3 slot, 25 ms maximum transmit interval,
last good receipt at time 100. -/
def freshFixtureSlot : ARINC429_RxMsg where
  msgConfig :=
    { label := 3, msgType := ARINC429_MsgType.discrete,
      numDiscreteBits := 1, maxTransmitInterval_ms := 25 }
  data := { uninitRxMsgData with sysTimeLastGoodMsg_ms := 100 }

/-- The one-slot receive group holding `freshFixtureSlot`. -/
def freshFixtureArr : ARINC429_RxMsgArray where
  rxMsgs := [freshFixtureSlot]

/-- Witness for `GetLatestLabelData_freshness` on a concrete one-slot
receive group. -/
theorem GetLatestLabelData_freshness_witness :
    (ARINC429_GetLatestLabelData 125 freshFixtureArr 3).2.map
      (fun d => d.isDataFresh) = some true ∧
    (ARINC429_GetLatestLabelData 126 freshFixtureArr 3).2.map
      (fun d => d.isDataFresh) = some false :=
  (GetLatestLabelData_freshness freshFixtureArr [] [] freshFixtureSlot 3 100 rfl
    (by simp) (by norm_num [maxNumRxMsgsInArray]) rfl rfl rfl).2

/-! ## Properties of the per-slot processing step -/

/-- A successfully processed slot carries the new timestamp and a babble
flag computed against the *previous* timestamp; the configuration and
(on failure) the timestamp are never touched. -/
theorem processMatchedMsg_props (now : Nat) (m : ARINC429_RxMsg) (w : Nat) :
    (processMatchedMsg now m w).2.msgConfig = m.msgConfig ∧
    ((processMatchedMsg now m w).1 = ARINC429_READ_MSG_SUCCESS →
      (processMatchedMsg now m w).2.data.sysTimeLastGoodMsg_ms = now ∧
      (processMatchedMsg now m w).2.data.isNotBabbling =
        decide (u32sub now m.data.sysTimeLastGoodMsg_ms ≥
          m.msgConfig.minTransmitInterval_ms)) := by
  unfold processMatchedMsg
  cases htype : m.msgConfig.msgType with
  | stdBNR =>
    simp only [ARINC429_ProcessStdBNRmessage]
    cases hc : ARINC429_BNR_ConvertRawMsgDataToEngUnits m.msgConfig.numSigBits
        m.msgConfig.resolution
        ((w >>> (ARINC429_BNR_MAX_DATA_FIELD_SHIFT - m.msgConfig.numSigBits)) &&&
          (UINT32_MAX >>> (NUM_BITS_IN_UINT32 - m.msgConfig.numSigBits - 1))) with
    | none =>
      simp [ARINC429_READ_MSG_ERROR, ARINC429_READ_MSG_SUCCESS]
    | some q =>
      simp [ARINC429_IsLabelDataNotBabbling]
  | stdBCD =>
    simp only [ARINC429_ProcessStdBCDmessage]
    split
    · simp [ARINC429_READ_MSG_ERROR_INVALID_MESSAGE, ARINC429_READ_MSG_SUCCESS]
    · cases hc : ARINC429_BCD_ConvertBCDvalToEngVal m.msgConfig.numSigDigits
          m.msgConfig.resolution
          ((w &&& ARINC429_BCD_DATAFIELDMASK) >>>
            (ARINC429_BCD_STD_MSG_DATA_FIELD_SHIFT + ARINC429_BCD_BITS_PER_DIGIT *
              (ARINC429_BCD_STD_MSG_MAX_NUM_SIGDIGITS - m.msgConfig.numSigDigits))) with
      | none =>
        simp [ARINC429_READ_MSG_ERROR_INVALID_MESSAGE, ARINC429_READ_MSG_SUCCESS]
      | some q =>
        simp [ARINC429_IsLabelDataNotBabbling]
  | discrete =>
    simp only [ARINC429_ProcessDiscreteMessage]
    split
    · simp [ARINC429_WRITE_MSG_ERROR_INVALID_MSG_CONFIG, ARINC429_READ_MSG_SUCCESS]
    · simp [ARINC429_IsLabelDataNotBabbling]

/-- The per-slot processing step never reports `NO_MATCHING_LABEL`
(its possible statuses are success and the decode errors). -/
theorem processMatchedMsg_status_ne (now : Nat) (m : ARINC429_RxMsg) (w : Nat) :
    (processMatchedMsg now m w).1 ≠ ARINC429_READ_MSG_ERROR_NO_MATCHING_LABEL := by
  unfold processMatchedMsg
  cases htype : m.msgConfig.msgType with
  | stdBNR =>
    simp only [ARINC429_ProcessStdBNRmessage]
    cases hc : ARINC429_BNR_ConvertRawMsgDataToEngUnits m.msgConfig.numSigBits
        m.msgConfig.resolution
        ((w >>> (ARINC429_BNR_MAX_DATA_FIELD_SHIFT - m.msgConfig.numSigBits)) &&&
          (UINT32_MAX >>> (NUM_BITS_IN_UINT32 - m.msgConfig.numSigBits - 1))) with
    | none =>
      simp [ARINC429_READ_MSG_ERROR, ARINC429_READ_MSG_SUCCESS,
        ARINC429_READ_MSG_ERROR_NO_MATCHING_LABEL]
    | some q =>
      simp [ARINC429_READ_MSG_SUCCESS, ARINC429_READ_MSG_ERROR_NO_MATCHING_LABEL]
  | stdBCD =>
    simp only [ARINC429_ProcessStdBCDmessage]
    split
    · simp [ARINC429_READ_MSG_ERROR_INVALID_MESSAGE, ARINC429_READ_MSG_SUCCESS,
        ARINC429_READ_MSG_ERROR_NO_MATCHING_LABEL]
    · cases hc : ARINC429_BCD_ConvertBCDvalToEngVal m.msgConfig.numSigDigits
          m.msgConfig.resolution
          ((w &&& ARINC429_BCD_DATAFIELDMASK) >>>
            (ARINC429_BCD_STD_MSG_DATA_FIELD_SHIFT + ARINC429_BCD_BITS_PER_DIGIT *
              (ARINC429_BCD_STD_MSG_MAX_NUM_SIGDIGITS - m.msgConfig.numSigDigits))) with
      | none =>
        simp [ARINC429_READ_MSG_ERROR_INVALID_MESSAGE, ARINC429_READ_MSG_SUCCESS,
          ARINC429_READ_MSG_ERROR_NO_MATCHING_LABEL]
      | some q =>
        simp [ARINC429_READ_MSG_SUCCESS, ARINC429_READ_MSG_ERROR_NO_MATCHING_LABEL]
  | discrete =>
    simp only [ARINC429_ProcessDiscreteMessage]
    split
    · simp [ARINC429_WRITE_MSG_ERROR_INVALID_MSG_CONFIG, ARINC429_READ_MSG_SUCCESS,
        ARINC429_READ_MSG_ERROR_NO_MATCHING_LABEL]
    · simp [ARINC429_READ_MSG_SUCCESS, ARINC429_READ_MSG_ERROR_NO_MATCHING_LABEL]

/-! ## C5 : label routing -/

/-- C5: for a receive group of uniquely-labelled slots (at most the 64 the
search loop visits), `ARINC429_ProcessReceivedMessage` with a word whose
low byte is `L` mutates at most the slot configured for `L` — every slot
with a different label is unchanged — and it returns
`NO_MATCHING_LABEL` exactly when no slot in the group carries label `L`. -/
theorem ProcessReceivedMessage_routing (now : Nat) (arr : ARINC429_RxMsgArray) (w : Nat)
    (hlen : arr.rxMsgs.length ≤ maxNumRxMsgsInArray)
    (huniq : arr.rxMsgs.Pairwise (fun a b => a.msgConfig.label ≠ b.msgConfig.label)) :
    (∀ (i : Nat) (m0 : ARINC429_RxMsg), arr.rxMsgs[i]? = some m0 →
        m0.msgConfig.label ≠ w &&& ARINC429_LBL_MASK →
        (ARINC429_ProcessReceivedMessage now arr w).2.rxMsgs[i]? = some m0) ∧
    ((ARINC429_ProcessReceivedMessage now arr w).1 =
        ARINC429_READ_MSG_ERROR_NO_MATCHING_LABEL ↔
      ∀ m0 ∈ arr.rxMsgs, m0.msgConfig.label ≠ w &&& ARINC429_LBL_MASK) := by
  by_cases hex : ∃ m0 ∈ arr.rxMsgs, m0.msgConfig.label = w &&& ARINC429_LBL_MASK
  · rcases exists_first_match (fun x => x.msgConfig.label = w &&& ARINC429_LBL_MASK)
      arr.rxMsgs hex with ⟨pre, m, post, heq, hPm, hpre⟩
    have hb : pre.length < maxNumRxMsgsInArray := by
      have := congrArg List.length heq
      simp at this
      omega
    have hres : ARINC429_ProcessReceivedMessage now arr w =
        ((processMatchedMsg now m w).1,
          { arr with rxMsgs := pre ++ (processMatchedMsg now m w).2 :: post }) := by
      rw [ARINC429_ProcessReceivedMessage, heq,
        processSearchLoop_first_match now (w &&& ARINC429_LBL_MASK) w m post hPm pre
          maxNumRxMsgsInArray hpre hb]
      simp
    constructor
    · intro i m0 hi hne
      rw [hres]
      simp only
      rw [heq] at hi
      rcases Nat.lt_trichotomy i pre.length with hlt | heqi | hgt
      · rw [List.getElem?_append_left hlt] at hi ⊢
        exact hi
      · subst heqi
        rw [List.getElem?_append_right (Nat.le_refl _)] at hi
        simp at hi
        exact absurd (hi ▸ hPm) hne
      · rw [List.getElem?_append_right (Nat.le_of_lt hgt)] at hi ⊢
        have hd : i - pre.length = (i - pre.length - 1) + 1 := by omega
        rw [hd] at hi ⊢
        simpa using hi
    · rw [hres]
      simp only
      constructor
      · intro hst
        exact absurd hst (processMatchedMsg_status_ne now m w)
      · intro hall
        exact absurd hPm (hall m (heq ▸ List.mem_append_right pre (List.mem_cons_self _ _)))
  · push_neg at hex
    have hres : ARINC429_ProcessReceivedMessage now arr w =
        (ARINC429_READ_MSG_ERROR_NO_MATCHING_LABEL, { arr with rxMsgs := arr.rxMsgs }) := by
      rw [ARINC429_ProcessReceivedMessage,
        processSearchLoop_absent now (w &&& ARINC429_LBL_MASK) w arr.rxMsgs
          maxNumRxMsgsInArray hex]
      simp
    constructor
    · intro i m0 hi _
      rw [hres]
      simpa using hi
    · rw [hres]
      simpa using hex

/-- A discrete slot with label 0x12, used in routing fixtures. -/
def routeSlot12 : ARINC429_RxMsg where
  msgConfig := { label := 0x12, msgType := ARINC429_MsgType.discrete, numDiscreteBits := 1 }
  data := uninitRxMsgData

/-- A discrete slot with label 0x34, used in routing fixtures. -/
def routeSlot34 : ARINC429_RxMsg where
  msgConfig := { label := 0x34, msgType := ARINC429_MsgType.discrete, numDiscreteBits := 1 }
  data := uninitRxMsgData

/-- A two-slot uniquely-labelled fixture group (labels 0x12 and 0x34). -/
def routeFixtureArr : ARINC429_RxMsgArray where
  rxMsgs := [routeSlot12, routeSlot34]

/-- Witness for `ProcessReceivedMessage_routing`: processing a word with
label 0x12 into the two-slot fixture group leaves the 0x34 slot unchanged,
and the routing iff holds for the group. -/
theorem ProcessReceivedMessage_routing_witness :
    (ARINC429_ProcessReceivedMessage 7 routeFixtureArr 0x12).2.rxMsgs[1]? =
      some routeSlot34 ∧
    ((ARINC429_ProcessReceivedMessage 7 routeFixtureArr 0x12).1 =
        ARINC429_READ_MSG_ERROR_NO_MATCHING_LABEL ↔
      ∀ m0 ∈ routeFixtureArr.rxMsgs,
        m0.msgConfig.label ≠ 0x12 &&& ARINC429_LBL_MASK) := by
  have h := ProcessReceivedMessage_routing 7 routeFixtureArr 0x12
    (by norm_num [routeFixtureArr, maxNumRxMsgsInArray])
    (by simp [routeFixtureArr, routeSlot12, routeSlot34])
  exact ⟨h.1 1 routeSlot34 (by simp [routeFixtureArr]) (by decide), h.2⟩

/-! ## C6 : babble check ordering -/

/-- C6: on every successful receipt the pipeline computes
`is_not_babbling` from the timestamp of the *previous* good receipt
(before overwriting `sysTimeLastGoodMsg_ms` with `now`); consequently two
successful receipts at times `t1` and `t2` leave
`is_not_babbling = (t2 − t1 ≥ minTransmitInterval_ms)` (unsigned
subtraction) after the second receipt, whose stored timestamp is `t2`. -/
theorem ProcessReceivedMessage_babble (t1 t2 : Nat) (arr : ARINC429_RxMsgArray)
    (pre post : List ARINC429_RxMsg) (m : ARINC429_RxMsg) (L w1 w2 : Nat)
    (harr : arr.rxMsgs = pre ++ m :: post)
    (hpre : ∀ x ∈ pre, x.msgConfig.label ≠ L)
    (hb : pre.length < maxNumRxMsgsInArray)
    (hm : m.msgConfig.label = L)
    (hw1 : w1 &&& ARINC429_LBL_MASK = L)
    (hw2 : w2 &&& ARINC429_LBL_MASK = L)
    (h1 : (ARINC429_ProcessReceivedMessage t1 arr w1).1 = ARINC429_READ_MSG_SUCCESS)
    (h2 : (ARINC429_ProcessReceivedMessage t2
        (ARINC429_ProcessReceivedMessage t1 arr w1).2 w2).1 = ARINC429_READ_MSG_SUCCESS) :
    ∃ m1 m2 : ARINC429_RxMsg,
      (ARINC429_ProcessReceivedMessage t1 arr w1).2.rxMsgs[pre.length]? = some m1 ∧
      m1.data.isNotBabbling = decide (u32sub t1 m.data.sysTimeLastGoodMsg_ms ≥
        m.msgConfig.minTransmitInterval_ms) ∧
      m1.data.sysTimeLastGoodMsg_ms = t1 ∧
      (ARINC429_ProcessReceivedMessage t2
        (ARINC429_ProcessReceivedMessage t1 arr w1).2 w2).2.rxMsgs[pre.length]? = some m2 ∧
      m2.data.isNotBabbling = decide (u32sub t2 t1 ≥ m.msgConfig.minTransmitInterval_ms) ∧
      m2.data.sysTimeLastGoodMsg_ms = t2 := by
  have hres1 : ARINC429_ProcessReceivedMessage t1 arr w1 =
      ((processMatchedMsg t1 m w1).1,
        { arr with rxMsgs := pre ++ (processMatchedMsg t1 m w1).2 :: post }) := by
    rw [ARINC429_ProcessReceivedMessage, harr, hw1,
      processSearchLoop_first_match t1 L w1 m post hm pre maxNumRxMsgsInArray hpre hb]
    simp
  have hst1 : (processMatchedMsg t1 m w1).1 = ARINC429_READ_MSG_SUCCESS := by
    rw [hres1] at h1
    exact h1
  obtain ⟨hcfg1, hsucc1⟩ := processMatchedMsg_props t1 m w1
  obtain ⟨hts1, hnb1⟩ := hsucc1 hst1
  set m1 := (processMatchedMsg t1 m w1).2 with hm1def
  have hm1lbl : m1.msgConfig.label = L := by rw [hcfg1, hm]
  have hres2 : ARINC429_ProcessReceivedMessage t2
      (ARINC429_ProcessReceivedMessage t1 arr w1).2 w2 =
      ((processMatchedMsg t2 m1 w2).1,
        { (ARINC429_ProcessReceivedMessage t1 arr w1).2 with
          rxMsgs := pre ++ (processMatchedMsg t2 m1 w2).2 :: post }) := by
    rw [ARINC429_ProcessReceivedMessage]
    have : (ARINC429_ProcessReceivedMessage t1 arr w1).2.rxMsgs = pre ++ m1 :: post := by
      rw [hres1]
    rw [this, hw2,
      processSearchLoop_first_match t2 L w2 m1 post hm1lbl pre maxNumRxMsgsInArray hpre hb]
    simp
  have hst2 : (processMatchedMsg t2 m1 w2).1 = ARINC429_READ_MSG_SUCCESS := by
    rw [hres2] at h2
    exact h2
  obtain ⟨hcfg2, hsucc2⟩ := processMatchedMsg_props t2 m1 w2
  obtain ⟨hts2, hnb2⟩ := hsucc2 hst2
  refine ⟨m1, (processMatchedMsg t2 m1 w2).2, ?_, hnb1, hts1, ?_, ?_, hts2⟩
  · rw [hres1]
    simp only
    rw [List.getElem?_append_right (Nat.le_refl _)]
    simp
  · rw [hres2]
    simp only
    rw [List.getElem?_append_right (Nat.le_refl _)]
    simp
  · rw [hnb2, hts1, hcfg1]

/-- A fixture slot for the babble witness: discrete label 0x12 with a
5 ms minimum transmit interval, last good receipt at time 0. -/
def babbleFixtureSlot : ARINC429_RxMsg where
  msgConfig :=
    { label := 0x12, msgType := ARINC429_MsgType.discrete, numDiscreteBits := 1,
      minTransmitInterval_ms := 5 }
  data := uninitRxMsgData

/-- The one-slot fixture group holding `babbleFixtureSlot`. -/
def babbleFixtureArr : ARINC429_RxMsgArray where
  rxMsgs := [babbleFixtureSlot]

/-- Witness for `ProcessReceivedMessage_babble`: receipts at times 10 and
17 (7 ms apart, minimum interval 5 ms). -/
theorem ProcessReceivedMessage_babble_witness :
    ∃ m1 m2 : ARINC429_RxMsg,
      (ARINC429_ProcessReceivedMessage 10 babbleFixtureArr 0x12).2.rxMsgs[
        (0 : Nat)]? = some m1 ∧
      m1.data.isNotBabbling = decide (u32sub 10 0 ≥ 5) ∧
      m1.data.sysTimeLastGoodMsg_ms = 10 ∧
      (ARINC429_ProcessReceivedMessage 17
        (ARINC429_ProcessReceivedMessage 10 babbleFixtureArr 0x12).2 0x12).2.rxMsgs[
        (0 : Nat)]? = some m2 ∧
      m2.data.isNotBabbling = decide (u32sub 17 10 ≥ 5) ∧
      m2.data.sysTimeLastGoodMsg_ms = 17 := by
  have h := ProcessReceivedMessage_babble 10 17 babbleFixtureArr []
    [] babbleFixtureSlot
    0x12 0x12 0x12 rfl (by simp)
    (by norm_num [maxNumRxMsgsInArray]) (by decide) (by decide) (by decide)
    (by decide) (by decide)
  simpa [babbleFixtureSlot, uninitRxMsgData] using h

/-! ## C8 : status-word 272 composition -/

/-- Distributing a bitwise AND over a bitwise OR (Nat). -/
theorem and_distrib_or (a b c : Nat) : (a ||| b) &&& c = (a &&& c) ||| (b &&& c) :=
  Nat.and_distrib_right a b c

/-- C8: when the label-271 slot reads back fresh, not babbling,
successfully, with a discrete normal-operation SSM, its raw word `R` has
the MSU-fail bit `0x400` set, and the ADC-timeout input is true,
`CalculateARINCLabel272` returns a word with bits 10, 11 and 25 set, whose
SDI/SSM bits equal `R &&& 0x60000300`, and whose low label byte is
`0x5D`. -/
theorem CalculateARINCLabel272_composition (now : Nat) (arr : ARINC429_RxMsgArray)
    (pre post : List ARINC429_RxMsg) (m : ARINC429_RxMsg)
    (harr : arr.rxMsgs = pre ++ m :: post)
    (hpre : ∀ x ∈ pre, x.msgConfig.label ≠ FormatLabelNumber 271)
    (hb : pre.length < maxNumRxMsgsInArray)
    (hm : m.msgConfig.label = FormatLabelNumber 271)
    (hfresh : u32sub now m.data.sysTimeLastGoodMsg_ms ≤ m.msgConfig.maxTransmitInterval_ms)
    (hbab : m.data.isNotBabbling = true)
    (hsm : m.data.SM = ARINC429_SSM_DIS_NORMAL_OPERATION)
    (hmsu : m.data.rawARINCword &&& AHRS_LABEL_271_MSU_FAIL_MASK ≠ 0) :
    (CalculateARINCLabel272 now arr true).testBit 10 = true ∧
    (CalculateARINCLabel272 now arr true).testBit 11 = true ∧
    (CalculateARINCLabel272 now arr true).testBit 25 = true ∧
    (CalculateARINCLabel272 now arr true) &&& AHRS_STATUS_SDI_SSM_MASK =
      m.data.rawARINCword &&& AHRS_STATUS_SDI_SSM_MASK ∧
    (CalculateARINCLabel272 now arr true) &&& 0xFF = 0x5D := by
  have hlook : (ARINC429_GetLatestLabelData now arr (FormatLabelNumber 271)).2 =
      some { m.data with isDataFresh := ARINC429_IsLabelDataFresh now m } := by
    rw [ARINC429_GetLatestLabelData, harr,
      getLabelSearchLoop_first_match now (FormatLabelNumber 271) m post hm pre
        maxNumRxMsgsInArray hpre hb]
  have hlook1 : (ARINC429_GetLatestLabelData now arr (FormatLabelNumber 271)).1 =
      ARINC429_GET_LABEL_DATA_MSG_SUCCESS := by
    rw [ARINC429_GetLatestLabelData, harr,
      getLabelSearchLoop_first_match now (FormatLabelNumber 271) m post hm pre
        maxNumRxMsgsInArray hpre hb]
  have hfr : ARINC429_IsLabelDataFresh now m = true := by
    simp [ARINC429_IsLabelDataFresh, hfresh]
  have hw : CalculateARINCLabel272 now arr true =
      ((0x0000005D ||| (m.data.rawARINCword &&& AHRS_STATUS_SDI_SSM_MASK)) |||
        AHRS_272_BIT_25_SET) ||| 0xC00 := by
    rw [CalculateARINCLabel272, hlook]
    simp only [Option.getD_some]
    rw [if_pos ⟨by simp [hfr], by simp [hbab], by simp [hlook1], by simp [hsm]⟩]
    simp [hmsu]
  rw [hw]
  set R := m.data.rawARINCword with hR
  refine ⟨?_, ?_, ?_, ?_, ?_⟩
  · simp only [Nat.testBit_or, Bool.or_eq_true]
    exact Or.inr (by decide)
  · simp only [Nat.testBit_or, Bool.or_eq_true]
    exact Or.inr (by decide)
  · simp only [Nat.testBit_or, Bool.or_eq_true]
    exact Or.inl (Or.inr (by decide))
  · rw [and_distrib_or, and_distrib_or, and_distrib_or,
      Nat.and_assoc R AHRS_STATUS_SDI_SSM_MASK AHRS_STATUS_SDI_SSM_MASK]
    simp only [AHRS_STATUS_SDI_SSM_MASK, AHRS_272_BIT_25_SET]
    rw [show (93 : Nat) &&& 0x60000300 = 0 from by decide,
      show (0x60000300 : Nat) &&& 0x60000300 = 0x60000300 from by decide,
      show (0x2000000 : Nat) &&& 0x60000300 = 0 from by decide,
      show (3072 : Nat) &&& 0x60000300 = 0 from by decide]
    simp
  · rw [and_distrib_or, and_distrib_or, and_distrib_or,
      Nat.and_assoc R AHRS_STATUS_SDI_SSM_MASK 0xFF]
    simp only [AHRS_STATUS_SDI_SSM_MASK, AHRS_272_BIT_25_SET]
    rw [show (93 : Nat) &&& 0xFF = 93 from by decide,
      show (0x60000300 : Nat) &&& 0xFF = 0 from by decide,
      show (0x2000000 : Nat) &&& 0xFF = 0 from by decide,
      show (3072 : Nat) &&& 0xFF = 0 from by decide]
    simp

/-- A fixture label-271 slot whose raw word has the MSU-fail bit and some
SDI/SSM bits set. -/
def ahrs271FixtureSlot : ARINC429_RxMsg where
  msgConfig :=
    { label := FormatLabelNumber 271, msgType := ARINC429_MsgType.discrete,
      numDiscreteBits := 19, maxTransmitInterval_ms := 55 }
  data := { uninitRxMsgData with rawARINCword := 0x20000700, isNotBabbling := true }

/-- The one-slot fixture group holding `ahrs271FixtureSlot`. -/
def ahrs271FixtureArr : ARINC429_RxMsgArray where
  rxMsgs := [ahrs271FixtureSlot]

/-- Witness for `CalculateARINCLabel272_composition` on the fixture
group at time 0. -/
theorem CalculateARINCLabel272_composition_witness :
    (CalculateARINCLabel272 0 ahrs271FixtureArr true).testBit 10 = true ∧
    (CalculateARINCLabel272 0 ahrs271FixtureArr true).testBit 11 = true ∧
    (CalculateARINCLabel272 0 ahrs271FixtureArr true).testBit 25 = true ∧
    (CalculateARINCLabel272 0 ahrs271FixtureArr true) &&& AHRS_STATUS_SDI_SSM_MASK =
      ahrs271FixtureSlot.data.rawARINCword &&& AHRS_STATUS_SDI_SSM_MASK ∧
    (CalculateARINCLabel272 0 ahrs271FixtureArr true) &&& 0xFF = 0x5D :=
  CalculateARINCLabel272_composition 0 ahrs271FixtureArr [] [] ahrs271FixtureSlot
    rfl (by simp) (by norm_num [maxNumRxMsgsInArray]) rfl (by decide) rfl rfl (by decide)

/-! ## C4 : decode errors and slot state -/

/-- A failed BCD decode leaves the slot it was handed untouched. -/
theorem ProcessStdBCDmessage_fail_frame (x : ARINC429_RxMsg) (w : Nat)
    (h : (ARINC429_ProcessStdBCDmessage x w).1 ≠ ARINC429_READ_MSG_SUCCESS) :
    (ARINC429_ProcessStdBCDmessage x w).2 = x := by
  by_cases hcfg : x.msgConfig.numSigDigits < 1 ∨
      x.msgConfig.numSigDigits > ARINC429_BCD_STD_MSG_MAX_NUM_SIGDIGITS ∨
      (x.msgConfig.numSigDigits * 4 - 1) + x.msgConfig.numDiscreteBits >
        ARINC429_BCD_STD_DATA_MAX_DATA_FIELD_SIZE
  · simp only [ARINC429_ProcessStdBCDmessage]
    rw [if_pos hcfg]
  · cases hc : ARINC429_BCD_ConvertBCDvalToEngVal x.msgConfig.numSigDigits
        x.msgConfig.resolution
        ((w &&& ARINC429_BCD_DATAFIELDMASK) >>>
          (ARINC429_BCD_STD_MSG_DATA_FIELD_SHIFT + ARINC429_BCD_BITS_PER_DIGIT *
            (ARINC429_BCD_STD_MSG_MAX_NUM_SIGDIGITS - x.msgConfig.numSigDigits))) with
    | none =>
      simp only [ARINC429_ProcessStdBCDmessage]
      rw [if_neg hcfg, hc]
    | some q =>
      exfalso
      apply h
      simp only [ARINC429_ProcessStdBCDmessage]
      rw [if_neg hcfg, hc]

/-- A fixture BCD slot (label 0x35, five digits) with recognisable prior
state: raw word 0, engineering value 7, timestamp 42. -/
def bcdErrFixtureSlot : ARINC429_RxMsg where
  msgConfig :=
    { label := 0x35, msgType := ARINC429_MsgType.stdBCD, numSigDigits := 5,
      resolution := (1 : ℚ) / 10 ^ 3 }
  data := { uninitRxMsgData with engDataFloat := 7, sysTimeLastGoodMsg_ms := 42 }

/-- The one-slot fixture group holding `bcdErrFixtureSlot`. -/
def bcdErrFixtureArr : ARINC429_RxMsgArray where
  rxMsgs := [bcdErrFixtureSlot]

/-- C4 counterexample: processing word `0x3C35` (label 0x35, lowest BCD
digit `0xF`, which is invalid) returns the decode error
`INVALID_MESSAGE`, yet the slot is *not* left entirely unchanged: its
`rawARINCword` is overwritten with the incoming word (the engineering
value and timestamp do stay put). -/
theorem ProcessReceivedMessage_decode_error_counterexample :
    (ARINC429_ProcessReceivedMessage 5 bcdErrFixtureArr 0x3C35).1 =
      ARINC429_READ_MSG_ERROR_INVALID_MESSAGE ∧
    bcdErrFixtureArr.rxMsgs[0]?.map (fun s => s.data.rawARINCword) = some 0 ∧
    (ARINC429_ProcessReceivedMessage 5 bcdErrFixtureArr 0x3C35).2.rxMsgs[0]?.map
      (fun s => s.data.rawARINCword) = some 0x3C35 ∧
    (ARINC429_ProcessReceivedMessage 5 bcdErrFixtureArr 0x3C35).2.rxMsgs[0]?.map
      (fun s => s.data.engDataFloat) = some 7 ∧
    (ARINC429_ProcessReceivedMessage 5 bcdErrFixtureArr 0x3C35).2.rxMsgs[0]?.map
      (fun s => s.data.sysTimeLastGoodMsg_ms) = some 42 := by
  exact ⟨by decide, by decide, by decide, by decide, by decide⟩

/-- C4 amended: for every receive group and word whose label matches a
configured BCD slot, if the BCD decode fails then
`ARINC429_ProcessReceivedMessage` returns the decode error and leaves
every slot unchanged *except* that the matched slot's `rawARINCword` is
overwritten with the incoming word; its engineering fields, flags and
`sysTimeLastGoodMsg_ms` are untouched. -/
theorem ProcessReceivedMessage_decode_error_amended (now : Nat)
    (arr : ARINC429_RxMsgArray) (pre post : List ARINC429_RxMsg)
    (m : ARINC429_RxMsg) (w : Nat)
    (harr : arr.rxMsgs = pre ++ m :: post)
    (hpre : ∀ x ∈ pre, x.msgConfig.label ≠ w &&& ARINC429_LBL_MASK)
    (hb : pre.length < maxNumRxMsgsInArray)
    (hm : m.msgConfig.label = w &&& ARINC429_LBL_MASK)
    (htype : m.msgConfig.msgType = ARINC429_MsgType.stdBCD)
    (herr : (ARINC429_ProcessStdBCDmessage { m with data.rawARINCword := w } w).1 ≠
      ARINC429_READ_MSG_SUCCESS) :
    (ARINC429_ProcessReceivedMessage now arr w).1 =
      (ARINC429_ProcessStdBCDmessage { m with data.rawARINCword := w } w).1 ∧
    (ARINC429_ProcessReceivedMessage now arr w).2.rxMsgs =
      pre ++ { m with data.rawARINCword := w } :: post := by
  have h1 : (processMatchedMsg now m w).1 =
      (ARINC429_ProcessStdBCDmessage { m with data.rawARINCword := w } w).1 := by
    simp only [processMatchedMsg, htype]
    rw [if_neg herr]
  have h2 : (processMatchedMsg now m w).2 = { m with data.rawARINCword := w } := by
    simp only [processMatchedMsg, htype]
    rw [if_neg herr]
    exact ProcessStdBCDmessage_fail_frame _ _ herr
  have hres : ARINC429_ProcessReceivedMessage now arr w =
      ((processMatchedMsg now m w).1,
        { arr with rxMsgs := pre ++ (processMatchedMsg now m w).2 :: post }) := by
    rw [ARINC429_ProcessReceivedMessage, harr,
      processSearchLoop_first_match now (w &&& ARINC429_LBL_MASK) w m post hm pre
        maxNumRxMsgsInArray hpre hb]
    simp
  rw [hres]
  exact ⟨h1, by rw [h2]⟩

/-- Witness for `ProcessReceivedMessage_decode_error_amended` on the
concrete fixture of the counterexample. -/
theorem ProcessReceivedMessage_decode_error_amended_witness :
    (ARINC429_ProcessReceivedMessage 5 bcdErrFixtureArr 0x3C35).1 =
      (ARINC429_ProcessStdBCDmessage
        { bcdErrFixtureSlot with data.rawARINCword := 0x3C35 } 0x3C35).1 ∧
    (ARINC429_ProcessReceivedMessage 5 bcdErrFixtureArr 0x3C35).2.rxMsgs =
      [] ++ { bcdErrFixtureSlot with data.rawARINCword := 0x3C35 } :: [] :=
  ProcessReceivedMessage_decode_error_amended 5 bcdErrFixtureArr [] [] bcdErrFixtureSlot
    0x3C35 rfl (by simp) (by norm_num [maxNumRxMsgsInArray]) (by decide) rfl (by decide)

/-! ## Structure of assembled BNR words -/

/-- The status of `ARINC429_AssembleStdBNRmessage` mirrors the clipped
flag of the raw conversion. -/
theorem AssembleStdBNRmessage_status (txMsg : ARINC429_TxMsg) (u : Nat) (c : Bool)
    (hconv : ARINC429_BNR_ConvertEngValToRawBNRmsgData txMsg.msgConfig.numSigBits
      txMsg.msgConfig.resolution txMsg.engData = some (u, c)) :
    (ARINC429_AssembleStdBNRmessage txMsg).1 =
      (if c then ARINC429_WRITE_MSG_SENT_DATA_CLIPPED else ARINC429_WRITE_MSG_SUCCESS) := by
  simp only [ARINC429_AssembleStdBNRmessage, hconv]

/-- With an in-range bit count, the raw BNR conversion always succeeds. -/
theorem ConvertEngValToRawBNRmsgData_isSome (numSigBits : Nat) (resolution dataEng : ℚ)
    (h1 : 1 ≤ numSigBits) (h2 : numSigBits ≤ 20) :
    ∃ p, ARINC429_BNR_ConvertEngValToRawBNRmsgData numSigBits resolution dataEng =
      some p := by
  rw [ARINC429_BNR_ConvertEngValToRawBNRmsgData, if_neg (by
    rw [ARINC429_BNR_STD_MSG_MAX_NUM_SIGBITS]
    omega)]
  dsimp only
  split_ifs with h3 h4 h5 <;> exact ⟨_, rfl⟩

/-- Extracting the SSM field of a word assembled as `low ||| (s <<< 29)`
with `low` below bit 29 recovers `s`. -/
theorem extractSSM_or_shift (low s : Nat) (hlow : low < 2 ^ 29) (hs : s ≤ 3) :
    ARINC429_ExtractSSMbits (low ||| s <<< 29) = s := by
  rw [ARINC429_ExtractSSMbits, ARINC429_SSM_FIELD_SHIFT_VAL, ARINC429_SSM_FIELD_LIMIT_MASK]
  rw [Nat.shiftLeft_eq, Nat.mul_comm, or_two_pow_mul_eq_add hlow]
  rw [Nat.shiftRight_eq_div_pow, Nat.mul_add_div (Nat.two_pow_pos 29),
    Nat.div_eq_of_lt hlow]
  have h3 : (0x3 : Nat) = 2 ^ 2 - 1 := by norm_num
  rw [h3, Nat.and_pow_two_sub_one_eq_mod]
  omega

/-- An assembled BNR word exists (whenever the configured number of
significant bits is in range) and carries the transmit SSM in bits
29-30. -/
theorem AssembleStdBNRmessage_SSM (txMsg : ARINC429_TxMsg)
    (h1 : 1 ≤ txMsg.msgConfig.numSigBits) (h2 : txMsg.msgConfig.numSigBits ≤ 20)
    (hlbl : txMsg.msgConfig.label < 2 ^ 8)
    (hnd : txMsg.msgConfig.numDiscreteBits ≤ 19) :
    ∃ w, (ARINC429_AssembleStdBNRmessage txMsg).2 = some w ∧
      ARINC429_ExtractSSMbits w = txMsg.SM &&& 0x3 := by
  obtain ⟨⟨u, c⟩, hconv⟩ := ConvertEngValToRawBNRmsgData_isSome
    txMsg.msgConfig.numSigBits txMsg.msgConfig.resolution txMsg.engData h1 h2
  simp only [ARINC429_AssembleStdBNRmessage, hconv]
  refine ⟨_, rfl, ?_⟩
  apply extractSSM_or_shift
  · have hdmlt : ∀ x : Nat,
        (if txMsg.msgConfig.numSigBits = ARINC429_BNR_STD_MSG_NUM_SIGBITS_20 then
          x &&& ARINC429_BNR_STD_MSG_DATAFIELDMASK_20SIGBITS
        else if txMsg.msgConfig.numSigBits = ARINC429_BNR_STD_MSG_NUM_SIGBITS_19 then
          x &&& ARINC429_BNR_STD_MSG_DATAFIELDMASK_19SIGBITS
        else x &&& ARINC429_BNR_STD_MSG_DATAFIELDMASK_UPTO18SIGBITS) < 2 ^ 29 := by
      intro x
      split
      · exact Nat.lt_of_le_of_lt Nat.and_le_right
          (by norm_num [ARINC429_BNR_STD_MSG_DATAFIELDMASK_20SIGBITS])
      · split
        · exact Nat.lt_of_le_of_lt Nat.and_le_right
            (by norm_num [ARINC429_BNR_STD_MSG_DATAFIELDMASK_19SIGBITS])
        · exact Nat.lt_of_le_of_lt Nat.and_le_right
            (by norm_num [ARINC429_BNR_STD_MSG_DATAFIELDMASK_UPTO18SIGBITS])
    have hdb : (if txMsg.msgConfig.numDiscreteBits > 0 then
        (txMsg.discreteBits &&&
          (UINT32_MAX >>> (NUM_BITS_IN_UINT32 - txMsg.msgConfig.numDiscreteBits))) <<<
          ARINC429_BNR_BCD_MSG_DISCRETE_BITS_SHIFT_VAL
      else 0) < 2 ^ 29 := by
      split
      · rw [Nat.shiftLeft_eq, ARINC429_BNR_BCD_MSG_DISCRETE_BITS_SHIFT_VAL]
        have hmlt : txMsg.discreteBits &&&
            (UINT32_MAX >>> (NUM_BITS_IN_UINT32 - txMsg.msgConfig.numDiscreteBits)) <
              2 ^ 19 := by
          apply Nat.lt_of_le_of_lt Nat.and_le_right
          rw [NUM_BITS_IN_UINT32, UINT32_MAX_shiftRight (by omega)]
          have : (2:Nat) ^ (32 - (32 - txMsg.msgConfig.numDiscreteBits)) ≤ 2 ^ 19 :=
            Nat.pow_le_pow_right (by norm_num) (by omega)
          omega
        calc (txMsg.discreteBits &&&
            (UINT32_MAX >>> (NUM_BITS_IN_UINT32 - txMsg.msgConfig.numDiscreteBits))) *
              2 ^ 10 < 2 ^ 19 * 2 ^ 10 := by
              exact Nat.mul_lt_mul_of_lt_of_le hmlt (Nat.le_refl _) (by norm_num)
          _ = 2 ^ 29 := by norm_num
      · exact Nat.two_pow_pos 29
    have hlbl29 : txMsg.msgConfig.label < 2 ^ 29 :=
      Nat.lt_of_lt_of_le hlbl (Nat.pow_le_pow_right (by norm_num) (by norm_num))
    have hsdilt : (txMsg.SDI &&& ARINC429_SDI_FIELD_LIMIT_MASK) <<<
        ARINC429_SDI_FIELD_SHIFT_VAL < 2 ^ 29 := by
      rw [Nat.shiftLeft_eq, ARINC429_SDI_FIELD_SHIFT_VAL]
      have h3 : txMsg.SDI &&& ARINC429_SDI_FIELD_LIMIT_MASK ≤ 3 := by
        have := Nat.and_le_right (n := txMsg.SDI) (m := ARINC429_SDI_FIELD_LIMIT_MASK)
        rw [ARINC429_SDI_FIELD_LIMIT_MASK] at this
        exact this
      calc (txMsg.SDI &&& ARINC429_SDI_FIELD_LIMIT_MASK) * 2 ^ 8 ≤ 3 * 2 ^ 8 :=
            Nat.mul_le_mul_right _ h3
        _ < 2 ^ 29 := by norm_num
    split
    · exact Nat.or_lt_two_pow
        (Nat.or_lt_two_pow (Nat.or_lt_two_pow hlbl29 (hdmlt _)) hdb) hsdilt
    · exact Nat.or_lt_two_pow (Nat.or_lt_two_pow hlbl29 (hdmlt _)) hdb
  · have := Nat.and_le_right (n := txMsg.SM) (m := ARINC429_SSM_FIELD_LIMIT_MASK)
    rw [ARINC429_SSM_FIELD_LIMIT_MASK] at this
    exact this

/-- `ARINC429_ExtractSSMbits` of an assembled BNR word (read through the
`getD 0` the calculators use) is the transmit SSM masked to two bits. -/
theorem AssembleStdBNRmessage_getD_SSM (txMsg : ARINC429_TxMsg)
    (h1 : 1 ≤ txMsg.msgConfig.numSigBits) (h2 : txMsg.msgConfig.numSigBits ≤ 20)
    (hlbl : txMsg.msgConfig.label < 2 ^ 8)
    (hnd : txMsg.msgConfig.numDiscreteBits ≤ 19) :
    ARINC429_ExtractSSMbits ((ARINC429_AssembleStdBNRmessage txMsg).2.getD 0) =
      txMsg.SM &&& 0x3 := by
  obtain ⟨w, hw, hssm⟩ := AssembleStdBNRmessage_SSM txMsg h1 h2 hlbl hnd
  rw [hw]
  exact hssm

/-! ## C1 : spool state machines -/

/-- The validity condition `CalculateTurnRate` applies to the magnetic
heading (label 320) lookup. -/
abbrev turnRateInputOK (now : Nat) (arr : ARINC429_RxMsgArray) : Prop :=
  (ARINC429_GetLatestLabelData now arr (FormatLabelNumber 320)).1 =
      ARINC429_GET_LABEL_DATA_MSG_SUCCESS ∧
    ((ARINC429_GetLatestLabelData now arr (FormatLabelNumber 320)).2.getD
      uninitRxMsgData).isDataFresh = true ∧
    ((ARINC429_GetLatestLabelData now arr (FormatLabelNumber 320)).2.getD
      uninitRxMsgData).isNotBabbling = true ∧
    ((ARINC429_GetLatestLabelData now arr (FormatLabelNumber 320)).2.getD
      uninitRxMsgData).SM = ARINC429_SSM_BNR_NORMAL_OPERATION

/-- One valid turn-rate sample: the spool counter advances while the flag
is down, and the flag rises exactly when the advanced counter reaches the
threshold (`count ≥ 10`, i.e. on the 10th valid sample). -/
theorem CalculateTurnRate_step_valid (now : Nat) (arr : ARINC429_RxMsgArray)
    (st : TurnRateState) (h : turnRateInputOK now arr) :
    (CalculateTurnRate now arr st).2.isIIRDiffGood =
      (if st.isIIRDiffGood then true
       else decide (st.iirDiffGoodCount + 1 ≥ filterGoodThreshold)) ∧
    (CalculateTurnRate now arr st).2.iirDiffGoodCount =
      (if st.isIIRDiffGood then st.iirDiffGoodCount else st.iirDiffGoodCount + 1) := by
  simp only [CalculateTurnRate]
  rw [if_pos h]
  cases hg : st.isIIRDiffGood with
  | true => simp
  | false =>
    by_cases hc : st.iirDiffGoodCount = 0 <;> simp [hc]

/-- One valid turn-rate sample taken while the spool flag is down is
transmitted with SSM `BnrFailureWarning`. -/
theorem CalculateTurnRate_SSM_spooling (now : Nat) (arr : ARINC429_RxMsgArray)
    (st : TurnRateState) (h : turnRateInputOK now arr)
    (hg : st.isIIRDiffGood = false) :
    ARINC429_ExtractSSMbits (CalculateTurnRate now arr st).1 =
      ARINC429_SSM_BNR_FAILURE_WARNING := by
  simp only [CalculateTurnRate]
  rw [if_pos h, hg]
  simp only [Bool.false_eq_true, if_false]
  rw [AssembleStdBNRmessage_getD_SSM]
  · exact (by decide : ARINC429_SSM_BNR_FAILURE_WARNING &&& 0x3 =
      ARINC429_SSM_BNR_FAILURE_WARNING)
  · exact (by decide : 1 ≤ arincLabel340Config.numSigBits)
  · exact (by decide : arincLabel340Config.numSigBits ≤ 20)
  · exact (by decide : arincLabel340Config.label < 2 ^ 8)
  · exact (by decide : arincLabel340Config.numDiscreteBits ≤ 19)

/-- One valid turn-rate sample taken while the spool flag is up is
transmitted with the SSM produced by the range-validity check of the
differentiator output. -/
theorem CalculateTurnRate_SSM_good (now : Nat) (arr : ARINC429_RxMsgArray)
    (st : TurnRateState) (h : turnRateInputOK now arr)
    (hg : st.isIIRDiffGood = true) :
    ARINC429_ExtractSSMbits (CalculateTurnRate now arr st).1 =
      ARINC429_CheckValidityOfARINC_BNR_Data
        (IIR_Differentiator_Limited
          ((ARINC429_GetLatestLabelData now arr (FormatLabelNumber 320)).2.getD
            uninitRxMsgData).engDataFloat st.magHeadingIIRDiff).1
        arincLabel340Config := by
  simp only [CalculateTurnRate]
  rw [if_pos h, hg]
  simp only [if_true]
  rw [AssembleStdBNRmessage_getD_SSM]
  · rw [ARINC429_CheckValidityOfARINC_BNR_Data]
    split
    · exact (by decide : ARINC429_SSM_BNR_FAILURE_WARNING &&& 0x3 =
        ARINC429_SSM_BNR_FAILURE_WARNING)
    · exact (by decide : ARINC429_SSM_BNR_NORMAL_OPERATION &&& 0x3 =
        ARINC429_SSM_BNR_NORMAL_OPERATION)
  · exact (by decide : 1 ≤ arincLabel340Config.numSigBits)
  · exact (by decide : arincLabel340Config.numSigBits ≤ 20)
  · exact (by decide : arincLabel340Config.label < 2 ^ 8)
  · exact (by decide : arincLabel340Config.numDiscreteBits ≤ 19)

/-- One invalid turn-rate sample resets the spool state and is
transmitted with SSM `BnrFailureWarning`. -/
theorem CalculateTurnRate_step_invalid (now : Nat) (arr : ARINC429_RxMsgArray)
    (st : TurnRateState) (h : ¬ turnRateInputOK now arr) :
    (CalculateTurnRate now arr st).2.isIIRDiffGood = false ∧
    (CalculateTurnRate now arr st).2.iirDiffGoodCount = 0 ∧
    ARINC429_ExtractSSMbits (CalculateTurnRate now arr st).1 =
      ARINC429_SSM_BNR_FAILURE_WARNING := by
  simp only [CalculateTurnRate]
  rw [if_neg h]
  refine ⟨rfl, rfl, ?_⟩
  rw [AssembleStdBNRmessage_getD_SSM]
  · exact (by decide : ARINC429_SSM_BNR_FAILURE_WARNING &&& 0x3 =
      ARINC429_SSM_BNR_FAILURE_WARNING)
  · exact (by decide : 1 ≤ arincLabel340Config.numSigBits)
  · exact (by decide : arincLabel340Config.numSigBits ≤ 20)
  · exact (by decide : arincLabel340Config.label < 2 ^ 8)
  · exact (by decide : arincLabel340Config.numDiscreteBits ≤ 19)

/-- The fold `CalculateTurnRate` performs over a sequence of samples
(module state threaded through). -/
def turnRateRun (inputs : List (Nat × ARINC429_RxMsgArray)) (st : TurnRateState) :
    TurnRateState :=
  inputs.foldl (fun s p => (CalculateTurnRate p.1 p.2 s).2) st

/-- Spool bookkeeping of a turn-rate run over valid samples: if the state
records `k` prior consecutive valid samples, after `n` more the flag is up
iff `10 ≤ k + n` and the counter is `min (k + n) 10`. -/
theorem turnRateRun_spool (inputs : List (Nat × ARINC429_RxMsgArray))
    (hvalid : ∀ p ∈ inputs, turnRateInputOK p.1 p.2) :
    ∀ (k : Nat) (st : TurnRateState),
      st.isIIRDiffGood = decide (filterGoodThreshold ≤ k) →
      st.iirDiffGoodCount = min k filterGoodThreshold →
      (turnRateRun inputs st).isIIRDiffGood =
        decide (filterGoodThreshold ≤ k + inputs.length) ∧
      (turnRateRun inputs st).iirDiffGoodCount =
        min (k + inputs.length) filterGoodThreshold := by
  induction inputs with
  | nil =>
    intro k st hg hc
    simpa [turnRateRun] using ⟨hg, hc⟩
  | cons p rest ih =>
    intro k st hg hc
    have hp : turnRateInputOK p.1 p.2 := hvalid p (List.mem_cons_self _ _)
    obtain ⟨hg', hc'⟩ := CalculateTurnRate_step_valid p.1 p.2 st hp
    have hrec := ih (fun q hq => hvalid q (List.mem_cons_of_mem _ hq)) (k + 1)
      (CalculateTurnRate p.1 p.2 st).2 ?_ ?_
    · have heq : turnRateRun (p :: rest) st =
          turnRateRun rest (CalculateTurnRate p.1 p.2 st).2 := rfl
      have hlen : k + 1 + rest.length = k + (p :: rest).length := by
        simp
        omega
      rw [heq]
      exact ⟨by rw [hrec.1, hlen], by rw [hrec.2, hlen]⟩
    · rw [hg', hg]
      rw [filterGoodThreshold] at hc ⊢
      by_cases h10 : 10 ≤ k
      · first
        | (simp [h10, hc]; omega)
        | simp [h10, hc]
      · first
        | (simp [h10, hc]; omega)
        | simp [h10, hc]
    · rw [hc', hg]
      rw [filterGoodThreshold] at hc ⊢
      by_cases h10 : 10 ≤ k
      · first
        | (simp [h10, hc]; omega)
        | simp [h10, hc]
      · first
        | (simp [h10, hc]; omega)
        | simp [h10, hc]

/-- The validity condition `CalculateSlipAngle` applies to the normal
acceleration (label 333, "aZ") lookup, which drives the spool. -/
abbrev slipAZInputOK (now : Nat) (arr : ARINC429_RxMsgArray) : Prop :=
  (ARINC429_GetLatestLabelData now arr (FormatLabelNumber 333)).1 =
      ARINC429_GET_LABEL_DATA_MSG_SUCCESS ∧
    ((ARINC429_GetLatestLabelData now arr (FormatLabelNumber 333)).2.getD
      uninitRxMsgData).isDataFresh = true ∧
    ((ARINC429_GetLatestLabelData now arr (FormatLabelNumber 333)).2.getD
      uninitRxMsgData).isNotBabbling = true ∧
    ((ARINC429_GetLatestLabelData now arr (FormatLabelNumber 333)).2.getD
      uninitRxMsgData).SM = ARINC429_SSM_BNR_NORMAL_OPERATION

/-- The validity condition `CalculateSlipAngle` applies to the lateral
acceleration (label 332, "aY") lookup, which gates only the SSM. -/
abbrev slipAYInputOK (now : Nat) (arr : ARINC429_RxMsgArray) : Prop :=
  (ARINC429_GetLatestLabelData now arr (FormatLabelNumber 332)).1 =
      ARINC429_GET_LABEL_DATA_MSG_SUCCESS ∧
    ((ARINC429_GetLatestLabelData now arr (FormatLabelNumber 332)).2.getD
      uninitRxMsgData).isDataFresh = true ∧
    ((ARINC429_GetLatestLabelData now arr (FormatLabelNumber 332)).2.getD
      uninitRxMsgData).isNotBabbling = true ∧
    ((ARINC429_GetLatestLabelData now arr (FormatLabelNumber 332)).2.getD
      uninitRxMsgData).SM = ARINC429_SSM_BNR_NORMAL_OPERATION

/-- One valid (aZ) slip-angle sample: the spool counter advances while
the flag is down, and the flag rises exactly when the advanced counter
exceeds the threshold (`count > 10`, i.e. on the 11th valid sample). -/
theorem CalculateSlipAngle_step_valid (arctan2 : ℚ → ℚ → ℚ) (now : Nat)
    (arr : ARINC429_RxMsgArray) (st : SlipAngleState) (h : slipAZInputOK now arr) :
    (CalculateSlipAngle arctan2 now arr st).2.isIIRSlipFilterGood =
      (if st.isIIRSlipFilterGood then true
       else decide (st.iirFilterGoodCount + 1 > filterGoodThreshold)) ∧
    (CalculateSlipAngle arctan2 now arr st).2.iirFilterGoodCount =
      (if st.isIIRSlipFilterGood then st.iirFilterGoodCount
       else st.iirFilterGoodCount + 1) := by
  simp only [CalculateSlipAngle]
  rw [if_pos h]
  cases hg : st.isIIRSlipFilterGood with
  | true => simp
  | false =>
    by_cases hc : st.iirFilterGoodCount = 0 <;> simp [hc]

/-- One valid (aZ) slip-angle sample taken while the spool flag is down
is transmitted with SSM `BnrFailureWarning` (whatever the aY state). -/
theorem CalculateSlipAngle_SSM_spooling (arctan2 : ℚ → ℚ → ℚ) (now : Nat)
    (arr : ARINC429_RxMsgArray) (st : SlipAngleState) (h : slipAZInputOK now arr)
    (hg : st.isIIRSlipFilterGood = false) :
    ARINC429_ExtractSSMbits (CalculateSlipAngle arctan2 now arr st).1 =
      ARINC429_SSM_BNR_FAILURE_WARNING := by
  simp only [CalculateSlipAngle]
  rw [if_pos h, hg]
  simp only [Bool.false_eq_true, if_false]
  rw [AssembleStdBNRmessage_getD_SSM]
  · split
    · exact (by decide : ARINC429_SSM_BNR_FAILURE_WARNING &&& 0x3 =
        ARINC429_SSM_BNR_FAILURE_WARNING)
    · exact (by decide : ARINC429_SSM_BNR_FAILURE_WARNING &&& 0x3 =
        ARINC429_SSM_BNR_FAILURE_WARNING)
  · exact (by decide : 1 ≤ arincLabel250Config.numSigBits)
  · exact (by decide : arincLabel250Config.numSigBits ≤ 20)
  · exact (by decide : arincLabel250Config.label < 2 ^ 8)
  · exact (by decide : arincLabel250Config.numDiscreteBits ≤ 19)

/-- One valid slip-angle sample (both aZ and aY valid) taken while the
spool flag is up is transmitted with the SSM produced by the
range-validity check of the computed slip angle. -/
theorem CalculateSlipAngle_SSM_good (arctan2 : ℚ → ℚ → ℚ) (now : Nat)
    (arr : ARINC429_RxMsgArray) (st : SlipAngleState) (h : slipAZInputOK now arr)
    (hAY : slipAYInputOK now arr) (hg : st.isIIRSlipFilterGood = true) :
    ARINC429_ExtractSSMbits (CalculateSlipAngle arctan2 now arr st).1 =
      ARINC429_CheckValidityOfARINC_BNR_Data
        (arctan2
          (-((ARINC429_GetLatestLabelData now arr (FormatLabelNumber 332)).2.getD
            uninitRxMsgData).engDataFloat)
          ((f32_IIRFilter
            ((ARINC429_GetLatestLabelData now arr (FormatLabelNumber 333)).2.getD
              uninitRxMsgData).engDataFloat st.accelerationZFilter).1 + 1) *
          180 / ((314159265358979 : ℚ) / 10 ^ 14))
        arincLabel250Config := by
  simp only [CalculateSlipAngle]
  rw [if_pos h, hg]
  simp only [if_true]
  rw [if_neg (by simp [hAY.1, hAY.2.1, hAY.2.2.1, hAY.2.2.2])]
  rw [AssembleStdBNRmessage_getD_SSM]
  · rw [ARINC429_CheckValidityOfARINC_BNR_Data]
    split
    · exact (by decide : ARINC429_SSM_BNR_FAILURE_WARNING &&& 0x3 =
        ARINC429_SSM_BNR_FAILURE_WARNING)
    · exact (by decide : ARINC429_SSM_BNR_NORMAL_OPERATION &&& 0x3 =
        ARINC429_SSM_BNR_NORMAL_OPERATION)
  · exact (by decide : 1 ≤ arincLabel250Config.numSigBits)
  · exact (by decide : arincLabel250Config.numSigBits ≤ 20)
  · exact (by decide : arincLabel250Config.label < 2 ^ 8)
  · exact (by decide : arincLabel250Config.numDiscreteBits ≤ 19)

/-- Whenever the aY input is invalid, the slip-angle sample is
transmitted with SSM `BnrFailureWarning`, whatever the spool state and
the aZ input (the final `isAYdataValid` test overrides the SSM computed
by the state machine). -/
theorem CalculateSlipAngle_SSM_aY_invalid (arctan2 : ℚ → ℚ → ℚ) (now : Nat)
    (arr : ARINC429_RxMsgArray) (st : SlipAngleState)
    (hAY : ¬ slipAYInputOK now arr) :
    ARINC429_ExtractSSMbits (CalculateSlipAngle arctan2 now arr st).1 =
      ARINC429_SSM_BNR_FAILURE_WARNING := by
  have hval : decide ((ARINC429_GetLatestLabelData now arr (FormatLabelNumber 332)).1 =
      ARINC429_GET_LABEL_DATA_MSG_SUCCESS ∧
      ((ARINC429_GetLatestLabelData now arr (FormatLabelNumber 332)).2.getD
        uninitRxMsgData).isDataFresh = true ∧
      ((ARINC429_GetLatestLabelData now arr (FormatLabelNumber 332)).2.getD
        uninitRxMsgData).isNotBabbling = true ∧
      ((ARINC429_GetLatestLabelData now arr (FormatLabelNumber 332)).2.getD
        uninitRxMsgData).SM = ARINC429_SSM_BNR_NORMAL_OPERATION) = false :=
    decide_eq_false hAY
  simp only [CalculateSlipAngle]
  rw [AssembleStdBNRmessage_getD_SSM]
  · rw [hval]
    simp
    decide
  · exact (by decide : 1 ≤ arincLabel250Config.numSigBits)
  · exact (by decide : arincLabel250Config.numSigBits ≤ 20)
  · exact (by decide : arincLabel250Config.label < 2 ^ 8)
  · exact (by decide : arincLabel250Config.numDiscreteBits ≤ 19)

/-- One invalid-aZ slip-angle sample resets the spool state and is
transmitted with SSM `BnrFailureWarning`. -/
theorem CalculateSlipAngle_step_invalid (arctan2 : ℚ → ℚ → ℚ) (now : Nat)
    (arr : ARINC429_RxMsgArray) (st : SlipAngleState)
    (h : ¬ slipAZInputOK now arr) :
    (CalculateSlipAngle arctan2 now arr st).2.isIIRSlipFilterGood = false ∧
    (CalculateSlipAngle arctan2 now arr st).2.iirFilterGoodCount = 0 ∧
    ARINC429_ExtractSSMbits (CalculateSlipAngle arctan2 now arr st).1 =
      ARINC429_SSM_BNR_FAILURE_WARNING := by
  simp only [CalculateSlipAngle]
  rw [if_neg h]
  refine ⟨rfl, rfl, ?_⟩
  rw [AssembleStdBNRmessage_getD_SSM]
  · split
    · exact (by decide : ARINC429_SSM_BNR_FAILURE_WARNING &&& 0x3 =
        ARINC429_SSM_BNR_FAILURE_WARNING)
    · exact (by decide : ARINC429_SSM_BNR_FAILURE_WARNING &&& 0x3 =
        ARINC429_SSM_BNR_FAILURE_WARNING)
  · exact (by decide : 1 ≤ arincLabel250Config.numSigBits)
  · exact (by decide : arincLabel250Config.numSigBits ≤ 20)
  · exact (by decide : arincLabel250Config.label < 2 ^ 8)
  · exact (by decide : arincLabel250Config.numDiscreteBits ≤ 19)

/-- The fold `CalculateSlipAngle` performs over a sequence of samples. -/
def slipAngleRun (arctan2 : ℚ → ℚ → ℚ) (inputs : List (Nat × ARINC429_RxMsgArray))
    (st : SlipAngleState) : SlipAngleState :=
  inputs.foldl (fun s p => (CalculateSlipAngle arctan2 p.1 p.2 s).2) st

/-- Spool bookkeeping of a slip-angle run over valid (aZ) samples: the
flag is up iff strictly more than 10 valid samples have been seen. -/
theorem slipAngleRun_spool (arctan2 : ℚ → ℚ → ℚ)
    (inputs : List (Nat × ARINC429_RxMsgArray))
    (hvalid : ∀ p ∈ inputs, slipAZInputOK p.1 p.2) :
    ∀ (k : Nat) (st : SlipAngleState),
      st.isIIRSlipFilterGood = decide (filterGoodThreshold + 1 ≤ k) →
      st.iirFilterGoodCount = min k (filterGoodThreshold + 1) →
      (slipAngleRun arctan2 inputs st).isIIRSlipFilterGood =
        decide (filterGoodThreshold + 1 ≤ k + inputs.length) ∧
      (slipAngleRun arctan2 inputs st).iirFilterGoodCount =
        min (k + inputs.length) (filterGoodThreshold + 1) := by
  induction inputs with
  | nil =>
    intro k st hg hc
    simpa [slipAngleRun] using ⟨hg, hc⟩
  | cons p rest ih =>
    intro k st hg hc
    have hp : slipAZInputOK p.1 p.2 := hvalid p (List.mem_cons_self _ _)
    obtain ⟨hg', hc'⟩ := CalculateSlipAngle_step_valid arctan2 p.1 p.2 st hp
    have hrec := ih (fun q hq => hvalid q (List.mem_cons_of_mem _ hq)) (k + 1)
      (CalculateSlipAngle arctan2 p.1 p.2 st).2 ?_ ?_
    · have heq : slipAngleRun arctan2 (p :: rest) st =
          slipAngleRun arctan2 rest (CalculateSlipAngle arctan2 p.1 p.2 st).2 := rfl
      have hlen : k + 1 + rest.length = k + (p :: rest).length := by
        simp
        omega
      rw [heq]
      exact ⟨by rw [hrec.1, hlen], by rw [hrec.2, hlen]⟩
    · rw [hg', hg]
      rw [filterGoodThreshold] at hc ⊢
      by_cases h11 : 11 ≤ k
      · first
        | (simp [h11, hc]; omega)
        | simp [h11, hc]
      · first
        | (simp [h11, hc]; omega)
        | simp [h11, hc]
    · rw [hc', hg]
      rw [filterGoodThreshold] at hc ⊢
      by_cases h11 : 11 ≤ k
      · first
        | (simp [h11, hc]; omega)
        | simp [h11, hc]
      · first
        | (simp [h11, hc]; omega)
        | simp [h11, hc]

/-- A magnetic-heading (label 320) slot whose data always reads back
valid at time 0: normal-operation SSM, not babbling, fresh. -/
def spoolFixtureSlot : ARINC429_RxMsg where
  msgConfig :=
    { label := FormatLabelNumber 320, msgType := ARINC429_MsgType.stdBNR,
      numSigBits := 15, resolution := (1 : ℚ) / 100, maxTransmitInterval_ms := 25 }
  data :=
    { uninitRxMsgData with
      SM := ARINC429_SSM_BNR_NORMAL_OPERATION,
      isNotBabbling := true }

/-- The one-slot fixture group holding `spoolFixtureSlot`. -/
def spoolFixtureArr : ARINC429_RxMsgArray where
  rxMsgs := [spoolFixtureSlot]

/-- An all-zero differentiator state (the reset filter). -/
def zeroIIRDiff : IIRDiff_Filter where
  k1 := 0
  sampleRate := 0
  upperLimit := 0
  lowerLimit := 0
  upperDelta := 0
  lowerDelta := 0
  pastInput := 0
  pastOutputOfDiff := 0

/-- C1 counterexample: starting `CalculateTurnRate` from its reset state
and feeding **ten** consecutive valid magnetic-heading samples already
raises `isIIRDiffGood` (the code tests `count >= 10` after
incrementing), so the claim that for both spool machines the good flag
first becomes true on the 11th valid sample is false. -/
theorem spool_good_on_tenth_counterexample :
    (turnRateRun (List.replicate 10 (0, spoolFixtureArr))
      ⟨false, 0, zeroIIRDiff⟩).isIIRDiffGood = true ∧
    (turnRateRun (List.replicate 9 (0, spoolFixtureArr))
      ⟨false, 0, zeroIIRDiff⟩).isIIRDiffGood = false := by
  constructor
  · decide
  · decide

/-- C1 amended: both spool machines run with threshold 10 and reset
(`good := false`, `count := 0`) on an invalid sample, but their
comparisons differ.  `CalculateTurnRate` tests `count ≥ 10` after
incrementing, so `good` first becomes true on the 10th consecutive valid
sample; every sample processed while `good` is down (the 1st through
10th) is transmitted with SSM `BnrFailureWarning`, and from the 11th
sample onward the SSM is the range-validity check of the differentiator
output.  `CalculateSlipAngle` tests `count > 10`, so `good` first becomes
true on the 11th valid (aZ) sample; samples 1 through 11 carry
`BnrFailureWarning` and from the 12th onward the SSM is the
range-validity check of the computed slip angle (aY must also be valid
for those samples, and the slip-angle spool is driven by aZ validity
alone).  Whenever the aY input is invalid the transmitted SSM is
`BnrFailureWarning`, regardless of the spool state and the aZ input
(last conjunct). -/
theorem spool_state_machines_amended :
    (∀ (inputs : List (Nat × ARINC429_RxMsgArray)) (f : IIRDiff_Filter),
      (∀ p ∈ inputs, turnRateInputOK p.1 p.2) →
      (turnRateRun inputs ⟨false, 0, f⟩).isIIRDiffGood =
        decide (10 ≤ inputs.length) ∧
      (turnRateRun inputs ⟨false, 0, f⟩).iirDiffGoodCount = min inputs.length 10) ∧
    (∀ (now : Nat) (arr : ARINC429_RxMsgArray) (st : TurnRateState),
      turnRateInputOK now arr → st.isIIRDiffGood = false →
      ARINC429_ExtractSSMbits (CalculateTurnRate now arr st).1 =
        ARINC429_SSM_BNR_FAILURE_WARNING) ∧
    (∀ (now : Nat) (arr : ARINC429_RxMsgArray) (st : TurnRateState),
      turnRateInputOK now arr → st.isIIRDiffGood = true →
      ARINC429_ExtractSSMbits (CalculateTurnRate now arr st).1 =
        ARINC429_CheckValidityOfARINC_BNR_Data
          (IIR_Differentiator_Limited
            ((ARINC429_GetLatestLabelData now arr (FormatLabelNumber 320)).2.getD
              uninitRxMsgData).engDataFloat st.magHeadingIIRDiff).1
          arincLabel340Config) ∧
    (∀ (now : Nat) (arr : ARINC429_RxMsgArray) (st : TurnRateState),
      ¬ turnRateInputOK now arr →
      (CalculateTurnRate now arr st).2.isIIRDiffGood = false ∧
      (CalculateTurnRate now arr st).2.iirDiffGoodCount = 0) ∧
    (∀ (arctan2 : ℚ → ℚ → ℚ) (inputs : List (Nat × ARINC429_RxMsgArray))
      (f : sIIR_struct),
      (∀ p ∈ inputs, slipAZInputOK p.1 p.2) →
      (slipAngleRun arctan2 inputs ⟨false, 0, f⟩).isIIRSlipFilterGood =
        decide (11 ≤ inputs.length) ∧
      (slipAngleRun arctan2 inputs ⟨false, 0, f⟩).iirFilterGoodCount =
        min inputs.length 11) ∧
    (∀ (arctan2 : ℚ → ℚ → ℚ) (now : Nat) (arr : ARINC429_RxMsgArray)
      (st : SlipAngleState),
      slipAZInputOK now arr → st.isIIRSlipFilterGood = false →
      ARINC429_ExtractSSMbits (CalculateSlipAngle arctan2 now arr st).1 =
        ARINC429_SSM_BNR_FAILURE_WARNING) ∧
    (∀ (arctan2 : ℚ → ℚ → ℚ) (now : Nat) (arr : ARINC429_RxMsgArray)
      (st : SlipAngleState),
      slipAZInputOK now arr → slipAYInputOK now arr →
      st.isIIRSlipFilterGood = true →
      ARINC429_ExtractSSMbits (CalculateSlipAngle arctan2 now arr st).1 =
        ARINC429_CheckValidityOfARINC_BNR_Data
          (arctan2
            (-((ARINC429_GetLatestLabelData now arr (FormatLabelNumber 332)).2.getD
              uninitRxMsgData).engDataFloat)
            ((f32_IIRFilter
              ((ARINC429_GetLatestLabelData now arr (FormatLabelNumber 333)).2.getD
                uninitRxMsgData).engDataFloat st.accelerationZFilter).1 + 1) *
            180 / ((314159265358979 : ℚ) / 10 ^ 14))
          arincLabel250Config) ∧
    (∀ (arctan2 : ℚ → ℚ → ℚ) (now : Nat) (arr : ARINC429_RxMsgArray)
      (st : SlipAngleState),
      ¬ slipAZInputOK now arr →
      (CalculateSlipAngle arctan2 now arr st).2.isIIRSlipFilterGood = false ∧
      (CalculateSlipAngle arctan2 now arr st).2.iirFilterGoodCount = 0) ∧
    (∀ (arctan2 : ℚ → ℚ → ℚ) (now : Nat) (arr : ARINC429_RxMsgArray)
      (st : SlipAngleState),
      ¬ slipAYInputOK now arr →
      ARINC429_ExtractSSMbits (CalculateSlipAngle arctan2 now arr st).1 =
        ARINC429_SSM_BNR_FAILURE_WARNING) := by
  refine ⟨?_, ?_, ?_, ?_, ?_, ?_, ?_, ?_, ?_⟩
  · intro inputs f hvalid
    have := turnRateRun_spool inputs hvalid 0 ⟨false, 0, f⟩ (by simp [filterGoodThreshold])
      (by simp)
    simpa [filterGoodThreshold] using this
  · exact fun now arr st h hg => CalculateTurnRate_SSM_spooling now arr st h hg
  · exact fun now arr st h hg => CalculateTurnRate_SSM_good now arr st h hg
  · intro now arr st h
    exact ⟨(CalculateTurnRate_step_invalid now arr st h).1,
      (CalculateTurnRate_step_invalid now arr st h).2.1⟩
  · intro arctan2 inputs f hvalid
    have := slipAngleRun_spool arctan2 inputs hvalid 0 ⟨false, 0, f⟩
      (by simp [filterGoodThreshold]) (by simp)
    simpa [filterGoodThreshold] using this
  · exact fun arctan2 now arr st h hg =>
      CalculateSlipAngle_SSM_spooling arctan2 now arr st h hg
  · exact fun arctan2 now arr st h hAY hg =>
      CalculateSlipAngle_SSM_good arctan2 now arr st h hAY hg
  · intro arctan2 now arr st h
    exact ⟨(CalculateSlipAngle_step_invalid arctan2 now arr st h).1,
      (CalculateSlipAngle_step_invalid arctan2 now arr st h).2.1⟩
  · exact fun arctan2 now arr st hAY =>
      CalculateSlipAngle_SSM_aY_invalid arctan2 now arr st hAY

/-- Witness for `spool_state_machines_amended`: one valid sample on the
fixture group leaves the turn-rate machine with the flag down and the
counter at 1. -/
theorem spool_state_machines_amended_witness :
    (turnRateRun [(0, spoolFixtureArr)] ⟨false, 0, zeroIIRDiff⟩).isIIRDiffGood =
      decide (10 ≤ [(0, spoolFixtureArr)].length) ∧
    (turnRateRun [(0, spoolFixtureArr)] ⟨false, 0, zeroIIRDiff⟩).iirDiffGoodCount =
      min [(0, spoolFixtureArr)].length 10 :=
  spool_state_machines_amended.1 [(0, spoolFixtureArr)] zeroIIRDiff
    (by intro p hp; simp at hp; subst hp; decide)


/-! ## C2/C3 : BNR scaled raw value and overflow analysis -/

/-- The rounded, clamped scaled value computed by the opening lines of
`ARINC429_BNR_ConvertEngValToRawBNRmsgData`:
`(int32_t) clamp(dataEng / resolution ± 0.5, INT32_MIN, INT32_MAX)`. -/
def ARINC429_BNR_ScaledRawValue (resolution dataEng : ℚ) : Int :=
  let calcValue : ℚ := if resolution ≠ 0 then dataEng / resolution else 0
  let calcValue : ℚ := calcValue + (if calcValue < 0 then -(1/2 : ℚ) else (1/2 : ℚ))
  let calcValue : ℚ := clampQ calcValue (-(2 ^ 31 : ℚ)) ((2 ^ 31 : ℚ) - 1)
  truncQ calcValue

/-- `ARINC429_BNR_ConvertEngValToRawBNRmsgData` restated through
`ARINC429_BNR_ScaledRawValue` (definitional). -/
theorem ConvertEngValToRaw_eq_scaled (numSigBits : Nat) (resolution dataEng : ℚ) :
    ARINC429_BNR_ConvertEngValToRawBNRmsgData numSigBits resolution dataEng =
      (if numSigBits < 1 ∨ numSigBits > ARINC429_BNR_STD_MSG_MAX_NUM_SIGBITS then
        none
      else
        let calcValueAsUint : Nat :=
          toUint32 (ARINC429_BNR_ScaledRawValue resolution dataEng)
        let datafieldOvfCheckMaskVal : Nat := u32 (UINT32_MAX <<< numSigBits)
        if calcValueAsUint &&& INT32_SIGN_BIT_MASK ≠ 0 then
          if (calcValueAsUint &&& datafieldOvfCheckMaskVal) ≠ datafieldOvfCheckMaskVal then
            some (1 <<< numSigBits, true)
          else
            some (calcValueAsUint, false)
        else
          if (calcValueAsUint &&& datafieldOvfCheckMaskVal) ≠ 0 then
            some (UINT32_MAX >>> (NUM_BITS_IN_UINT32 - numSigBits), true)
          else
            some (calcValueAsUint, false)) := rfl

theorem clampQ_mem {value low high : ℚ} (h : low ≤ high) :
    low ≤ clampQ value low high ∧ clampQ value low high ≤ high := by
  unfold clampQ
  split_ifs with h1 h2
  · exact ⟨h, le_refl _⟩
  · exact ⟨le_refl _, h⟩
  · constructor <;> linarith

theorem clampQ_id {value low high : ℚ} (h1 : low ≤ value) (h2 : value ≤ high) :
    clampQ value low high = value := by
  unfold clampQ
  split_ifs with ha hb
  · linarith
  · linarith
  · rfl

/-- The int32 cast of the clamped scaled value stays within int32 range. -/
theorem truncQ_clamp_int32_bounds (v : ℚ) :
    -(2 ^ 31) ≤ truncQ (clampQ v (-(2 ^ 31 : ℚ)) ((2 ^ 31 : ℚ) - 1)) ∧
      truncQ (clampQ v (-(2 ^ 31 : ℚ)) ((2 ^ 31 : ℚ) - 1)) ≤ 2 ^ 31 - 1 := by
  obtain ⟨h1, h2⟩ := @clampQ_mem v (-(2 ^ 31 : ℚ)) ((2 ^ 31 : ℚ) - 1)
    (by norm_num : (-(2 ^ 31 : ℚ)) ≤ (2 ^ 31 : ℚ) - 1)
  set c : ℚ := clampQ v (-(2 ^ 31 : ℚ)) ((2 ^ 31 : ℚ) - 1)
  unfold truncQ
  split_ifs with hneg
  · constructor
    · have hfl : (⌊-c⌋ : ℚ) ≤ -c := Int.floor_le _
      have : (⌊-c⌋ : ℚ) ≤ ((2 ^ 31 : Int) : ℚ) := by push_cast; linarith
      have : ⌊-c⌋ ≤ (2 ^ 31 : Int) := by exact_mod_cast this
      omega
    · have : (0 : Int) ≤ ⌊-c⌋ := Int.floor_nonneg.mpr (by linarith)
      omega
  · constructor
    · have : (0 : Int) ≤ ⌊c⌋ := Int.floor_nonneg.mpr (by linarith)
      omega
    · have hfl : (⌊c⌋ : ℚ) ≤ c := Int.floor_le _
      have : (⌊c⌋ : ℚ) ≤ ((2 ^ 31 - 1 : Int) : ℚ) := by push_cast; linarith
      exact_mod_cast this

/-- The scaled raw value always lies in the int32 range. -/
theorem scaledRawValue_bounds (resolution dataEng : ℚ) :
    -(2 ^ 31) ≤ ARINC429_BNR_ScaledRawValue resolution dataEng ∧
      ARINC429_BNR_ScaledRawValue resolution dataEng ≤ 2 ^ 31 - 1 :=
  truncQ_clamp_int32_bounds _

theorem toUint32_of_nonneg {r : Int} (h0 : 0 ≤ r) (h1 : r < 2 ^ 32) :
    toUint32 r = r.toNat := by
  unfold toUint32
  rw [Int.emod_eq_of_lt h0 h1]

theorem toUint32_of_neg {r : Int} (h0 : -(2 ^ 32) ≤ r) (h1 : r < 0) :
    toUint32 r = 2 ^ 32 - r.natAbs := by
  unfold toUint32
  have he : r % (2 ^ 32 : Int) = r + 2 ^ 32 := by omega
  rw [he]
  omega

/-- ANDing a 32-bit value with the mask of all bits from `n` upward
(`2^32 - 2^n`, i.e. `u32 (UINT32_MAX << n)`) zeroes the low `n` bits. -/
theorem and_high_mask {u n : Nat} (hn : n ≤ 32) (hu : u < 2 ^ 32) :
    u &&& (2 ^ 32 - 2 ^ n) = 2 ^ n * (u / 2 ^ n) := by
  have hmask : (2 ^ 32 - 2 ^ n : Nat) = (2 ^ (32 - n) - 1) <<< n := by
    rw [Nat.shiftLeft_eq, Nat.mul_sub_right_distrib, Nat.one_mul, ← Nat.pow_add]
    congr 2
    omega
  rw [hmask, and_mask_window]
  have hdivlt : u / 2 ^ n < 2 ^ (32 - n) := by
    apply Nat.div_lt_of_lt_mul
    calc u < 2 ^ 32 := hu
      _ = 2 ^ n * 2 ^ (32 - n) := by rw [← Nat.pow_add]; congr 1; omega
  rw [Nat.mod_eq_of_lt hdivlt, Nat.mul_comm]

/-- The datafield-overflow mask `u32 (UINT32_MAX << n)` in closed form,
and the sign-bit mask as a high mask. -/
theorem INT32_SIGN_BIT_MASK_eq : INT32_SIGN_BIT_MASK = 2 ^ 32 - 2 ^ 31 := by
  norm_num [INT32_SIGN_BIT_MASK]

/-- In-range case of the raw BNR conversion: the data field is the plain
two's-complement image and nothing is clipped. -/
theorem ConvertEngValToRaw_in_range (numSigBits : Nat) (resolution dataEng : ℚ)
    (h1 : 1 ≤ numSigBits) (h2 : numSigBits ≤ 20)
    (hlo : -(2 ^ numSigBits) ≤ ARINC429_BNR_ScaledRawValue resolution dataEng)
    (hhi : ARINC429_BNR_ScaledRawValue resolution dataEng ≤ 2 ^ numSigBits - 1) :
    ARINC429_BNR_ConvertEngValToRawBNRmsgData numSigBits resolution dataEng =
      some (toUint32 (ARINC429_BNR_ScaledRawValue resolution dataEng), false) := by
  obtain ⟨hb1, hb2⟩ := scaledRawValue_bounds resolution dataEng
  rw [ConvertEngValToRaw_eq_scaled,
    if_neg (by rw [ARINC429_BNR_STD_MSG_MAX_NUM_SIGBITS]; omega)]
  dsimp only
  have hcast : ((2 ^ numSigBits : Nat) : Int) = 2 ^ numSigBits := by push_cast; ring
  have hple : (2 : Nat) ^ numSigBits ≤ 2 ^ 20 := Nat.pow_le_pow_right (by norm_num) h2
  have hmask : u32 (UINT32_MAX <<< numSigBits) = 2 ^ 32 - 2 ^ numSigBits :=
    UINT32_MAX_shiftLeft_u32 (by omega)
  rw [hmask, INT32_SIGN_BIT_MASK_eq]
  set r := ARINC429_BNR_ScaledRawValue resolution dataEng with hrdef
  rcases lt_or_le r 0 with hneg | hpos
  · have hu : toUint32 r = 2 ^ 32 - r.natAbs := toUint32_of_neg (by omega) hneg
    have ha1 : 1 ≤ r.natAbs := by omega
    have ha2 : r.natAbs ≤ 2 ^ numSigBits := by omega
    have hult : 2 ^ 32 - r.natAbs < 2 ^ 32 := by omega
    have he : (2 : Nat) ^ (32 - numSigBits) * 2 ^ numSigBits = 2 ^ 32 := by
      rw [← Nat.pow_add]; congr 1; omega
    have hdiv31 : (2 ^ 32 - r.natAbs) / 2 ^ 31 = 1 :=
      Nat.div_eq_of_lt_le (by omega) (by omega)
    have hsign : toUint32 r &&& (2 ^ 32 - 2 ^ 31) = 2 ^ 31 := by
      rw [hu, and_high_mask (by norm_num) hult, hdiv31, Nat.mul_one]
    have hdivn : (2 ^ 32 - r.natAbs) / 2 ^ numSigBits = 2 ^ (32 - numSigBits) - 1 :=
      Nat.div_eq_of_lt_le
        (by rw [Nat.mul_sub_right_distrib, Nat.one_mul, he]; omega)
        (by rw [Nat.sub_add_cancel (Nat.one_le_two_pow), he]; omega)
    have he' : (2 : Nat) ^ numSigBits * 2 ^ (32 - numSigBits) = 2 ^ 32 := by
      rw [← Nat.pow_add]; congr 1; omega
    have hfield : toUint32 r &&& (2 ^ 32 - 2 ^ numSigBits) = 2 ^ 32 - 2 ^ numSigBits := by
      rw [hu, and_high_mask (by omega) hult, hdivn, Nat.mul_sub_left_distrib, Nat.mul_one]
      omega
    rw [if_pos (by rw [hsign]; positivity), if_neg (by rw [hfield]; simp)]
  · have hu : toUint32 r = r.toNat := toUint32_of_nonneg hpos (by omega)
    have ha : r.toNat < 2 ^ numSigBits := by omega
    have hult : r.toNat < 2 ^ 32 := by omega
    have hsign : toUint32 r &&& (2 ^ 32 - 2 ^ 31) = 0 := by
      rw [hu, and_high_mask (by norm_num) hult, Nat.div_eq_of_lt (by omega), Nat.mul_zero]
    have hfield : toUint32 r &&& (2 ^ 32 - 2 ^ numSigBits) = 0 := by
      rw [hu, and_high_mask (by omega) hult, Nat.div_eq_of_lt ha, Nat.mul_zero]
    rw [if_neg (by rw [hsign]; simp), if_neg (by rw [hfield]; simp)]

/-- Positive-overflow case of the raw BNR conversion: the data field is
clipped to the maximum representable value `2^numSigBits - 1`. -/
theorem ConvertEngValToRaw_pos_overflow (numSigBits : Nat) (resolution dataEng : ℚ)
    (h1 : 1 ≤ numSigBits) (h2 : numSigBits ≤ 20)
    (hof : 2 ^ numSigBits ≤ ARINC429_BNR_ScaledRawValue resolution dataEng) :
    ARINC429_BNR_ConvertEngValToRawBNRmsgData numSigBits resolution dataEng =
      some (2 ^ numSigBits - 1, true) := by
  obtain ⟨hb1, hb2⟩ := scaledRawValue_bounds resolution dataEng
  rw [ConvertEngValToRaw_eq_scaled,
    if_neg (by rw [ARINC429_BNR_STD_MSG_MAX_NUM_SIGBITS]; omega)]
  dsimp only
  have hcast : ((2 ^ numSigBits : Nat) : Int) = 2 ^ numSigBits := by push_cast; ring
  have hple : (2 : Nat) ^ numSigBits ≤ 2 ^ 20 := Nat.pow_le_pow_right (by norm_num) h2
  have hip : (0 : Int) < 2 ^ numSigBits := by positivity
  have hmask : u32 (UINT32_MAX <<< numSigBits) = 2 ^ 32 - 2 ^ numSigBits :=
    UINT32_MAX_shiftLeft_u32 (by omega)
  rw [hmask, INT32_SIGN_BIT_MASK_eq]
  set r := ARINC429_BNR_ScaledRawValue resolution dataEng with hrdef
  have hpos : (0 : Int) ≤ r := by omega
  have hu : toUint32 r = r.toNat := toUint32_of_nonneg hpos (by omega)
  have ha1 : 2 ^ numSigBits ≤ r.toNat := by omega
  have ha2 : r.toNat < 2 ^ 31 := by omega
  have hult : r.toNat < 2 ^ 32 := by omega
  have hsign : toUint32 r &&& (2 ^ 32 - 2 ^ 31) = 0 := by
    rw [hu, and_high_mask (by norm_num) hult, Nat.div_eq_of_lt (by omega), Nat.mul_zero]
  have hdpos : 1 ≤ r.toNat / 2 ^ numSigBits :=
    (Nat.one_le_div_iff (Nat.two_pow_pos _)).mpr ha1
  have hfield : toUint32 r &&& (2 ^ 32 - 2 ^ numSigBits) ≠ 0 := by
    rw [hu, and_high_mask (by omega) hult]
    have := Nat.two_pow_pos numSigBits
    exact Nat.ne_of_gt (by positivity)
  rw [if_neg (by rw [hsign]; simp), if_pos hfield]
  rw [NUM_BITS_IN_UINT32, UINT32_MAX_shiftRight (by omega)]
  have he : 32 - (32 - numSigBits) = numSigBits := by omega
  rw [he]

/-- Negative-overflow case of the raw BNR conversion: the data field is
clipped to the minimum representable pattern `2^numSigBits` (sign bit set,
all other field bits zero). -/
theorem ConvertEngValToRaw_neg_overflow (numSigBits : Nat) (resolution dataEng : ℚ)
    (h1 : 1 ≤ numSigBits) (h2 : numSigBits ≤ 20)
    (hof : ARINC429_BNR_ScaledRawValue resolution dataEng < -(2 ^ numSigBits)) :
    ARINC429_BNR_ConvertEngValToRawBNRmsgData numSigBits resolution dataEng =
      some (2 ^ numSigBits, true) := by
  obtain ⟨hb1, hb2⟩ := scaledRawValue_bounds resolution dataEng
  rw [ConvertEngValToRaw_eq_scaled,
    if_neg (by rw [ARINC429_BNR_STD_MSG_MAX_NUM_SIGBITS]; omega)]
  dsimp only
  have hcast : ((2 ^ numSigBits : Nat) : Int) = 2 ^ numSigBits := by push_cast; ring
  have hple : (2 : Nat) ^ numSigBits ≤ 2 ^ 20 := Nat.pow_le_pow_right (by norm_num) h2
  have hmask : u32 (UINT32_MAX <<< numSigBits) = 2 ^ 32 - 2 ^ numSigBits :=
    UINT32_MAX_shiftLeft_u32 (by omega)
  have hip : (0 : Int) < 2 ^ numSigBits := by positivity
  rw [hmask, INT32_SIGN_BIT_MASK_eq]
  set r := ARINC429_BNR_ScaledRawValue resolution dataEng with hrdef
  have hneg : r < 0 := by omega
  have hu : toUint32 r = 2 ^ 32 - r.natAbs := toUint32_of_neg (by omega) hneg
  have ha1 : 2 ^ numSigBits < r.natAbs := by omega
  have ha2 : r.natAbs ≤ 2 ^ 31 := by omega
  have hult : 2 ^ 32 - r.natAbs < 2 ^ 32 := by omega
  have hdiv31 : (2 ^ 32 - r.natAbs) / 2 ^ 31 = 1 :=
    Nat.div_eq_of_lt_le (by omega) (by omega)
  have hsign : toUint32 r &&& (2 ^ 32 - 2 ^ 31) = 2 ^ 31 := by
    rw [hu, and_high_mask (by norm_num) hult, hdiv31, Nat.mul_one]
  have hfield : toUint32 r &&& (2 ^ 32 - 2 ^ numSigBits) ≠ 2 ^ 32 - 2 ^ numSigBits := by
    have hle : toUint32 r &&& (2 ^ 32 - 2 ^ numSigBits) ≤ toUint32 r := Nat.and_le_left
    have : toUint32 r < 2 ^ 32 - 2 ^ numSigBits := by rw [hu]; omega
    omega
  rw [if_pos (by rw [hsign]; positivity), if_pos hfield]
  rw [Nat.shiftLeft_eq, Nat.one_mul]

/-- `ARINC429_BNR_ScaledRawValue` with nonzero resolution, unfolded. -/
theorem scaledRawValue_eq (resolution dataEng : ℚ) (h : resolution ≠ 0) :
    ARINC429_BNR_ScaledRawValue resolution dataEng =
      truncQ (clampQ (dataEng / resolution +
          (if dataEng / resolution < 0 then -(1/2 : ℚ) else (1/2 : ℚ)))
        (-(2 ^ 31 : ℚ)) ((2 ^ 31 : ℚ) - 1)) := by
  simp only [ARINC429_BNR_ScaledRawValue]
  rw [if_pos h]

/-- With zero resolution the C code scales to `0`, rounds to `0.5` and
truncates back to `0`. -/
theorem scaledRawValue_zero_res (dataEng : ℚ) :
    ARINC429_BNR_ScaledRawValue 0 dataEng = 0 := by
  have h1 : ARINC429_BNR_ScaledRawValue 0 dataEng =
      truncQ (clampQ ((1 : ℚ)/2) (-(2 ^ 31 : ℚ)) ((2 ^ 31 : ℚ) - 1)) := by
    simp only [ARINC429_BNR_ScaledRawValue]
    norm_num
  have h2 : ⌊(1 : ℚ)/2⌋ = 0 := by
    rw [Int.floor_eq_zero_iff, Set.mem_Ico]
    norm_num
  rw [h1, clampQ_id (by norm_num) (by norm_num), truncQ,
    if_neg (by norm_num : ¬((1 : ℚ)/2 < 0)), h2]

/-- Rounding half-away-from-zero then clamping to int32 moves a value of
magnitude at most `M ≤ 2^31 - 2` by at most one half, and the result has
magnitude at most `M`. -/
theorem roundClampTrunc_props (v : ℚ) (M : Nat) (hM : (M : ℚ) ≤ 2 ^ 31 - 2)
    (h : |v| ≤ (M : ℚ)) :
    |(truncQ (clampQ (v + (if v < 0 then -(1/2 : ℚ) else (1/2 : ℚ)))
        (-(2 ^ 31 : ℚ)) ((2 ^ 31 : ℚ) - 1)) : ℚ) - v| ≤ 1 / 2 ∧
    (truncQ (clampQ (v + (if v < 0 then -(1/2 : ℚ) else (1/2 : ℚ)))
        (-(2 ^ 31 : ℚ)) ((2 ^ 31 : ℚ) - 1))).natAbs ≤ M := by
  obtain ⟨habs1, habs2⟩ := abs_le.mp h
  have hM0 : (0 : ℚ) ≤ (M : ℚ) := Nat.cast_nonneg M
  by_cases hv : v < 0
  · rw [if_pos hv,
      clampQ_id (by linarith) (by linarith),
      truncQ, if_pos (by linarith : v + -(1/2 : ℚ) < 0),
      (by ring : -(v + -(1/2 : ℚ)) = -v + 1/2)]
    have hf1 : (⌊-v + 1/2⌋ : ℚ) ≤ -v + 1/2 := Int.floor_le _
    have hf2 : -v + 1/2 < (⌊-v + 1/2⌋ : ℚ) + 1 := Int.lt_floor_add_one _
    have hf0 : (0 : Int) ≤ ⌊-v + (1 : ℚ)/2⌋ := Int.floor_nonneg.mpr (by linarith)
    have hfM : ⌊-v + (1 : ℚ)/2⌋ ≤ (M : Int) := by
      have h5 : (⌊-v + (1 : ℚ)/2⌋ : ℚ) < (M : ℚ) + 1 := by push_cast; linarith
      have h6 : ⌊-v + (1 : ℚ)/2⌋ < (M : Int) + 1 := by exact_mod_cast h5
      omega
    constructor
    · rw [abs_le]
      push_cast
      constructor <;> linarith
    · omega
  · rw [if_neg hv]
    push_neg at hv
    rw [clampQ_id (by linarith) (by linarith),
      truncQ, if_neg (not_lt.mpr (by linarith : (0 : ℚ) ≤ v + 1/2))]
    have hf1 : (⌊v + 1/2⌋ : ℚ) ≤ v + 1/2 := Int.floor_le _
    have hf2 : v + 1/2 < (⌊v + 1/2⌋ : ℚ) + 1 := Int.lt_floor_add_one _
    have hf0 : (0 : Int) ≤ ⌊v + (1 : ℚ)/2⌋ := Int.floor_nonneg.mpr (by linarith)
    have hfM : ⌊v + (1 : ℚ)/2⌋ ≤ (M : Int) := by
      have h5 : (⌊v + (1 : ℚ)/2⌋ : ℚ) < (M : ℚ) + 1 := by push_cast; linarith
      have h6 : ⌊v + (1 : ℚ)/2⌋ < (M : Int) + 1 := by exact_mod_cast h5
      omega
    constructor
    · rw [abs_le]
      push_cast
      constructor <;> linarith
    · omega

/-- If the scale bound `M` fits well inside int32, the scaled raw value
approximates `dataEng / resolution` to within half a unit: its magnitude
stays within `M` and scaling back moves it at most half a resolution from
the original engineering value. -/
theorem scaledRawValue_approx (resolution dataEng : ℚ) (M : Nat) (hM : M ≤ 2 ^ 30)
    (h : |dataEng| ≤ (M : ℚ) * |resolution|) :
    (ARINC429_BNR_ScaledRawValue resolution dataEng).natAbs ≤ M ∧
      |(ARINC429_BNR_ScaledRawValue resolution dataEng : ℚ) * resolution - dataEng| ≤
        |resolution| / 2 := by
  by_cases hres : resolution = 0
  · subst hres
    rw [scaledRawValue_zero_res]
    have h0 : dataEng = 0 := by
      have h1 : |dataEng| ≤ 0 := by simpa using h
      simpa using le_antisymm h1 (abs_nonneg _)
    subst h0
    constructor <;> simp
  · have hrpos : 0 < |resolution| := abs_pos.mpr hres
    have hcalc : |dataEng / resolution| ≤ (M : ℚ) := by
      rw [abs_div, div_le_iff hrpos]
      exact h
    have hMQ : (M : ℚ) ≤ 2 ^ 31 - 2 := by
      have h1 : (M : ℚ) ≤ ((2 ^ 30 : Nat) : ℚ) := Nat.cast_le.mpr hM
      norm_num at h1
      norm_num
      linarith
    rw [scaledRawValue_eq resolution dataEng hres]
    obtain ⟨ha, hb⟩ := roundClampTrunc_props (dataEng / resolution) M hMQ hcalc
    set t : Int := truncQ (clampQ (dataEng / resolution +
        (if dataEng / resolution < 0 then -(1/2 : ℚ) else (1/2 : ℚ)))
      (-(2 ^ 31 : ℚ)) ((2 ^ 31 : ℚ) - 1)) with htdef
    refine ⟨hb, ?_⟩
    have hkey : (t : ℚ) * resolution - dataEng =
        ((t : ℚ) - dataEng / resolution) * resolution := by
      rw [sub_mul, div_mul_cancel₀ _ hres]
    rw [hkey, abs_mul]
    calc |(t : ℚ) - dataEng / resolution| * |resolution| ≤ (1/2) * |resolution| :=
          mul_le_mul_of_nonneg_right ha (abs_nonneg _)
      _ = |resolution| / 2 := by ring

/-- A number with its bit `k` set absorbs `2^k` under bitwise or. -/
theorem two_pow_or_self_of_bit {d k : Nat} (h1 : 2 ^ k ≤ d) (h2 : d < 2 ^ (k + 1)) :
    2 ^ k ||| d = d := by
  have hp : (2 : Nat) ^ (k + 1) = 2 ^ k + 2 ^ k := by rw [Nat.pow_succ]; omega
  have hlt : d - 2 ^ k < 2 ^ k := by omega
  have hd : d = 2 ^ k * 1 + (d - 2 ^ k) := by omega
  calc 2 ^ k ||| d = 2 ^ k ||| (2 ^ k * 1 ||| (d - 2 ^ k)) := by
        rw [two_pow_mul_or_eq_add hlt, ← hd]
    _ = (2 ^ k ||| 2 ^ k * 1) ||| (d - 2 ^ k) := by rw [Nat.or_assoc]
    _ = 2 ^ k * 1 ||| (d - 2 ^ k) := by rw [Nat.mul_one, Nat.or_self]
    _ = d := by rw [two_pow_mul_or_eq_add hlt, ← hd]

/-- Decoding the `numSigBits+1`-bit data field cut from the 32-bit two's
complement image of an in-range signed value recovers the value exactly
(`ARINC429_BNR_ConvertRawMsgDataToEngUnits` sign-extends bit
`numSigBits`). -/
theorem ConvertRawToEng_signed (numSigBits : Nat) (resolution : ℚ) (r : Int)
    (h1 : 1 ≤ numSigBits) (h2 : numSigBits ≤ 20)
    (hlo : -(2 ^ numSigBits) ≤ r) (hhi : r ≤ 2 ^ numSigBits - 1) :
    ARINC429_BNR_ConvertRawMsgDataToEngUnits numSigBits resolution
        (toUint32 r % 2 ^ (numSigBits + 1)) = some ((r : ℚ) * resolution) := by
  have hcast : ((2 ^ numSigBits : Nat) : Int) = 2 ^ numSigBits := by push_cast; ring
  have hple : (2 : Nat) ^ numSigBits ≤ 2 ^ 20 := Nat.pow_le_pow_right (by norm_num) h2
  have hple2 : (2 : Nat) ^ (numSigBits + 1) ≤ 2 ^ 21 :=
    Nat.pow_le_pow_right (by norm_num) (by omega)
  have hip : (0 : Int) < 2 ^ numSigBits := by positivity
  have hdbl : (2 : Nat) ^ (numSigBits + 1) = 2 ^ numSigBits * 2 := pow_succ 2 numSigBits
  rw [ARINC429_BNR_ConvertRawMsgDataToEngUnits,
    if_neg (by rw [ARINC429_BNR_STD_MSG_MAX_NUM_SIGBITS]; omega)]
  dsimp only
  have hmask : u32 (UINT32_MAX <<< numSigBits) = 2 ^ 32 - 2 ^ numSigBits :=
    UINT32_MAX_shiftLeft_u32 (by omega)
  rw [hmask, Nat.shiftLeft_eq, Nat.one_mul]
  rcases lt_or_le r 0 with hneg | hpos
  · have hu : toUint32 r = 2 ^ 32 - r.natAbs := toUint32_of_neg (by omega) hneg
    have ha1 : 1 ≤ r.natAbs := by omega
    have ha2 : r.natAbs ≤ 2 ^ numSigBits := by omega
    have he : (2 : Nat) ^ (31 - numSigBits) * 2 ^ (numSigBits + 1) = 2 ^ 32 := by
      rw [← Nat.pow_add]; congr 1; omega
    have hm2 : ((2 : Nat) ^ (31 - numSigBits) - 1) * 2 ^ (numSigBits + 1) =
        2 ^ 32 - 2 ^ (numSigBits + 1) := by
      rw [Nat.mul_sub_right_distrib, Nat.one_mul, he]
    have hm2' : (2 : Nat) ^ (numSigBits + 1) * (2 ^ (31 - numSigBits) - 1) =
        2 ^ 32 - 2 ^ (numSigBits + 1) := by rw [Nat.mul_comm]; exact hm2
    have hd : toUint32 r % 2 ^ (numSigBits + 1) = 2 ^ (numSigBits + 1) - r.natAbs := by
      rw [hu]
      have hsplit : 2 ^ 32 - r.natAbs = 2 ^ (numSigBits + 1) - r.natAbs +
          ((2 : Nat) ^ (31 - numSigBits) - 1) * 2 ^ (numSigBits + 1) := by
        omega
      rw [hsplit, Nat.add_mul_mod_self_right, Nat.mod_eq_of_lt (by omega)]
    rw [hd]
    have hbit : 2 ^ numSigBits &&& (2 ^ (numSigBits + 1) - r.natAbs) =
        2 ^ numSigBits := by
      rw [Nat.and_comm]
      exact and_two_pow_eq_of_ge (by omega) (by omega)
    rw [if_pos (by rw [hbit]; positivity)]
    have hms : (2 ^ 32 - 2 ^ numSigBits : Nat) =
        2 ^ (numSigBits + 1) * (2 ^ (31 - numSigBits) - 1) ||| 2 ^ numSigBits := by
      rw [two_pow_mul_or_eq_add (by omega : (2 : Nat) ^ numSigBits < 2 ^ (numSigBits + 1)),
        hm2']
      omega
    have hor : (2 ^ (numSigBits + 1) - r.natAbs) ||| (2 ^ 32 - 2 ^ numSigBits) =
        2 ^ 32 - r.natAbs := by
      rw [hms,
        Nat.or_comm (2 ^ (numSigBits + 1) * (2 ^ (31 - numSigBits) - 1)) (2 ^ numSigBits),
        ← Nat.or_assoc,
        Nat.or_comm (2 ^ (numSigBits + 1) - r.natAbs) (2 ^ numSigBits),
        two_pow_or_self_of_bit (by omega) (by omega),
        or_two_pow_mul_eq_add (by omega), hm2']
      omega
    rw [hor, toInt32, if_neg (by omega)]
    have hc2 : ((2 ^ 32 - r.natAbs : Nat) : Int) - 2 ^ 32 = r := by omega
    rw [hc2]
  · have hu : toUint32 r = r.toNat := toUint32_of_nonneg hpos (by omega)
    have ha : r.toNat < 2 ^ numSigBits := by omega
    have hd : toUint32 r % 2 ^ (numSigBits + 1) = r.toNat := by
      rw [hu, Nat.mod_eq_of_lt (by omega)]
    rw [hd]
    have hbit : 2 ^ numSigBits &&& r.toNat = 0 := by
      rw [Nat.and_comm]
      exact and_two_pow_eq_zero_of_lt ha
    rw [if_neg (by rw [hbit]; simp), toInt32, if_pos (by omega)]
    rw [Int.toNat_of_nonneg hpos]

/-- The data-field shifting-and-masking of `ARINC429_AssembleStdBNRmessage`
keeps exactly the `numSigBits+1` low bits of the converted raw data,
shifted up to bit `28 - numSigBits`. -/
theorem dataFieldShifted_eq (numSigBits u : Nat) (h1 : 1 ≤ numSigBits)
    (h2 : numSigBits ≤ 20) :
    (if numSigBits = ARINC429_BNR_STD_MSG_NUM_SIGBITS_20 then
      u32 (u <<< (ARINC429_BNR_MAX_DATA_FIELD_SHIFT - numSigBits)) &&&
        ARINC429_BNR_STD_MSG_DATAFIELDMASK_20SIGBITS
    else if numSigBits = ARINC429_BNR_STD_MSG_NUM_SIGBITS_19 then
      u32 (u <<< (ARINC429_BNR_MAX_DATA_FIELD_SHIFT - numSigBits)) &&&
        ARINC429_BNR_STD_MSG_DATAFIELDMASK_19SIGBITS
    else
      u32 (u <<< (ARINC429_BNR_MAX_DATA_FIELD_SHIFT - numSigBits)) &&&
        ARINC429_BNR_STD_MSG_DATAFIELDMASK_UPTO18SIGBITS) =
    2 ^ (28 - numSigBits) * (u % 2 ^ (numSigBits + 1)) := by
  rw [ARINC429_BNR_STD_MSG_NUM_SIGBITS_20, ARINC429_BNR_STD_MSG_NUM_SIGBITS_19,
    ARINC429_BNR_STD_MSG_DATAFIELDMASK_20SIGBITS,
    ARINC429_BNR_STD_MSG_DATAFIELDMASK_19SIGBITS,
    ARINC429_BNR_STD_MSG_DATAFIELDMASK_UPTO18SIGBITS,
    ARINC429_BNR_MAX_DATA_FIELD_SHIFT, u32, Nat.shiftLeft_eq]
  by_cases h20 : numSigBits = 20
  · subst h20
    rw [if_pos rfl]
    have hm : (0x1FFFFF00 : Nat) = (2 ^ 21 - 1) <<< 8 := by
      rw [Nat.shiftLeft_eq]; norm_num
    have h32 : (2 : Nat) ^ 32 = 2 ^ 24 * 2 ^ 8 := by norm_num
    rw [hm, and_mask_window, h32, Nat.mul_mod_mul_right,
      Nat.mul_div_cancel _ (Nat.two_pow_pos 8),
      Nat.mod_mod_of_dvd _ (by norm_num : (2 : Nat) ^ 21 ∣ 2 ^ 24)]
    ring
  · by_cases h19 : numSigBits = 19
    · subst h19
      rw [if_neg h20, if_pos rfl]
      have hm : (0x1FFFFE00 : Nat) = (2 ^ 20 - 1) <<< 9 := by
        rw [Nat.shiftLeft_eq]; norm_num
      have h32 : (2 : Nat) ^ 32 = 2 ^ 23 * 2 ^ 9 := by norm_num
      rw [hm, and_mask_window, h32, Nat.mul_mod_mul_right,
        Nat.mul_div_cancel _ (Nat.two_pow_pos 9),
        Nat.mod_mod_of_dvd _ (by norm_num : (2 : Nat) ^ 20 ∣ 2 ^ 23)]
      ring
    · rw [if_neg h20, if_neg h19]
      have h18 : numSigBits ≤ 18 := by omega
      have hm : (0x1FFFFC00 : Nat) = (2 ^ 19 - 1) <<< 10 := by
        rw [Nat.shiftLeft_eq]; norm_num
      rw [hm, and_mask_window]
      have hsplit : (2 : Nat) ^ 32 = 2 ^ (numSigBits + 4) * 2 ^ (28 - numSigBits) := by
        rw [← Nat.pow_add]; congr 1; omega
      rw [hsplit, Nat.mul_mod_mul_right]
      have hs2 : (2 : Nat) ^ (28 - numSigBits) = 2 ^ (18 - numSigBits) * 2 ^ 10 := by
        rw [← Nat.pow_add]; congr 1; omega
      rw [hs2, ← Nat.mul_assoc, Nat.mul_div_cancel _ (Nat.two_pow_pos 10)]
      have hs3 : (2 : Nat) ^ 19 = 2 ^ (numSigBits + 1) * 2 ^ (18 - numSigBits) := by
        rw [← Nat.pow_add]; congr 1; omega
      rw [hs3, Nat.mul_mod_mul_right,
        Nat.mod_mod_of_dvd _ (pow_dvd_pow 2 (by omega : numSigBits + 1 ≤ numSigBits + 4))]
      ring

/-- Composing the or-chain of an assembled BNR word into a sum (variant
with an SDI field below the data field). -/
theorem bnr_word_or_eq_add {t q : Nat} (lbl sdi ssm : Nat)
    (hlow : lbl ||| sdi < 2 ^ t) (hq : q < 2 ^ (29 - t)) (ht : t ≤ 29) :
    ((lbl ||| 2 ^ t * q) ||| sdi) ||| 2 ^ 29 * ssm =
      2 ^ 29 * ssm + (2 ^ t * q + (lbl ||| sdi)) := by
  have h29 : (2 : Nat) ^ t * 2 ^ (29 - t) = 2 ^ 29 := by
    rw [← Nat.pow_add]; congr 1; omega
  have hsum : 2 ^ t * q + (lbl ||| sdi) < 2 ^ 29 := by
    have hta : (2 : Nat) ^ t ≤ 2 ^ 29 := Nat.pow_le_pow_right (by norm_num) ht
    have hb : 2 ^ t * q ≤ 2 ^ t * (2 ^ (29 - t) - 1) := Nat.mul_le_mul_left _ (by omega)
    have h2 : (2 : Nat) ^ t * (2 ^ (29 - t) - 1) = 2 ^ 29 - 2 ^ t := by
      rw [Nat.mul_sub_left_distrib, Nat.mul_one, h29]
    omega
  rw [Nat.or_comm lbl (2 ^ t * q), Nat.or_assoc (2 ^ t * q) lbl sdi,
    two_pow_mul_or_eq_add hlow, or_two_pow_mul_eq_add hsum]

/-- Composing the or-chain of an assembled BNR word into a sum (variant
without an SDI field, used for 19- and 20-bit messages). -/
theorem bnr_word_or_eq_add2 {t q : Nat} (lbl ssm : Nat)
    (hlow : lbl < 2 ^ t) (hq : q < 2 ^ (29 - t)) (ht : t ≤ 29) :
    (lbl ||| 2 ^ t * q) ||| 2 ^ 29 * ssm = 2 ^ 29 * ssm + (2 ^ t * q + lbl) := by
  have h := bnr_word_or_eq_add (t := t) (q := q) lbl 0 ssm (by simpa using hlow) hq ht
  simpa using h

/-- Structure of an assembled BNR word: SSM in bits 29-30, the
`numSigBits+1`-bit data field at bit `28 - numSigBits`, and label/SDI
strictly below the data field. -/
theorem AssembleStdBNRmessage_word (txMsg : ARINC429_TxMsg) (u : Nat) (c : Bool)
    (h1 : 1 ≤ txMsg.msgConfig.numSigBits) (h2 : txMsg.msgConfig.numSigBits ≤ 20)
    (hlbl : txMsg.msgConfig.label < 2 ^ 8)
    (hdb : txMsg.discreteBits = 0)
    (hconv : ARINC429_BNR_ConvertEngValToRawBNRmsgData txMsg.msgConfig.numSigBits
      txMsg.msgConfig.resolution txMsg.engData = some (u, c)) :
    ∃ low : Nat, low < 2 ^ (28 - txMsg.msgConfig.numSigBits) ∧
      (ARINC429_AssembleStdBNRmessage txMsg).2 =
        some (2 ^ 29 * (txMsg.SM &&& ARINC429_SSM_FIELD_LIMIT_MASK) +
          (2 ^ (28 - txMsg.msgConfig.numSigBits) *
              (u % 2 ^ (txMsg.msgConfig.numSigBits + 1)) +
            low)) := by
  have hle8 : (2 : Nat) ^ 8 ≤ 2 ^ (28 - txMsg.msgConfig.numSigBits) :=
    Nat.pow_le_pow_right (by norm_num) (by omega)
  have hq : u % 2 ^ (txMsg.msgConfig.numSigBits + 1) <
      2 ^ (29 - (28 - txMsg.msgConfig.numSigBits)) := by
    have he : 29 - (28 - txMsg.msgConfig.numSigBits) = txMsg.msgConfig.numSigBits + 1 := by
      omega
    rw [he]
    exact Nat.mod_lt _ (Nat.two_pow_pos _)
  have hssm : (txMsg.SM &&& ARINC429_SSM_FIELD_LIMIT_MASK) <<<
      ARINC429_SSM_FIELD_SHIFT_VAL =
      2 ^ 29 * (txMsg.SM &&& ARINC429_SSM_FIELD_LIMIT_MASK) := by
    rw [ARINC429_SSM_FIELD_SHIFT_VAL, Nat.shiftLeft_eq, Nat.mul_comm]
  simp only [ARINC429_AssembleStdBNRmessage, hconv]
  simp only [hdb, Nat.zero_and, Nat.zero_shiftLeft, ite_self, Nat.or_zero]
  rw [dataFieldShifted_eq txMsg.msgConfig.numSigBits u h1 h2, hssm,
    ARINC429_BNR_STD_MSG_NUM_SIGBITS_18]
  by_cases h18 : txMsg.msgConfig.numSigBits ≤ 18
  · refine ⟨txMsg.msgConfig.label |||
      ((txMsg.SDI &&& ARINC429_SDI_FIELD_LIMIT_MASK) <<< ARINC429_SDI_FIELD_SHIFT_VAL),
      ?_, ?_⟩
    · apply Nat.or_lt_two_pow (Nat.lt_of_lt_of_le hlbl hle8)
      rw [ARINC429_SDI_FIELD_SHIFT_VAL, Nat.shiftLeft_eq]
      have hsdi3 : txMsg.SDI &&& ARINC429_SDI_FIELD_LIMIT_MASK ≤ 3 := by
        have h := Nat.and_le_right (n := txMsg.SDI) (m := ARINC429_SDI_FIELD_LIMIT_MASK)
        rw [ARINC429_SDI_FIELD_LIMIT_MASK] at h
        exact h
      have h10 : (2 : Nat) ^ 10 ≤ 2 ^ (28 - txMsg.msgConfig.numSigBits) :=
        Nat.pow_le_pow_right (by norm_num) (by omega)
      have : (txMsg.SDI &&& ARINC429_SDI_FIELD_LIMIT_MASK) * 2 ^ 8 ≤ 3 * 2 ^ 8 :=
        Nat.mul_le_mul_right _ hsdi3
      omega
    · rw [if_pos h18, bnr_word_or_eq_add _ _ _ ?hlow hq (by omega)]
      case hlow =>
        apply Nat.or_lt_two_pow (Nat.lt_of_lt_of_le hlbl hle8)
        rw [ARINC429_SDI_FIELD_SHIFT_VAL, Nat.shiftLeft_eq]
        have hsdi3 : txMsg.SDI &&& ARINC429_SDI_FIELD_LIMIT_MASK ≤ 3 := by
          have h := Nat.and_le_right (n := txMsg.SDI) (m := ARINC429_SDI_FIELD_LIMIT_MASK)
          rw [ARINC429_SDI_FIELD_LIMIT_MASK] at h
          exact h
        have h10 : (2 : Nat) ^ 10 ≤ 2 ^ (28 - txMsg.msgConfig.numSigBits) :=
          Nat.pow_le_pow_right (by norm_num) (by omega)
        have : (txMsg.SDI &&& ARINC429_SDI_FIELD_LIMIT_MASK) * 2 ^ 8 ≤ 3 * 2 ^ 8 :=
          Nat.mul_le_mul_right _ hsdi3
        omega
  · refine ⟨txMsg.msgConfig.label, Nat.lt_of_lt_of_le hlbl hle8, ?_⟩
    rw [if_neg h18,
      bnr_word_or_eq_add2 _ _ (Nat.lt_of_lt_of_le hlbl hle8) hq (by omega)]

/-- Extracting the data-field window of a word of the assembled shape
recovers the `numSigBits+1` low bits of the raw conversion result. -/
theorem bnr_word_extract (numSigBits a q low : Nat) (h1 : 1 ≤ numSigBits)
    (h2 : numSigBits ≤ 20) (hq : q < 2 ^ (numSigBits + 1))
    (hlow : low < 2 ^ (28 - numSigBits)) :
    ((2 ^ 29 * a + (2 ^ (28 - numSigBits) * q + low)) >>>
        (ARINC429_BNR_MAX_DATA_FIELD_SHIFT - numSigBits)) &&&
      (UINT32_MAX >>> (NUM_BITS_IN_UINT32 - numSigBits - 1)) = q := by
  rw [ARINC429_BNR_MAX_DATA_FIELD_SHIFT, NUM_BITS_IN_UINT32,
    UINT32_MAX_shiftRight (by omega)]
  have hmexp : 32 - (32 - numSigBits - 1) = numSigBits + 1 := by omega
  rw [hmexp, Nat.and_pow_two_sub_one_eq_mod, Nat.shiftRight_eq_div_pow]
  have h29 : (2 : Nat) ^ (28 - numSigBits) * 2 ^ (numSigBits + 1) = 2 ^ 29 := by
    rw [← Nat.pow_add]; congr 1; omega
  have hsplit : 2 ^ 29 * a + (2 ^ (28 - numSigBits) * q + low) =
      2 ^ (28 - numSigBits) * (2 ^ (numSigBits + 1) * a + q) + low := by
    rw [Nat.mul_add, ← Nat.mul_assoc, h29]
    ring
  rw [hsplit, Nat.mul_add_div (Nat.two_pow_pos _), Nat.div_eq_of_lt hlow, Nat.add_zero,
    Nat.mul_comm (2 ^ (numSigBits + 1)) a,
    Nat.add_comm (a * 2 ^ (numSigBits + 1)) q,
    Nat.add_mul_mod_self_right, Nat.mod_eq_of_lt hq]

/-- `ARINC429_ProcessStdBNRmessage` on a word whose data-field decode
succeeds: returns SUCCESS and stores the decoded engineering value. -/
theorem ProcessStdBNRmessage_success (slot : ARINC429_RxMsg) (w : Nat) (dataEng : ℚ)
    (hdec : ARINC429_BNR_ConvertRawMsgDataToEngUnits slot.msgConfig.numSigBits
        slot.msgConfig.resolution
        ((w >>> (ARINC429_BNR_MAX_DATA_FIELD_SHIFT - slot.msgConfig.numSigBits)) &&&
          (UINT32_MAX >>> (NUM_BITS_IN_UINT32 - slot.msgConfig.numSigBits - 1))) =
      some dataEng) :
    (ARINC429_ProcessStdBNRmessage slot w).1 = ARINC429_READ_MSG_SUCCESS ∧
    (ARINC429_ProcessStdBNRmessage slot w).2.data.engDataFloat = dataEng := by
  simp only [ARINC429_ProcessStdBNRmessage, hdec]
  simp

/-- **C2.** For every configuration with `num_sig_bits ∈ [1,20]` (its label
an 8-bit value, as in the C struct) and every engineering value `eng` with
`|eng| ≤ (2^(num_sig_bits-1)-1) * resolution`, assembling a BNR word from
`eng` with `ARINC429_AssembleStdBNRmessage` and decoding that word with
`ARINC429_ProcessStdBNRmessage` (on a slot carrying the same
configuration) succeeds and yields an engineering float equal to `eng` to
within half a resolution. -/
theorem bnr_codec_round_trip (cfg : ARINC429_LabelConfig) (SM SDI : Nat) (eng : ℚ)
    (slot : ARINC429_RxMsg)
    (h1 : 1 ≤ cfg.numSigBits) (h2 : cfg.numSigBits ≤ 20)
    (hlbl : cfg.label < 2 ^ 8)
    (hcfg : slot.msgConfig = cfg)
    (hrange : |eng| ≤ ((2 ^ (cfg.numSigBits - 1) - 1 : Nat) : ℚ) * cfg.resolution) :
    ∃ w : Nat,
      (ARINC429_AssembleStdBNRmessage
        { msgConfig := cfg, SM := SM, SDI := SDI, engData := eng,
          discreteBits := 0 }).2 = some w ∧
      (ARINC429_ProcessStdBNRmessage slot w).1 = ARINC429_READ_MSG_SUCCESS ∧
      |(ARINC429_ProcessStdBNRmessage slot w).2.data.engDataFloat - eng| ≤
        |cfg.resolution| / 2 := by
  have hM30 : 2 ^ (cfg.numSigBits - 1) - 1 ≤ 2 ^ 30 := by
    have hp := Nat.pow_le_pow_right (by norm_num : 1 ≤ 2)
      (by omega : cfg.numSigBits - 1 ≤ 19)
    have hp2 : (2 : Nat) ^ 19 ≤ 2 ^ 30 := by norm_num
    omega
  have hrange' : |eng| ≤ ((2 ^ (cfg.numSigBits - 1) - 1 : Nat) : ℚ) * |cfg.resolution| :=
    le_trans hrange (mul_le_mul_of_nonneg_left (le_abs_self _) (Nat.cast_nonneg _))
  obtain ⟨hA, hB⟩ := scaledRawValue_approx cfg.resolution eng _ hM30 hrange'
  have hcast : ((2 ^ cfg.numSigBits : Nat) : Int) = 2 ^ cfg.numSigBits := by
    push_cast; ring
  have hhalf : (2 : Nat) ^ cfg.numSigBits = 2 * 2 ^ (cfg.numSigBits - 1) := by
    rw [← pow_succ']
    congr 1
    omega
  have hxpos : 0 < (2 : Nat) ^ (cfg.numSigBits - 1) := Nat.two_pow_pos _
  have hlo : -(2 ^ cfg.numSigBits) ≤ ARINC429_BNR_ScaledRawValue cfg.resolution eng := by
    omega
  have hhi : ARINC429_BNR_ScaledRawValue cfg.resolution eng ≤ 2 ^ cfg.numSigBits - 1 := by
    omega
  have hconv := ConvertEngValToRaw_in_range cfg.numSigBits cfg.resolution eng h1 h2 hlo hhi
  obtain ⟨low, hlowlt, hw⟩ := AssembleStdBNRmessage_word
    { msgConfig := cfg, SM := SM, SDI := SDI, engData := eng, discreteBits := 0 }
    (toUint32 (ARINC429_BNR_ScaledRawValue cfg.resolution eng)) false h1 h2 hlbl rfl hconv
  have hqlt : toUint32 (ARINC429_BNR_ScaledRawValue cfg.resolution eng) %
      2 ^ (cfg.numSigBits + 1) < 2 ^ (cfg.numSigBits + 1) :=
    Nat.mod_lt _ (Nat.two_pow_pos _)
  have hext := bnr_word_extract cfg.numSigBits (SM &&& ARINC429_SSM_FIELD_LIMIT_MASK)
    (toUint32 (ARINC429_BNR_ScaledRawValue cfg.resolution eng) % 2 ^ (cfg.numSigBits + 1))
    low h1 h2 hqlt hlowlt
  have hdecW : ARINC429_BNR_ConvertRawMsgDataToEngUnits slot.msgConfig.numSigBits
      slot.msgConfig.resolution
      (((2 ^ 29 * (SM &&& ARINC429_SSM_FIELD_LIMIT_MASK) +
          (2 ^ (28 - cfg.numSigBits) *
              (toUint32 (ARINC429_BNR_ScaledRawValue cfg.resolution eng) %
                2 ^ (cfg.numSigBits + 1)) +
            low)) >>>
          (ARINC429_BNR_MAX_DATA_FIELD_SHIFT - slot.msgConfig.numSigBits)) &&&
        (UINT32_MAX >>> (NUM_BITS_IN_UINT32 - slot.msgConfig.numSigBits - 1))) =
      some ((ARINC429_BNR_ScaledRawValue cfg.resolution eng : ℚ) * cfg.resolution) := by
    rw [hcfg, hext]
    exact ConvertRawToEng_signed cfg.numSigBits cfg.resolution _ h1 h2 hlo hhi
  have hPS := ProcessStdBNRmessage_success slot _ _ hdecW
  refine ⟨_, hw, hPS.1, ?_⟩
  rw [hPS.2]
  exact hB

/-- Receive slot used to witness the BNR codec round trip (turn-rate
label 340 configuration). -/
def bnrTripFixtureSlot : ARINC429_RxMsg where
  msgConfig := arincLabel340Config
  data := uninitRxMsgData

/-- Transmit message used to witness the BNR codec round trip. -/
def bnrTripFixtureTx : ARINC429_TxMsg where
  msgConfig := arincLabel340Config
  SM := 3
  SDI := 0
  engData := 5
  discreteBits := 0

/-- Witness for `bnr_codec_round_trip` at the label-340 configuration with
`eng = 5`. -/
theorem bnr_codec_round_trip_witness :
    |(5 : ℚ)| ≤ ((2 ^ (arincLabel340Config.numSigBits - 1) - 1 : Nat) : ℚ) *
        arincLabel340Config.resolution ∧
    ∃ w : Nat,
      (ARINC429_AssembleStdBNRmessage bnrTripFixtureTx).2 = some w ∧
      (ARINC429_ProcessStdBNRmessage bnrTripFixtureSlot w).1 =
        ARINC429_READ_MSG_SUCCESS ∧
      |(ARINC429_ProcessStdBNRmessage bnrTripFixtureSlot w).2.data.engDataFloat - 5| ≤
        |arincLabel340Config.resolution| / 2 :=
  ⟨by norm_num [arincLabel340Config],
   bnr_codec_round_trip arincLabel340Config 3 0 5 bnrTripFixtureSlot
     (by norm_num [arincLabel340Config]) (by norm_num [arincLabel340Config])
     (by decide) rfl (by norm_num [arincLabel340Config])⟩

/-- **C3.** Overflow policy of BNR encoding: whenever the scaled raw value
does not fit the `numSigBits`-plus-sign data field, the field is clipped
to the extreme representable pattern of matching sign — `2^numSigBits - 1`
(decoding to `(2^numSigBits - 1)·resolution`) for positive overflow and
the sign-bit-only pattern `2^numSigBits` (decoding to
`-(2^numSigBits)·resolution`) for negative overflow; the clipped flag is
set and `ARINC429_AssembleStdBNRmessage` returns the distinct status
`SENT_DATA_CLIPPED`; the value never wraps.  For in-range scaled values
the clipped flag is false and the status is `SUCCESS`. -/
theorem bnr_overflow_clipping (cfg : ARINC429_LabelConfig) (SM SDI db : Nat) (eng : ℚ)
    (h1 : 1 ≤ cfg.numSigBits) (h2 : cfg.numSigBits ≤ 20) :
    (2 ^ cfg.numSigBits ≤ ARINC429_BNR_ScaledRawValue cfg.resolution eng →
      ARINC429_BNR_ConvertEngValToRawBNRmsgData cfg.numSigBits cfg.resolution eng =
        some (2 ^ cfg.numSigBits - 1, true) ∧
      (ARINC429_AssembleStdBNRmessage
        { msgConfig := cfg, SM := SM, SDI := SDI, engData := eng,
          discreteBits := db }).1 = ARINC429_WRITE_MSG_SENT_DATA_CLIPPED ∧
      ARINC429_BNR_ConvertRawMsgDataToEngUnits cfg.numSigBits cfg.resolution
          (2 ^ cfg.numSigBits - 1) =
        some (((2 : ℚ) ^ cfg.numSigBits - 1) * cfg.resolution)) ∧
    (ARINC429_BNR_ScaledRawValue cfg.resolution eng < -(2 ^ cfg.numSigBits) →
      ARINC429_BNR_ConvertEngValToRawBNRmsgData cfg.numSigBits cfg.resolution eng =
        some (2 ^ cfg.numSigBits, true) ∧
      (ARINC429_AssembleStdBNRmessage
        { msgConfig := cfg, SM := SM, SDI := SDI, engData := eng,
          discreteBits := db }).1 = ARINC429_WRITE_MSG_SENT_DATA_CLIPPED ∧
      ARINC429_BNR_ConvertRawMsgDataToEngUnits cfg.numSigBits cfg.resolution
          (2 ^ cfg.numSigBits) =
        some ((-((2 : ℚ) ^ cfg.numSigBits)) * cfg.resolution)) ∧
    (-(2 ^ cfg.numSigBits) ≤ ARINC429_BNR_ScaledRawValue cfg.resolution eng →
      ARINC429_BNR_ScaledRawValue cfg.resolution eng ≤ 2 ^ cfg.numSigBits - 1 →
      ARINC429_BNR_ConvertEngValToRawBNRmsgData cfg.numSigBits cfg.resolution eng =
        some (toUint32 (ARINC429_BNR_ScaledRawValue cfg.resolution eng), false) ∧
      (ARINC429_AssembleStdBNRmessage
        { msgConfig := cfg, SM := SM, SDI := SDI, engData := eng,
          discreteBits := db }).1 = ARINC429_WRITE_MSG_SUCCESS) := by
  have hcast : ((2 ^ cfg.numSigBits : Nat) : Int) = 2 ^ cfg.numSigBits := by
    push_cast; ring
  have hple : (2 : Nat) ^ cfg.numSigBits ≤ 2 ^ 20 :=
    Nat.pow_le_pow_right (by norm_num) h2
  have hple2 : (2 : Nat) ^ (cfg.numSigBits + 1) ≤ 2 ^ 21 :=
    Nat.pow_le_pow_right (by norm_num) (by omega)
  have hip : (0 : Int) < 2 ^ cfg.numSigBits := by positivity
  have hnp : 0 < (2 : Nat) ^ cfg.numSigBits := Nat.two_pow_pos _
  have hdbl : (2 : Nat) ^ (cfg.numSigBits + 1) = 2 ^ cfg.numSigBits * 2 :=
    pow_succ 2 cfg.numSigBits
  refine ⟨fun hof => ?_, fun hof => ?_, fun hlo hhi => ?_⟩
  · have hconv := ConvertEngValToRaw_pos_overflow cfg.numSigBits cfg.resolution eng
      h1 h2 hof
    refine ⟨hconv, ?_, ?_⟩
    · rw [AssembleStdBNRmessage_status _ _ _ hconv]
      rfl
    · have hdec := ConvertRawToEng_signed cfg.numSigBits cfg.resolution
        ((2 : Int) ^ cfg.numSigBits - 1) h1 h2 (by omega) (by omega)
      have ha : toUint32 ((2 : Int) ^ cfg.numSigBits - 1) %
          2 ^ (cfg.numSigBits + 1) = 2 ^ cfg.numSigBits - 1 := by
        rw [toUint32_of_nonneg (by omega) (by omega)]
        have h3 : ((2 : Int) ^ cfg.numSigBits - 1).toNat = 2 ^ cfg.numSigBits - 1 := by
          omega
        rw [h3, Nat.mod_eq_of_lt (by omega)]
      rw [ha] at hdec
      rw [hdec]
      congr 1
      push_cast
      ring
  · have hconv := ConvertEngValToRaw_neg_overflow cfg.numSigBits cfg.resolution eng
      h1 h2 hof
    refine ⟨hconv, ?_, ?_⟩
    · rw [AssembleStdBNRmessage_status _ _ _ hconv]
      rfl
    · have hdec := ConvertRawToEng_signed cfg.numSigBits cfg.resolution
        (-((2 : Int) ^ cfg.numSigBits)) h1 h2 (by omega) (by omega)
      have he : (2 : Nat) ^ (31 - cfg.numSigBits) * 2 ^ (cfg.numSigBits + 1) = 2 ^ 32 := by
        rw [← Nat.pow_add]; congr 1; omega
      have hm2 : ((2 : Nat) ^ (31 - cfg.numSigBits) - 1) * 2 ^ (cfg.numSigBits + 1) =
          2 ^ 32 - 2 ^ (cfg.numSigBits + 1) := by
        rw [Nat.mul_sub_right_distrib, Nat.one_mul, he]
      have ha : toUint32 (-((2 : Int) ^ cfg.numSigBits)) %
          2 ^ (cfg.numSigBits + 1) = 2 ^ cfg.numSigBits := by
        rw [toUint32_of_neg (by omega) (by omega)]
        have h3 : (-((2 : Int) ^ cfg.numSigBits)).natAbs = 2 ^ cfg.numSigBits := by
          omega
        rw [h3]
        have hsplit : 2 ^ 32 - 2 ^ cfg.numSigBits = 2 ^ cfg.numSigBits +
            ((2 : Nat) ^ (31 - cfg.numSigBits) - 1) * 2 ^ (cfg.numSigBits + 1) := by
          omega
        rw [hsplit, Nat.add_mul_mod_self_right, Nat.mod_eq_of_lt (by omega)]
      rw [ha] at hdec
      rw [hdec]
      congr 1
      push_cast
      ring
  · have hconv := ConvertEngValToRaw_in_range cfg.numSigBits cfg.resolution eng
      h1 h2 hlo hhi
    refine ⟨hconv, ?_⟩
    rw [AssembleStdBNRmessage_status _ _ _ hconv]
    rfl

/-- Witness for `bnr_overflow_clipping`: positive overflow of the
label-340 configuration at `eng = 1000000`. -/
theorem bnr_overflow_clipping_witness :
    2 ^ arincLabel340Config.numSigBits ≤
      ARINC429_BNR_ScaledRawValue arincLabel340Config.resolution 1000000 ∧
    (ARINC429_BNR_ConvertEngValToRawBNRmsgData arincLabel340Config.numSigBits
        arincLabel340Config.resolution 1000000 =
      some (2 ^ arincLabel340Config.numSigBits - 1, true) ∧
    (ARINC429_AssembleStdBNRmessage
      { msgConfig := arincLabel340Config, SM := 3, SDI := 0, engData := 1000000,
        discreteBits := 0 }).1 = ARINC429_WRITE_MSG_SENT_DATA_CLIPPED ∧
    ARINC429_BNR_ConvertRawMsgDataToEngUnits arincLabel340Config.numSigBits
        arincLabel340Config.resolution (2 ^ arincLabel340Config.numSigBits - 1) =
      some (((2 : ℚ) ^ arincLabel340Config.numSigBits - 1) *
        arincLabel340Config.resolution)) := by
  have hsc : ARINC429_BNR_ScaledRawValue arincLabel340Config.resolution 1000000 =
      64000000 := by
    rw [scaledRawValue_eq _ _ (by norm_num [arincLabel340Config])]
    have hdiv : (1000000 : ℚ) / arincLabel340Config.resolution = 64000000 := by
      norm_num [arincLabel340Config]
    rw [hdiv, if_neg (by norm_num), clampQ_id (by norm_num) (by norm_num),
      truncQ, if_neg (by norm_num)]
    rw [Int.floor_eq_iff]
    constructor <;> norm_num
  have hof : 2 ^ arincLabel340Config.numSigBits ≤
      ARINC429_BNR_ScaledRawValue arincLabel340Config.resolution 1000000 := by
    rw [hsc]
    norm_num [arincLabel340Config]
  exact ⟨hof, (bnr_overflow_clipping arincLabel340Config 3 0 0 1000000
    (by norm_num [arincLabel340Config]) (by norm_num [arincLabel340Config])).1 hof⟩

/-! ## C9 : BCD codec round trip -/

/-- The packed-BCD representation of the first `k` decimal digits of `d`
(one nibble per digit, least significant digit in the low nibble): the
value accumulated by the digit-packing loop of
`ARINC429_BCD_ConvertEngValToBCD`. -/
def bcdRep : Nat → Nat → Nat
  | _, 0 => 0
  | d, k + 1 => d % 10 + 16 * bcdRep (d / 10) k

theorem bcdRep_zero (k : Nat) : bcdRep 0 k = 0 := by
  induction k with
  | zero => rfl
  | succ f ih => simp [bcdRep, ih]

theorem bcdRep_eq_zero (k : Nat) : ∀ temp, temp * 10 < 8 * 10 ^ k →
    bcdRep temp k = 0 → temp = 0 := by
  induction k with
  | zero =>
    intro temp hb _
    simp only [pow_zero, Nat.mul_one] at hb
    omega
  | succ f ih =>
    intro temp hb h0
    simp only [bcdRep] at h0
    have hpow : (10 : Nat) ^ (f + 1) = 10 * 10 ^ f := by
      rw [pow_succ]; ring
    have hq : temp / 10 = 0 := ih (temp / 10) (by omega) (by omega)
    omega

/-- Within the most-significant-character bound, the packed-BCD image fits
in `4k - 1` bits (the top digit is at most 7). -/
theorem bcdRep_lt (k : Nat) : ∀ temp, temp * 10 < 8 * 10 ^ (k + 1) →
    bcdRep temp (k + 1) < 2 ^ (4 * (k + 1) - 1) := by
  induction k with
  | zero =>
    intro temp hb
    have h1 : bcdRep temp 1 = temp % 10 + 16 * bcdRep (temp / 10) 0 := rfl
    have h2 : bcdRep (temp / 10) 0 = 0 := rfl
    have h3 : (2 : Nat) ^ (4 * (0 + 1) - 1) = 8 := by norm_num
    rw [h1, h2, h3]
    omega
  | succ f ih =>
    intro temp hb
    have hpow : (10 : Nat) ^ (f + 1 + 1) = 10 * 10 ^ (f + 1) := by
      rw [pow_succ]; ring
    have ih2 := ih (temp / 10) (by omega)
    have h1 : bcdRep temp (f + 1 + 1) =
        temp % 10 + 16 * bcdRep (temp / 10) (f + 1) := rfl
    rw [h1]
    have he : (2 : Nat) ^ (4 * (f + 1 + 1) - 1) = 2 ^ 4 * 2 ^ (4 * (f + 1) - 1) := by
      rw [show 4 * (f + 1 + 1) - 1 = 4 + (4 * (f + 1) - 1) by omega, Nat.pow_add]
    omega

/-- Run of the digit-packing loop of `ARINC429_BCD_ConvertEngValToBCD`
from an in-bound scaled value: no clipping, and the accumulator receives
the packed-BCD image at nibble `count`. -/
theorem engToBCDLoop_run (nsd : Nat) :
    ∀ (fuel temp asBCD count : Nat),
      count + fuel = nsd →
      temp * 10 < 8 * 10 ^ fuel →
      engToBCDLoop nsd ARINC429_BCD_STD_MSG_MAX_NUM_BITS_MSC fuel temp asBCD count =
        (asBCD + 16 ^ count * bcdRep temp fuel, 0) := by
  intro fuel
  induction fuel with
  | zero =>
    intro temp asBCD count hc hb
    have ht : temp = 0 := by simp only [pow_zero, Nat.mul_one] at hb; omega
    subst ht
    have h1 : engToBCDLoop nsd ARINC429_BCD_STD_MSG_MAX_NUM_BITS_MSC 0 0 asBCD count =
        (asBCD, 0) := rfl
    have h2 : bcdRep 0 0 = 0 := rfl
    rw [h1, h2, Nat.mul_zero, Nat.add_zero]
  | succ f ih =>
    intro temp asBCD count hc hb
    by_cases ht : 0 < temp
    · have h7 : UINT32_MAX >>>
          (NUM_BITS_IN_UINT32 - ARINC429_BCD_STD_MSG_MAX_NUM_BITS_MSC) = 7 := by
        decide
      have hpow : (10 : Nat) ^ (f + 1) = 10 * 10 ^ f := by
        rw [pow_succ]; ring
      have hmsc : ¬(nsd = count + 1 ∧
          temp % 10 > UINT32_MAX >>>
            (NUM_BITS_IN_UINT32 - ARINC429_BCD_STD_MSG_MAX_NUM_BITS_MSC)) := by
        rw [h7]
        rintro ⟨hlast, hdig⟩
        have hf0 : f = 0 := by omega
        subst hf0
        norm_num at hb
        omega
      rw [engToBCDLoop, if_pos ⟨ht, by omega⟩]
      dsimp only
      rw [if_neg hmsc, ih (temp / 10) _ (count + 1) (by omega)
        (by have := Nat.div_mul_le_self temp 10; omega)]
      simp only [bcdRep, Prod.mk.injEq, and_true]
      rw [Nat.shiftLeft_eq, ARINC429_BCD_BITS_PER_DIGIT]
      have h16 : (2 : Nat) ^ (4 * count) = 16 ^ count := by
        rw [Nat.pow_mul]
      rw [h16, pow_succ]
      ring
    · have ht0 : temp = 0 := by omega
      subst ht0
      rw [engToBCDLoop, if_neg (by simp), bcdRep_zero]
      simp

/-- Run of the digit-extraction loop of `ARINC429_BCD_ConvertBCDvalToEngVal`
on a packed-BCD image: all digits are valid, the whole image is consumed
and the scaled value is recovered at the current power of ten. -/
theorem bcdToEngLoop_run (nsd : Nat) :
    ∀ (fuel temp calcValue multVal count : Nat),
      count + fuel = nsd →
      temp * 10 < 8 * 10 ^ fuel →
      bcdToEngLoop nsd fuel (bcdRep temp fuel) calcValue multVal count =
        (calcValue + multVal * temp, 0) := by
  intro fuel
  induction fuel with
  | zero =>
    intro temp calcValue multVal count hc hb
    have ht : temp = 0 := by simp only [pow_zero, Nat.mul_one] at hb; omega
    subst ht
    have h1 : bcdToEngLoop nsd 0 (bcdRep 0 0) calcValue multVal count =
        (calcValue, bcdRep 0 0) := rfl
    have h2 : bcdRep 0 0 = 0 := rfl
    rw [h1, h2, Nat.mul_zero, Nat.add_zero]
  | succ f ih =>
    intro temp calcValue multVal count hc hb
    by_cases ht : 0 < temp
    · have hpow : (10 : Nat) ^ (f + 1) = 10 * 10 ^ f := by
        rw [pow_succ]; ring
      have hBpos : 0 < bcdRep temp (f + 1) := by
        by_contra hz
        exact absurd (bcdRep_eq_zero (f + 1) temp hb (by omega)) (by omega)
      have hdig : bcdRep temp (f + 1) &&& 0xF = temp % 10 := by
        have h15 : (0xF : Nat) = 2 ^ 4 - 1 := by norm_num
        rw [h15, Nat.and_pow_two_sub_one_eq_mod]
        simp only [bcdRep]
        rw [show (16 : Nat) = 2 ^ 4 by norm_num, Nat.add_mul_mod_self_left,
          Nat.mod_eq_of_lt (by omega : temp % 10 < 2 ^ 4)]
      have hshift : bcdRep temp (f + 1) >>> ARINC429_BCD_BITS_PER_DIGIT =
          bcdRep (temp / 10) f := by
        rw [ARINC429_BCD_BITS_PER_DIGIT, Nat.shiftRight_eq_div_pow]
        simp only [bcdRep]
        rw [show (16 : Nat) = 2 ^ 4 by norm_num,
          Nat.add_mul_div_left _ _ (by norm_num : (0 : Nat) < 2 ^ 4),
          Nat.div_eq_of_lt (by omega : temp % 10 < 2 ^ 4), Nat.zero_add]
      rw [bcdToEngLoop, if_pos ⟨hBpos, by omega⟩]
      dsimp only
      rw [hdig, if_neg (by rw [ARINC429_BCD_MAX_DIGIT_VAL]; omega), hshift,
        ih (temp / 10) _ _ (count + 1) (by omega)
          (by have := Nat.div_mul_le_self temp 10; omega)]
      simp only [Prod.mk.injEq, and_true]
      have hsplit : temp = 10 * (temp / 10) + temp % 10 := by omega
      calc calcValue + multVal * (temp % 10) + multVal * 10 * (temp / 10)
          = calcValue + multVal * (10 * (temp / 10) + temp % 10) := by ring
        _ = calcValue + multVal * temp := by rw [← hsplit]
    · have ht0 : temp = 0 := by omega
      subst ht0
      rw [bcdRep_zero, bcdToEngLoop, if_neg (by simp)]
      simp

/-- The data-field shifting-and-masking of `ARINC429_AssembleStdBCDmessage`
is the identity on in-bound packed-BCD fields, shifted to their window. -/
theorem bcd_dataFieldShifted (nsd D : Nat) (h1 : 1 ≤ nsd) (h2 : nsd ≤ 5)
    (hD : D < 2 ^ (4 * nsd - 1)) :
    u32 (D <<< (ARINC429_BCD_STD_MSG_DATA_FIELD_SHIFT + ARINC429_BCD_BITS_PER_DIGIT *
        (ARINC429_BCD_STD_MSG_MAX_NUM_SIGDIGITS - nsd))) &&& ARINC429_BCD_DATAFIELDMASK =
      2 ^ (10 + 4 * (5 - nsd)) * D := by
  rw [ARINC429_BCD_STD_MSG_DATA_FIELD_SHIFT, ARINC429_BCD_BITS_PER_DIGIT,
    ARINC429_BCD_STD_MSG_MAX_NUM_SIGDIGITS, ARINC429_BCD_DATAFIELDMASK,
    u32, Nat.shiftLeft_eq]
  have hprod : (2 : Nat) ^ (4 * nsd - 1) * 2 ^ (10 + 4 * (5 - nsd)) = 2 ^ 29 := by
    rw [← Nat.pow_add]; congr 1; omega
  have hlt : D * 2 ^ (10 + 4 * (5 - nsd)) < 2 ^ 29 := by
    calc D * 2 ^ (10 + 4 * (5 - nsd)) < 2 ^ (4 * nsd - 1) * 2 ^ (10 + 4 * (5 - nsd)) :=
          Nat.mul_lt_mul_of_lt_of_le hD (Nat.le_refl _) (Nat.two_pow_pos _)
      _ = 2 ^ 29 := hprod
  rw [Nat.mod_eq_of_lt (lt_trans hlt (by norm_num))]
  have hm : (0x1FFFFC00 : Nat) = (2 ^ 19 - 1) <<< 10 := by
    rw [Nat.shiftLeft_eq]; norm_num
  rw [hm, and_mask_window]
  have hsplit : (2 : Nat) ^ (10 + 4 * (5 - nsd)) = 2 ^ (4 * (5 - nsd)) * 2 ^ 10 := by
    rw [← Nat.pow_add]; congr 1; omega
  rw [hsplit, ← Nat.mul_assoc, Nat.mul_div_cancel _ (Nat.two_pow_pos 10)]
  have hlt19 : D * 2 ^ (4 * (5 - nsd)) < 2 ^ 19 := by
    have hp19 : (2 : Nat) ^ (4 * nsd - 1) * 2 ^ (4 * (5 - nsd)) = 2 ^ 19 := by
      rw [← Nat.pow_add]; congr 1; omega
    calc D * 2 ^ (4 * (5 - nsd)) < 2 ^ (4 * nsd - 1) * 2 ^ (4 * (5 - nsd)) :=
          Nat.mul_lt_mul_of_lt_of_le hD (Nat.le_refl _) (Nat.two_pow_pos _)
      _ = 2 ^ 19 := hp19
  rw [Nat.mod_eq_of_lt hlt19]
  ring

/-- Masking then shifting a word of the assembled BCD shape recovers the
packed-BCD data field. -/
theorem bcd_word_extract (nsd a D low : Nat) (h1 : 1 ≤ nsd) (h2 : nsd ≤ 5)
    (hD : D < 2 ^ (4 * nsd - 1)) (hlow : low < 2 ^ 10) :
    ((2 ^ 29 * a + (2 ^ (10 + 4 * (5 - nsd)) * D + low)) &&&
        ARINC429_BCD_DATAFIELDMASK) >>>
      (ARINC429_BCD_STD_MSG_DATA_FIELD_SHIFT + ARINC429_BCD_BITS_PER_DIGIT *
        (ARINC429_BCD_STD_MSG_MAX_NUM_SIGDIGITS - nsd)) = D := by
  rw [ARINC429_BCD_STD_MSG_DATA_FIELD_SHIFT, ARINC429_BCD_BITS_PER_DIGIT,
    ARINC429_BCD_STD_MSG_MAX_NUM_SIGDIGITS, ARINC429_BCD_DATAFIELDMASK]
  have hm : (0x1FFFFC00 : Nat) = (2 ^ 19 - 1) <<< 10 := by
    rw [Nat.shiftLeft_eq]; norm_num
  rw [hm, and_mask_window]
  have h10e : (2 : Nat) ^ (10 + 4 * (5 - nsd)) = 2 ^ 10 * 2 ^ (4 * (5 - nsd)) := by
    rw [← Nat.pow_add]
  have hsplit : 2 ^ 29 * a + (2 ^ (10 + 4 * (5 - nsd)) * D + low) =
      2 ^ 10 * (2 ^ 19 * a + 2 ^ (4 * (5 - nsd)) * D) + low := by
    have h29 : (2 : Nat) ^ 29 = 2 ^ 10 * 2 ^ 19 := by norm_num
    rw [h29, h10e]
    ring
  rw [hsplit, Nat.mul_add_div (Nat.two_pow_pos 10), Nat.div_eq_of_lt hlow, Nat.add_zero]
  have hlt19 : 2 ^ (4 * (5 - nsd)) * D < 2 ^ 19 := by
    have hp19 : (2 : Nat) ^ (4 * (5 - nsd)) * 2 ^ (4 * nsd - 1) = 2 ^ 19 := by
      rw [← Nat.pow_add]; congr 1; omega
    calc 2 ^ (4 * (5 - nsd)) * D < 2 ^ (4 * (5 - nsd)) * 2 ^ (4 * nsd - 1) :=
          Nat.mul_lt_mul_of_le_of_lt (Nat.le_refl _) hD (Nat.two_pow_pos _)
      _ = 2 ^ 19 := hp19
  rw [Nat.add_comm (2 ^ 19 * a) (2 ^ (4 * (5 - nsd)) * D), Nat.mul_comm (2 ^ 19) a,
    Nat.add_mul_mod_self_right, Nat.mod_eq_of_lt hlt19, Nat.shiftRight_eq_div_pow]
  have hnum : 2 ^ (4 * (5 - nsd)) * D * 2 ^ 10 = 2 ^ (10 + 4 * (5 - nsd)) * D := by
    rw [h10e]
    ring
  rw [hnum, Nat.mul_div_cancel_left _ (Nat.two_pow_pos _)]

/-- `ARINC429_ProcessStdBCDmessage` on a word whose data-field decode
succeeds: returns SUCCESS and stores the decoded engineering value. -/
theorem ProcessStdBCDmessage_success (slot : ARINC429_RxMsg) (w : Nat) (dataEng : ℚ)
    (hcfgok : ¬(slot.msgConfig.numSigDigits < 1 ∨
      slot.msgConfig.numSigDigits > ARINC429_BCD_STD_MSG_MAX_NUM_SIGDIGITS ∨
      (slot.msgConfig.numSigDigits * 4 - 1) + slot.msgConfig.numDiscreteBits >
        ARINC429_BCD_STD_DATA_MAX_DATA_FIELD_SIZE))
    (hdec : ARINC429_BCD_ConvertBCDvalToEngVal slot.msgConfig.numSigDigits
        slot.msgConfig.resolution
        ((w &&& ARINC429_BCD_DATAFIELDMASK) >>>
          (ARINC429_BCD_STD_MSG_DATA_FIELD_SHIFT + ARINC429_BCD_BITS_PER_DIGIT *
            (ARINC429_BCD_STD_MSG_MAX_NUM_SIGDIGITS - slot.msgConfig.numSigDigits))) =
      some dataEng) :
    (ARINC429_ProcessStdBCDmessage slot w).1 = ARINC429_READ_MSG_SUCCESS ∧
    (ARINC429_ProcessStdBCDmessage slot w).2.data.engDataFloat = dataEng := by
  rw [ARINC429_ProcessStdBCDmessage, if_neg hcfgok]
  dsimp only
  rw [hdec]
  exact ⟨rfl, rfl⟩

/-- The BCD encode/decode pipeline on an engineering value whose scaled
image is exactly the natural number `t0` (in bound for the digit count and
3-bit most-significant character). -/
theorem bcd_pipeline (cfg : ARINC429_LabelConfig) (SM SDI : Nat) (eng : ℚ)
    (t0 : Nat) (slot : ARINC429_RxMsg)
    (h1 : 1 ≤ cfg.numSigDigits) (h2 : cfg.numSigDigits ≤ 5)
    (hfield : (cfg.numSigDigits * 4 - 1) + cfg.numDiscreteBits ≤ 19)
    (hlbl : cfg.label < 2 ^ 8)
    (hcfg : slot.msgConfig = cfg)
    (ht0 : t0 < 8 * 10 ^ (cfg.numSigDigits - 1))
    (heng0 : ¬(eng < 0))
    (htemp : (truncQ (min ((if cfg.resolution ≠ 0 then eng / cfg.resolution else 0) +
        (1/2 : ℚ)) ((2 ^ 32 : ℚ) - 1))).toNat = t0) :
    ∃ w : Nat,
      (ARINC429_AssembleStdBCDmessage
        { msgConfig := cfg, SM := SM, SDI := SDI, engData := eng,
          discreteBits := 0 }).2 = some w ∧
      (ARINC429_ProcessStdBCDmessage slot w).1 = ARINC429_READ_MSG_SUCCESS ∧
      (ARINC429_ProcessStdBCDmessage slot w).2.data.engDataFloat =
        (t0 : ℚ) * cfg.resolution := by
  have hnsd1 : cfg.numSigDigits - 1 + 1 = cfg.numSigDigits := by omega
  have hpow10 : (10 : Nat) ^ cfg.numSigDigits = 10 * 10 ^ (cfg.numSigDigits - 1) := by
    conv_lhs => rw [← hnsd1]
    rw [pow_succ]
    ring
  have htb : t0 * 10 < 8 * 10 ^ cfg.numSigDigits := by omega
  have hD := bcdRep_lt (cfg.numSigDigits - 1) t0 (by rw [hnsd1]; exact htb)
  rw [hnsd1] at hD
  have hbad : ¬(cfg.numSigDigits < 1 ∨
      cfg.numSigDigits > ARINC429_BCD_STD_MSG_MAX_NUM_SIGDIGITS ∨
      ARINC429_BCD_STD_MSG_MAX_NUM_BITS_MSC < 1 ∨
      ARINC429_BCD_STD_MSG_MAX_NUM_BITS_MSC > ARINC429_BCD_BITS_PER_DIGIT) := by
    rw [ARINC429_BCD_STD_MSG_MAX_NUM_SIGDIGITS, ARINC429_BCD_STD_MSG_MAX_NUM_BITS_MSC,
      ARINC429_BCD_BITS_PER_DIGIT]
    omega
  have hloop := engToBCDLoop_run cfg.numSigDigits cfg.numSigDigits t0 0 0 (by omega) htb
  have hconv : ARINC429_BCD_ConvertEngValToBCD cfg.numSigDigits cfg.resolution
      ARINC429_BCD_STD_MSG_MAX_NUM_BITS_MSC eng =
      some (bcdRep t0 cfg.numSigDigits, false) := by
    rw [ARINC429_BCD_ConvertEngValToBCD, if_neg hbad]
    dsimp only
    rw [htemp, hloop]
    simp
  have hbad2 : ¬(cfg.numSigDigits < 1 ∨
      cfg.numSigDigits > ARINC429_BCD_STD_MSG_MAX_NUM_SIGDIGITS ∨
      (cfg.numSigDigits * 4 - 1) + cfg.numDiscreteBits >
        ARINC429_BCD_STD_DATA_MAX_DATA_FIELD_SIZE) := by
    rw [ARINC429_BCD_STD_MSG_MAX_NUM_SIGDIGITS, ARINC429_BCD_STD_DATA_MAX_DATA_FIELD_SIZE]
    omega
  have hsdi10 : (SDI &&& ARINC429_SDI_FIELD_LIMIT_MASK) <<<
      ARINC429_SDI_FIELD_SHIFT_VAL < 2 ^ 10 := by
    rw [ARINC429_SDI_FIELD_SHIFT_VAL, Nat.shiftLeft_eq]
    have hsdi3 : SDI &&& ARINC429_SDI_FIELD_LIMIT_MASK ≤ 3 := by
      have h := Nat.and_le_right (n := SDI) (m := ARINC429_SDI_FIELD_LIMIT_MASK)
      rw [ARINC429_SDI_FIELD_LIMIT_MASK] at h
      exact h
    have := Nat.mul_le_mul_right (2 ^ 8) hsdi3
    omega
  have hlow10 : cfg.label ||| ((SDI &&& ARINC429_SDI_FIELD_LIMIT_MASK) <<<
      ARINC429_SDI_FIELD_SHIFT_VAL) < 2 ^ 10 :=
    Nat.or_lt_two_pow (Nat.lt_of_lt_of_le hlbl (by norm_num)) hsdi10
  have hs10 : (2 : Nat) ^ 10 ≤ 2 ^ (10 + 4 * (5 - cfg.numSigDigits)) :=
    Nat.pow_le_pow_right (by norm_num) (by omega)
  have hlowS : cfg.label ||| ((SDI &&& ARINC429_SDI_FIELD_LIMIT_MASK) <<<
      ARINC429_SDI_FIELD_SHIFT_VAL) < 2 ^ (10 + 4 * (5 - cfg.numSigDigits)) :=
    Nat.lt_of_lt_of_le hlow10 hs10
  have hq : bcdRep t0 cfg.numSigDigits <
      2 ^ (29 - (10 + 4 * (5 - cfg.numSigDigits))) := by
    have he2 : 29 - (10 + 4 * (5 - cfg.numSigDigits)) = 4 * cfg.numSigDigits - 1 := by
      omega
    rw [he2]
    exact hD
  have hssm : (SM &&& ARINC429_SSM_FIELD_LIMIT_MASK) <<< ARINC429_SSM_FIELD_SHIFT_VAL =
      2 ^ 29 * (SM &&& ARINC429_SSM_FIELD_LIMIT_MASK) := by
    rw [ARINC429_SSM_FIELD_SHIFT_VAL, Nat.shiftLeft_eq, Nat.mul_comm]
  have hword : (ARINC429_AssembleStdBCDmessage
      { msgConfig := cfg, SM := SM, SDI := SDI, engData := eng,
        discreteBits := 0 }).2 =
      some (2 ^ 29 * (SM &&& ARINC429_SSM_FIELD_LIMIT_MASK) +
        (2 ^ (10 + 4 * (5 - cfg.numSigDigits)) * bcdRep t0 cfg.numSigDigits +
          (cfg.label ||| ((SDI &&& ARINC429_SDI_FIELD_LIMIT_MASK) <<<
            ARINC429_SDI_FIELD_SHIFT_VAL)))) := by
    simp only [ARINC429_AssembleStdBCDmessage]
    rw [if_neg hbad2, if_neg heng0, hconv]
    dsimp only
    simp only [Nat.zero_and, Nat.zero_shiftLeft, ite_self, Nat.or_zero]
    rw [bcd_dataFieldShifted cfg.numSigDigits (bcdRep t0 cfg.numSigDigits) h1 h2 hD,
      hssm, bnr_word_or_eq_add _ _ _ hlowS hq (by omega)]
  have hdecloop := bcdToEngLoop_run cfg.numSigDigits cfg.numSigDigits t0 0 1 0
    (by omega) htb
  have hdec : ARINC429_BCD_ConvertBCDvalToEngVal cfg.numSigDigits cfg.resolution
      (bcdRep t0 cfg.numSigDigits) = some ((t0 : ℚ) * cfg.resolution) := by
    rw [ARINC429_BCD_ConvertBCDvalToEngVal,
      if_neg (by rw [ARINC429_BCD_STD_MSG_MAX_NUM_SIGDIGITS]; omega)]
    dsimp only
    rw [hdecloop]
    simp
  have hbad3 : ¬(slot.msgConfig.numSigDigits < 1 ∨
      slot.msgConfig.numSigDigits > ARINC429_BCD_STD_MSG_MAX_NUM_SIGDIGITS ∨
      (slot.msgConfig.numSigDigits * 4 - 1) + slot.msgConfig.numDiscreteBits >
        ARINC429_BCD_STD_DATA_MAX_DATA_FIELD_SIZE) := by
    rw [hcfg]
    exact hbad2
  have hextract := bcd_word_extract cfg.numSigDigits
    (SM &&& ARINC429_SSM_FIELD_LIMIT_MASK) (bcdRep t0 cfg.numSigDigits)
    (cfg.label ||| ((SDI &&& ARINC429_SDI_FIELD_LIMIT_MASK) <<<
      ARINC429_SDI_FIELD_SHIFT_VAL)) h1 h2 hD hlow10
  have hPS := ProcessStdBCDmessage_success slot
    (2 ^ 29 * (SM &&& ARINC429_SSM_FIELD_LIMIT_MASK) +
      (2 ^ (10 + 4 * (5 - cfg.numSigDigits)) * bcdRep t0 cfg.numSigDigits +
        (cfg.label ||| ((SDI &&& ARINC429_SDI_FIELD_LIMIT_MASK) <<<
          ARINC429_SDI_FIELD_SHIFT_VAL))))
    ((t0 : ℚ) * cfg.resolution) hbad3 (by rw [hcfg, hextract]; exact hdec)
  exact ⟨_, hword, hPS.1, hPS.2⟩

/-- **C9.** For every valid BCD configuration (digit count in `[1,5]`,
data plus discrete bits within the 19-bit field, 8-bit label, nonnegative
resolution) and every nonnegative engineering value exactly representable
within the configured digit count — `eng = d · resolution` with the
most-significant character of `d` within its 3-bit bound — assembling a
BCD word with `ARINC429_AssembleStdBCDmessage` and decoding it with
`ARINC429_ProcessStdBCDmessage` returns exactly the original engineering
value. -/
theorem bcd_codec_round_trip (cfg : ARINC429_LabelConfig) (SM SDI d : Nat)
    (slot : ARINC429_RxMsg)
    (h1 : 1 ≤ cfg.numSigDigits) (h2 : cfg.numSigDigits ≤ 5)
    (hfield : (cfg.numSigDigits * 4 - 1) + cfg.numDiscreteBits ≤ 19)
    (hlbl : cfg.label < 2 ^ 8)
    (hres : 0 ≤ cfg.resolution)
    (hcfg : slot.msgConfig = cfg)
    (hd : d < 8 * 10 ^ (cfg.numSigDigits - 1)) :
    ∃ w : Nat,
      (ARINC429_AssembleStdBCDmessage
        { msgConfig := cfg, SM := SM, SDI := SDI,
          engData := (d : ℚ) * cfg.resolution, discreteBits := 0 }).2 = some w ∧
      (ARINC429_ProcessStdBCDmessage slot w).1 = ARINC429_READ_MSG_SUCCESS ∧
      (ARINC429_ProcessStdBCDmessage slot w).2.data.engDataFloat =
        (d : ℚ) * cfg.resolution := by
  have heng0 : ¬((d : ℚ) * cfg.resolution < 0) :=
    not_lt.mpr (mul_nonneg (Nat.cast_nonneg d) hres)
  have hflhalf : ⌊(1 : ℚ)/2⌋ = 0 := by
    rw [Int.floor_eq_zero_iff, Set.mem_Ico]
    norm_num
  by_cases hres0 : cfg.resolution = 0
  · have htemp0 : (truncQ (min ((if cfg.resolution ≠ 0 then
        (d : ℚ) * cfg.resolution / cfg.resolution else 0) + (1/2 : ℚ))
        ((2 ^ 32 : ℚ) - 1))).toNat = 0 := by
      rw [if_neg (by simp [hres0])]
      have hhalf : (0 : ℚ) + 1/2 = 1/2 := by norm_num
      rw [hhalf, min_eq_left (by norm_num), truncQ,
        if_neg (by norm_num : ¬((1 : ℚ)/2 < 0)), hflhalf]
      rfl
    obtain ⟨w, hw, hst, hval⟩ := bcd_pipeline cfg SM SDI ((d : ℚ) * cfg.resolution) 0
      slot h1 h2 hfield hlbl hcfg (by positivity) heng0 htemp0
    refine ⟨w, hw, hst, ?_⟩
    rw [hval, hres0]
    ring
  · have hd80000 : d < 80000 := by
      have hple : (10 : Nat) ^ (cfg.numSigDigits - 1) ≤ 10 ^ 4 :=
        Nat.pow_le_pow_right (by norm_num) (by omega)
      have : (10 : Nat) ^ 4 = 10000 := by norm_num
      omega
    have hdQ : (d : ℚ) < 80000 := by exact_mod_cast hd80000
    have htempd : (truncQ (min ((if cfg.resolution ≠ 0 then
        (d : ℚ) * cfg.resolution / cfg.resolution else 0) + (1/2 : ℚ))
        ((2 ^ 32 : ℚ) - 1))).toNat = d := by
      rw [if_pos hres0, mul_div_cancel_right₀ _ hres0,
        min_eq_left (by norm_num; linarith), truncQ,
        if_neg (not_lt.mpr (by positivity))]
      have hfl : ⌊(d : ℚ) + 1/2⌋ = (d : Int) := by
        rw [Int.floor_eq_iff]
        constructor
        · push_cast
          linarith
        · push_cast
          linarith
      rw [hfl]
      exact Int.toNat_natCast d
    obtain ⟨w, hw, hst, hval⟩ := bcd_pipeline cfg SM SDI ((d : ℚ) * cfg.resolution) d
      slot h1 h2 hfield hlbl hcfg hd heng0 htempd
    exact ⟨w, hw, hst, hval⟩

/-- Receive slot used to witness the BCD codec round trip (baro-correction
label 235 configuration). -/
def bcdTripFixtureSlot : ARINC429_RxMsg where
  msgConfig := arincLabel235Config
  data := uninitRxMsgData

/-- Transmit message used to witness the BCD codec round trip
(`29.921 inHg` = 29921 counts of the 0.001 resolution). -/
def bcdTripFixtureTx : ARINC429_TxMsg where
  msgConfig := arincLabel235Config
  SM := 0
  SDI := 0
  engData := ((29921 : Nat) : ℚ) * arincLabel235Config.resolution
  discreteBits := 0

/-- Witness for `bcd_codec_round_trip` at the label-235 configuration with
`d = 29921`. -/
theorem bcd_codec_round_trip_witness :
    (29921 : Nat) < 8 * 10 ^ (arincLabel235Config.numSigDigits - 1) ∧
    ∃ w : Nat,
      (ARINC429_AssembleStdBCDmessage bcdTripFixtureTx).2 = some w ∧
      (ARINC429_ProcessStdBCDmessage bcdTripFixtureSlot w).1 =
        ARINC429_READ_MSG_SUCCESS ∧
      (ARINC429_ProcessStdBCDmessage bcdTripFixtureSlot w).2.data.engDataFloat =
        ((29921 : Nat) : ℚ) * arincLabel235Config.resolution :=
  ⟨by norm_num [arincLabel235Config],
   bcd_codec_round_trip arincLabel235Config 0 0 29921 bcdTripFixtureSlot
     (by norm_num [arincLabel235Config]) (by norm_num [arincLabel235Config])
     (by norm_num [arincLabel235Config]) (by decide)
     (by norm_num [arincLabel235Config]) rfl
     (by norm_num [arincLabel235Config])⟩

end ProSCAPE
